import Mathlib

/-! The library sample_libcrypto: a shallow embedding of
`sdk/sample_libcrypto/sample_libcrypto.cpp`.

The translation unit wraps the IPP cryptography primitives behind twelve
operations.  The wrapped library is outside the translation unit, so its
behaviour is taken as a parameter:

* what each library call and each `malloc` reports (status, size, verdict,
  whether the allocation succeeded) is read from an environment `Env`, one
  response per external interaction, in program order;
* the data a library call computes is given by the fields of `IppLib`.

Every operation returns its status together with the caller-visible memory it
was given (pointers are `Option`s, `none` being `NULL`) and the trace of
external events it performed (library calls, allocations, `memset_s`, `free`,
writes to caller memory).
-/

namespace SampleLibcrypto

/-! ## Status codes -/

/-- Values of `sample_status_t` used by the translation unit (declared in
`sample_libcrypto.h`). -/
inductive sample_status_t
  | SAMPLE_SUCCESS
  | SAMPLE_ERROR_UNEXPECTED
  | SAMPLE_ERROR_INVALID_PARAMETER
  | SAMPLE_ERROR_OUT_OF_MEMORY
  deriving DecidableEq, Repr

/-- Values of `IppStatus` (declared in `ippcp.h`).  The constants named in the
translation unit are kept apart; every other status of the library, warnings
included, is `ippStsOther code`.  `ippStsNoErr` is the zero status, the only one
for which `ERROR_BREAK` does not break. -/
inductive IppStatus
  | ippStsNoErr
  | ippStsErr
  | ippStsNoMemErr
  | ippStsBadArgErr
  | ippStsSizeErr
  | ippStsNullPtrErr
  | ippStsMemAllocErr
  | ippStsOutOfRangeErr
  | ippStsLengthErr
  | ippStsOther (code : Nat)
  deriving DecidableEq, Repr

/-- Values of `IppECResult` (declared in `ippcp.h`): `ippECValid` and the
verdicts other than valid. -/
inductive IppECResult
  | ippECValid
  | ippECInvalid (code : Nat)
  deriving DecidableEq, Repr

open sample_status_t IppStatus IppECResult

/-! ## Constants -/

/-- Value of `EINVAL` in `errno.h` on Linux. -/
def EINVAL : Int := 22

/-- Value of `EOVERFLOW` in `errno.h` on Linux. -/
def EOVERFLOW : Int := 75

/-- `#define ECC_FIELD_SIZE 256`. -/
def ECC_FIELD_SIZE : Int := 256

/-- `SAMPLE_AESGCM_IV_SIZE` of `sample_libcrypto.h`: the 96-bit IV. -/
def SAMPLE_AESGCM_IV_SIZE : Nat := 12

/-- `SAMPLE_AESGCM_KEY_SIZE` of `sample_libcrypto.h`. -/
def SAMPLE_AESGCM_KEY_SIZE : Nat := 16

/-- `SAMPLE_AESGCM_MAC_SIZE` of `sample_libcrypto.h`. -/
def SAMPLE_AESGCM_MAC_SIZE : Nat := 16

/-- `SAMPLE_CMAC_KEY_SIZE` of `sample_libcrypto.h`. -/
def SAMPLE_CMAC_KEY_SIZE : Nat := 16

/-- `SAMPLE_CMAC_MAC_SIZE` of `sample_libcrypto.h`. -/
def SAMPLE_CMAC_MAC_SIZE : Nat := 16

/-- `SAMPLE_ECP256_KEY_SIZE` of `sample_libcrypto.h`. -/
def SAMPLE_ECP256_KEY_SIZE : Int := 32

/-- `SAMPLE_SHA256_HASH_SIZE` of `sample_libcrypto.h`. -/
def SAMPLE_SHA256_HASH_SIZE : Nat := 32

/-- `sizeof(Ipp32u)`. -/
def sizeof_Ipp32u : Int := 4

/-- `static uint32_t seed = (uint32_t)(9);`. -/
def seed : Nat := 9 % 2 ^ 32

/-! ## Bytes and machine integers -/

/-- Byte order of the host, which fixes the object representation of a
`uint32_t`. -/
inductive ByteOrder
  | little
  | big
  deriving DecidableEq, Repr

/-- Object representation of a `uint32_t`: its four bytes in the order the host
stores them. -/
def bytes_of_uint32 (host : ByteOrder) (x : Nat) : List Nat :=
  let le := [x % 256, x / 256 % 256, x / 65536 % 256, x / 16777216 % 256]
  match host with
  | .little => le
  | .big => le.reverse

/-- Conversion of an `int` to `size_t` (64 bits). -/
def to_size_t (i : Int) : Nat := (i % 2 ^ 64).toNat

/-- Conversion of an `int` to `uint32_t`. -/
def to_uint32 (i : Int) : Nat := (i % 2 ^ 32).toNat

/-- Wrap-around of a result of `int` arithmetic to 32 bits, two's complement. -/
def wrap_int (i : Int) : Int := (i + 2 ^ 31) % 2 ^ 32 - 2 ^ 31

/-- The `int` whose 32-bit two's complement representation is `n`. -/
def of_uint32 (n : Nat) : Int := if n < 2 ^ 31 then (n : Int) else (n : Int) - 2 ^ 32

/-- The operator `~` on `int`. -/
def int_not (y : Int) : Int := -y - 1

/-- The operator `&` on `int`: bitwise on the two's complement representations. -/
def int_and (x y : Int) : Int := of_uint32 (to_uint32 x &&& to_uint32 y)

/-- `#define ROUND_TO(x, align) (((x) + (align-1)) & ~(align-1))` on `int`. -/
def ROUND_TO (x align : Int) : Int :=
  int_and (wrap_int (x + (align - 1))) (int_not (align - 1))

/-- The expression `ROUND_TO(length, 8) / 8` as it is passed to a `size_t`
parameter: `int` division truncates toward zero, then the value is converted. -/
def copy_len (length : Int) : Nat := to_size_t (Int.tdiv (ROUND_TO length 8) 8)

/-! ## `memset_s`, `memset`, `memcpy` on byte buffers

A buffer is the list of the bytes of the object a pointer designates. -/

/-- `memset(s, c, n)`: the first `n` bytes become `(unsigned char)c`. -/
def memset (s : List Nat) (c : Int) (n : Nat) : List Nat :=
  List.replicate (min n s.length) (c % 256).toNat ++ s.drop n

/-- `memset_s(s, smax, c, n)` (lines 72-97): the return value and the buffer. -/
def memset_s (s : Option (List Nat)) (smax : Nat) (c : Int) (n : Nat) :
    Int × Option (List Nat) :=
  match s with
  | none => (EINVAL, none)
  | some buf =>
    let err : Int := if n > smax then EOVERFLOW else 0
    let n := if n > smax then smax else n
    let buf := memset buf c n
    if err = 0 then (0, some buf) else (err, some buf)

/-- `memcpy(dst, src, n)`: the first `n` bytes of `dst` become the first `n`
bytes at `src`. -/
def memcpy (dst : List Nat) (src : List Nat) (n : Nat) : List Nat :=
  (List.range (min n dst.length)).map (fun i => src.getD i 0) ++ dst.drop n

/-- Modelled from the spec: `memcpy_s` of the header `se_memcpy.h`, which is not
part of the translation unit: the bounds-checked copy, failing with a non-zero
value when the destination holds fewer than `count` bytes and copying `count`
bytes to `dest + off` otherwise.  Memory is a map from offsets to bytes. -/
def memcpy_s (dest : Nat → Nat) (off : Nat) (numberOfElements : Nat) (src : List Nat)
    (count : Nat) : Int × (Nat → Nat) :=
  if numberOfElements < count then (-1, dest)
  else (0, fun i => if off ≤ i ∧ i < off + count then src.getD (i - off) 0 else dest i)

/-! ## The deterministic random source -/

/-- `__do_get_rand32` (lines 137-141): the status and the value stored through
`rand_num`. -/
def __do_get_rand32 : sample_status_t × Nat := (SAMPLE_SUCCESS, seed)

/-- `check_copy_size` (lines 143-148). -/
def check_copy_size (target_size source_size : Nat) : IppStatus :=
  if target_size < source_size then ippStsSizeErr else ippStsNoErr

/-- The `while` loop of `sample_read_rand` (lines 160-177); `rand` is the offset
the pointer has reached in the caller's memory `mem`. -/
def sample_read_rand_loop (host : ByteOrder) (mem : Nat → Nat) (rand : Nat)
    (length_in_bytes : Nat) : sample_status_t × (Nat → Nat) :=
  if _h : length_in_bytes > 0 then
    let status := __do_get_rand32.1
    let rand_num := __do_get_rand32.2
    if status ≠ SAMPLE_SUCCESS then (status, mem)
    else
      let size := if length_in_bytes < 4 then length_in_bytes else 4
      let r := memcpy_s mem rand size (bytes_of_uint32 host rand_num) size
      if r.1 ≠ 0 then (SAMPLE_ERROR_UNEXPECTED, mem)
      else sample_read_rand_loop host r.2 (rand + size) (length_in_bytes - size)
  else (SAMPLE_SUCCESS, mem)
termination_by length_in_bytes
decreasing_by
  split <;> omega

/-- `sample_read_rand` (lines 152-179): the status and the memory at `rand`. -/
def sample_read_rand (host : ByteOrder) (rand : Option (Nat → Nat)) (length_in_bytes : Nat) :
    sample_status_t × Option (Nat → Nat) :=
  match rand with
  | none => (SAMPLE_ERROR_INVALID_PARAMETER, none)
  | some mem =>
    if length_in_bytes = 0 then (SAMPLE_ERROR_INVALID_PARAMETER, some mem)
    else
      let r := sample_read_rand_loop host mem 0 length_in_bytes
      (r.1, some r.2)

/-- `sample_ipp_DRNGen` (lines 253-274), the bit supplier handed to the library:
the status and the memory at `pRandBNU`. -/
def sample_ipp_DRNGen (host : ByteOrder) (pRandBNU : Option (Nat → Nat)) (nBits : Int) :
    IppStatus × Option (Nat → Nat) :=
  if 0 ≠ Int.tmod nBits 8 then (ippStsSizeErr, pRandBNU)
  else
    match pRandBNU with
    | none => (ippStsNullPtrErr, none)
    | some mem =>
      let r := sample_read_rand host (some mem) (to_uint32 nBits / 8)
      if SAMPLE_SUCCESS ≠ r.1 then (ippStsErr, r.2) else (ippStsNoErr, r.2)

/-! ## The wrapped library and the environment -/

/-- Logical content of an `IppsBigNumState`, as `ippsRef_BN` exposes it: the
length in bits stored through `&length` and the bytes at `pdata`. -/
structure BigNum where
  length : Int
  data : List Nat
  deriving DecidableEq, Repr

/-- Content of an `IppsGFpECPoint` context, which only the library reads. -/
abbrev IppsGFpECPoint := List Nat

/-- Content of an `IppsHashState_rmf` context, which only the library reads. -/
abbrev IppsHashState_rmf := List Nat

/-- Type `IppBitSupplier`: the callback the library draws random bits from. -/
abbrev IppBitSupplier := Option (Nat → Nat) → Int → IppStatus × Option (Nat → Nat)

/-- Data computed by the calls of the wrapped library, one field per call that
produces data; a call that reports a status other than `ippStsNoErr` leaves its
output arguments as they were. -/
structure IppLib where
  ippsBigNumInit : Int → BigNum
  ippsSet_BN : Int → List Nat → BigNum
  ippsSetOctString_BN : List Nat → BigNum
  ippsMod_BN : BigNum → BigNum → BigNum
  ippsCmp_BN : BigNum → BigNum → Nat
  ippsGFpECPrivateKey : IppBitSupplier → BigNum
  ippsGFpECPublicKey : BigNum → IppsGFpECPoint
  ippsGFpECPointInit : IppsGFpECPoint
  ippsGFpECGetPointRegular : IppsGFpECPoint → BigNum × BigNum
  ippsGFpECSetPointRegular : BigNum → BigNum → IppsGFpECPoint
  ippsGFpECSharedSecretDH : BigNum → IppsGFpECPoint → BigNum
  ippsGFpECSignDSA : BigNum → BigNum → BigNum → BigNum × BigNum
  ippsHashMessage_rmf : List Nat → List Nat
  ippsHashInit_rmf : IppsHashState_rmf
  ippsHashUpdate_rmf : IppsHashState_rmf → List Nat → IppsHashState_rmf
  ippsHashGetTag_rmf : IppsHashState_rmf → List Nat
  ippsAES_GCMEncrypt : List Nat → List Nat → List Nat → List Nat → List Nat
  ippsAES_GCMGetTag : List Nat → List Nat → List Nat → List Nat → List Nat
  ippsAES_CMACFinal : List Nat → List Nat → List Nat

/-- What the environment reports at one external interaction: the status a
library call returns, the size a sizing query leaves in its `int` argument, the
verdict a point or key-pair test leaves in its `IppECResult` argument (for a
call that stores nothing, the value the variable already had), and whether a
`malloc` returns a non-null pointer. -/
structure Resp where
  status : IppStatus
  size : Int
  verdict : IppECResult
  ok : Bool
  deriving DecidableEq, Repr

/-- The environment: the response to the `k`-th external interaction. -/
abbrev Env := Nat → Resp

/-- Functions of the wrapped library called by the translation unit. -/
inductive IppFn
  | ippsAES_GCMGetSize | ippsAES_GCMInit | ippsAES_GCMStart | ippsAES_GCMEncrypt
  | ippsAES_GCMGetTag
  | ippsAES_CMACGetSize | ippsAES_CMACInit | ippsAES_CMACUpdate | ippsAES_CMACFinal
  | ippsGFpGetSize | ippsGFpInit | ippsGFpECGetSize | ippsGFpECInitStd256r1
  | ippsBigNumGetSize | ippsBigNumInit | ippsSet_BN | ippsRef_BN | ippsSetOctString_BN
  | ippsMod_BN | ippsCmp_BN
  | ippsGFpECPrivateKey | ippsGFpECPointGetSize | ippsGFpECPointInit
  | ippsGFpECScratchBufferSize | ippsGFpECPublicKey | ippsGFpECTstKeyPair
  | ippsGFpECGetPointRegular | ippsGFpECSetPointRegular | ippsGFpECTstPoint
  | ippsGFpECSharedSecretDH | ippsGFpECSignDSA
  | ippsHashMessage_rmf | ippsHashGetSize_rmf | ippsHashInit_rmf | ippsHashUpdate_rmf
  | ippsHashGetTag_rmf
  deriving DecidableEq, Repr

/-- The sizing queries of the library. -/
def IppFn.isSizing : IppFn → Bool
  | .ippsAES_GCMGetSize | .ippsAES_CMACGetSize | .ippsHashGetSize_rmf | .ippsGFpGetSize
  | .ippsGFpECGetSize | .ippsBigNumGetSize | .ippsGFpECPointGetSize
  | .ippsGFpECScratchBufferSize => true
  | _ => false

/-- Heap buffers, named after the variable that holds the pointer when the
buffer is allocated; `caller n` is a buffer the caller owns. -/
inductive Buf
  | pState | gfp_ctx | ec_state | ipp_state_handle | p_temp_state
  | pub_point | scratch_buf | dh_priv_bn | pub_gx | pub_gy
  | bn_dh_priv_b | bn_dh_share | pub_a_gx | pub_a_gy | point_pub_a
  | p_ecp_order | p_hash_bn | p_msg_bn | p_eph_priv_bn | p_eph_pub | p_reg_priv_bn
  | p_signx_bn | p_signy_bn | p_sigx | p_sigy
  | caller (n : Nat)
  deriving DecidableEq, Repr

/-- Caller-visible objects the translation unit itself stores to. -/
inductive Out
  | gx | gy | r | s | x | y | ecc_handle | p_sha_handle
  deriving DecidableEq, Repr

/-- Data passed to a library call, recorded with the call. -/
inductive Val
  | bn (b : BigNum)
  | pt (p : IppsGFpECPoint)
  | bytes (b : List Nat)
  | int (i : Int)
  deriving DecidableEq, Repr

/-- External events of an operation, in program order. -/
inductive Event
  | call (fn : IppFn) (args : List Val) (r : Resp)
  | malloc (buf : Buf) (size : Int) (ok : Bool)
  | memset_s (buf : Buf) (smax : Nat) (c : Int) (n : Nat)
  | free (buf : Buf)
  | memset (dst : Out) (c : Int) (n : Nat)
  | memcpy (dst : Out) (n : Nat)
  | store (dst : Out)
  deriving DecidableEq, Repr

/-- State of a running operation: the number of external interactions so far,
the events so far (oldest first), the status variable of the function
(`ipp_ret`, named `error_code` in some functions) and its other local
variables. -/
structure Machine (σ : Type) where
  pos : Nat
  trace : List Event
  ipp_ret : IppStatus
  locals : σ

/-- A piece of a function body: it either completes with a value or leaves the
enclosing block with an `ε` (the value of a `return`, or `()` for `break`). -/
def Op (σ ε α : Type) := Machine σ → Except ε α × Machine σ

/-- Sequencing of statements. -/
def Op.bind {σ ε α β : Type} (m : Op σ ε α) (f : α → Op σ ε β) : Op σ ε β :=
  fun s => match m s with
    | (.ok a, s1) => f a s1
    | (.error e, s1) => (.error e, s1)

instance {σ ε : Type} : Monad (Op σ ε) where
  pure a := fun s => (.ok a, s)
  bind := Op.bind

/-- Leave the enclosing block with `e`. -/
def leave {σ ε α : Type} (e : ε) : Op σ ε α := fun s => (.error e, s)

/-- Read the local variables. -/
def getLocals {σ ε : Type} : Op σ ε σ := fun s => (.ok s.locals, s)

/-- Assign to local variables. -/
def setLocals {σ ε : Type} (f : σ → σ) : Op σ ε Unit :=
  fun s => (.ok (), { s with locals := f s.locals })

/-- Read the status variable. -/
def get_ret {σ ε : Type} : Op σ ε IppStatus := fun s => (.ok s.ipp_ret, s)

/-- Assign to the status variable. -/
def set_ret {σ ε : Type} (x : IppStatus) : Op σ ε Unit :=
  fun s => (.ok (), { s with ipp_ret := x })

/-- Record an event. -/
def emit {σ ε : Type} (e : Event) : Op σ ε Unit :=
  fun s => (.ok (), { s with trace := s.trace ++ [e] })

/-- A call of the library function `fn` on the data `args`: the environment
gives the response, the call is recorded. -/
def ipp {σ ε : Type} (env : Env) (fn : IppFn) (args : List Val) : Op σ ε Resp :=
  fun s => (.ok (env s.pos),
    { s with pos := s.pos + 1, trace := s.trace ++ [Event.call fn args (env s.pos)] })

/-- The statement `ipp_ret = fn(args);`. -/
def ipp_assign {σ ε : Type} (env : Env) (fn : IppFn) (args : List Val) : Op σ ε Resp := do
  let r ← ipp env fn args
  set_ret r.status
  pure r

/-- `malloc(size)` assigned to the variable `buf`: the pointer returned, null
when the environment refuses the allocation. -/
def malloc {σ ε : Type} (env : Env) (buf : Buf) (size : Int) : Op σ ε (Option Buf) :=
  fun s => (.ok (if (env s.pos).ok then some buf else none),
    { s with pos := s.pos + 1, trace := s.trace ++ [Event.malloc buf size (env s.pos).ok] })

/-- The statements `ipp_ret = x; break;`. -/
def break_with {σ α : Type} (x : IppStatus) : Op σ Unit α := do
  set_ret x
  leave ()

/-- The statements `buf = malloc(size); if (!buf) { on_null }`: the pointer when
it is not null.  A pointer variable is null before it is assigned, so a
statement that leaves the block on a null result leaves the variable null. -/
def malloc_or {σ ε : Type} (env : Env) (buf : Buf) (size : Int)
    (on_null : Op σ ε (Option Buf)) : Op σ ε (Option Buf) := do
  let p ← malloc env buf size
  if p = none then on_null else pure p

/-- `#define ERROR_BREAK(x)  if(x){break;}` applied to the status variable. -/
def ERROR_BREAK {σ : Type} : Op σ Unit Unit := do
  let x ← get_ret
  if x ≠ ippStsNoErr then leave () else pure ()

/-- The address held by the pointer variable `var`, whose value is `none` when
it is null and the content of the buffer it designates otherwise. -/
def ptr {α : Type} (var : Buf) (p : Option α) : Option Buf := p.map fun _ => var

/-- `#define SAFE_FREE(ptr) {if (NULL != (ptr)) {free(ptr); (ptr) = NULL;}}`. -/
def SAFE_FREE {σ ε : Type} (address : Option Buf) : Op σ ε Unit :=
  match address with
  | some b => emit (Event.free b)
  | none => pure ()

/-- The macro `CLEAR_FREE_MEM(address, size)` (lines 109-116). -/
def CLEAR_FREE_MEM {σ ε : Type} (address : Option Buf) (size : Int) : Op σ ε Unit :=
  match address with
  | some b => do
    (if size > 0 then emit (Event.memset_s b (to_size_t size) 0 (to_size_t size))
     else pure ())
    emit (Event.free b)
  | none => pure ()

/-- A `do { ... } while (0)` block: a `break` inside it continues after it. -/
def do_while_0 {σ ε : Type} (block : Op σ Unit Unit) : Op σ ε Unit :=
  fun s => match block s with
    | (.ok _, s1) => (.ok (), s1)
    | (.error _, s1) => (.ok (), s1)

/-- What an operation hands back: its return value, the caller-visible memory
behind its pointer arguments, and the events it performed. -/
structure Ret (α : Type) where
  status : sample_status_t
  out : α
  trace : List Event

/-- The machine at the entry of a function whose status variable is initialised
to `ret0` and whose other local variables are initialised to `init`. -/
def entry {σ : Type} (ret0 : IppStatus) (init : σ) : Machine σ := ⟨0, [], ret0, init⟩

/-- What a function hands back when it returns `v` in the machine `s`; `out`
reads the caller-visible memory off the local variables. -/
def ret_of {σ α : Type} (out : σ → α) (v : sample_status_t) (s : Machine σ) : Ret α :=
  ⟨v, out s.locals, s.trace⟩

/-- Run a function body from its entry. -/
def run {σ α : Type} (ret0 : IppStatus) (init : σ) (out : σ → α)
    (body : Op σ sample_status_t sample_status_t) : Ret α :=
  match body (entry ret0 init) with
  | (.ok v, s) => ret_of out v s
  | (.error v, s) => ret_of out v s

/-! ## Big-number helpers -/

/-- `sgx_ipp_newBN` (lines 181-225).  `p_new_BN` names the caller's pointer
variable it designates and `cur` is the value of that variable; the result is
the status and the new value of the variable.  A freshly initialised big
number holds what `ippsBigNumInit` leaves in it. -/
def sgx_ipp_newBN {σ ε : Type} (L : IppLib) (env : Env) (p_data : Option (List Nat))
    (size_in_bytes : Int) (p_new_BN : Option Buf) (cur : Option BigNum) :
    Op σ ε (IppStatus × Option BigNum) :=
  match p_new_BN with
  | none => pure (ippStsBadArgErr, cur)
  | some pBN =>
    if size_in_bytes ≤ 0 ∨ to_size_t size_in_bytes % 4 ≠ 0 then pure (ippStsBadArgErr, cur)
    else do
      let r ← ipp env .ippsBigNumGetSize [.int (Int.tdiv size_in_bytes sizeof_Ipp32u)]
      let bn_size := r.size
      if r.status ≠ ippStsNoErr then pure (r.status, none)
      else do
        let p ← malloc env pBN bn_size
        if p = none then pure (ippStsMemAllocErr, none)
        else do
          let r ← ipp env .ippsBigNumInit [.int (Int.tdiv size_in_bytes sizeof_Ipp32u)]
          if r.status ≠ ippStsNoErr then do
            emit (Event.free pBN)
            pure (r.status, none)
          else
            match p_data with
            | some data => do
              let r ← ipp env .ippsSet_BN
                [.int (Int.tdiv size_in_bytes sizeof_Ipp32u), .bytes data]
              if r.status ≠ ippStsNoErr then do
                emit (Event.free pBN)
                pure (r.status, none)
              else
                pure (r.status,
                  some (L.ippsSet_BN (Int.tdiv size_in_bytes sizeof_Ipp32u) data))
            | none =>
              pure (r.status,
                some (L.ippsBigNumInit (Int.tdiv size_in_bytes sizeof_Ipp32u)))

/-- The statements `ipp_ret = sgx_ipp_newBN(p_data, size_in_bytes, &var);
ERROR_BREAK(ipp_ret);` for the local pointer variable `var`, which `get` reads
and `set` assigns: the value of `var` when the block is not left. -/
def newBN_or_break {σ : Type} (L : IppLib) (env : Env) (p_data : Option (List Nat))
    (size_in_bytes : Int) (var : Buf) (get : σ → Option BigNum)
    (set : Option BigNum → σ → σ) : Op σ Unit (Option BigNum) := do
  let l ← getLocals
  let r ← sgx_ipp_newBN L env p_data size_in_bytes (some var) (get l)
  set_ret r.1
  setLocals (set r.2)
  ERROR_BREAK
  pure r.2

/-- `sample_ipp_secure_free_BN` (lines 227-251); `var` names the buffer `pBN`
designates when it is not null. -/
def sample_ipp_secure_free_BN {σ ε : Type} (env : Env) (var : Buf) (pBN : Option BigNum)
    (size_in_bytes : Int) : Op σ ε Unit :=
  if pBN.isNone ∨ size_in_bytes ≤ 0 ∨ to_size_t size_in_bytes / 4 ≤ 0 then
    if pBN.isSome then emit (Event.free var) else pure ()
  else do
    let r ← ipp env .ippsBigNumGetSize [.int (Int.tdiv size_in_bytes sizeof_Ipp32u)]
    let bn_size := r.size
    if bn_size ≤ 0 then emit (Event.free var)
    else do
      emit (Event.memset_s var (to_size_t bn_size) 0 (to_size_t bn_size))
      emit (Event.free var)

/-! ## AES-GCM and AES-CMAC -/

/-- Caller-visible memory of `sample_rijndael128GCM_encrypt`. -/
structure gcm_out where
  p_dst : Option (List Nat)
  p_out_mac : Option (List Nat)
  deriving DecidableEq, Repr

/-- The `switch` after a failed `ippsAES_GCMInit` or `ippsAES_CMACInit`
(lines 322-328, 411-417). -/
def switch_init : IppStatus → sample_status_t
  | ippStsMemAllocErr => SAMPLE_ERROR_OUT_OF_MEMORY
  | ippStsNullPtrErr => SAMPLE_ERROR_INVALID_PARAMETER
  | ippStsLengthErr => SAMPLE_ERROR_INVALID_PARAMETER
  | _ => SAMPLE_ERROR_UNEXPECTED

/-- The `switch` with the cases `ippStsNullPtrErr` and `ippStsLengthErr`
(lines 336-341, 363-368, 425-430, 438-443, 981-986). -/
def switch_null_length : IppStatus → sample_status_t
  | ippStsNullPtrErr => SAMPLE_ERROR_INVALID_PARAMETER
  | ippStsLengthErr => SAMPLE_ERROR_INVALID_PARAMETER
  | _ => SAMPLE_ERROR_UNEXPECTED

/-- The `switch` after a failed `ippsAES_GCMEncrypt` (lines 350-354). -/
def switch_null : IppStatus → sample_status_t
  | ippStsNullPtrErr => SAMPLE_ERROR_INVALID_PARAMETER
  | _ => SAMPLE_ERROR_UNEXPECTED

/-- The statements `memset_s(pState, ippStateSize, 0, ippStateSize); free(pState);`
that precede every return once the state is allocated. -/
def clear_temp_state {σ ε : Type} (ippStateSize : Int) : Op σ ε Unit := do
  emit (Event.memset_s .pState (to_size_t ippStateSize) 0 (to_size_t ippStateSize))
  emit (Event.free .pState)

/-- After a library call of the AES functions: when `error_code` is not
`ippStsNoErr`, clear and free the state and return what `switch_` maps the
status to. -/
def fail_clear {σ : Type} (ippStateSize : Int) (switch_ : IppStatus → sample_status_t) :
    Op σ sample_status_t Unit := do
  let error_code ← get_ret
  if error_code ≠ ippStsNoErr then do
    clear_temp_state ippStateSize
    leave (switch_ error_code)
  else pure ()

/-- `sample_rijndael128GCM_encrypt` (lines 292-374). -/
def sample_rijndael128GCM_encrypt (L : IppLib) (env : Env) (p_key : Option (List Nat))
    (p_src : Option (List Nat)) (src_len : Nat) (p_dst : Option (List Nat))
    (p_iv : Option (List Nat)) (iv_len : Nat) (p_aad : Option (List Nat)) (aad_len : Nat)
    (p_out_mac : Option (List Nat)) : Ret gcm_out :=
  let key := p_key.getD []
  let iv := (p_iv.getD []).take SAMPLE_AESGCM_IV_SIZE
  let aad := (p_aad.getD []).take aad_len
  let src := (p_src.getD []).take src_len
  run ippStsNoErr ⟨p_dst, p_out_mac⟩ id (
    if (p_key = none) ∨ ((src_len > 0) ∧ (p_dst = none)) ∨ ((src_len > 0) ∧ (p_src = none))
        ∨ (p_out_mac = none) ∨ (iv_len ≠ SAMPLE_AESGCM_IV_SIZE)
        ∨ ((aad_len > 0) ∧ (p_aad = none))
        ∨ (p_iv = none) ∨ ((p_src = none) ∧ (p_aad = none)) then
      leave SAMPLE_ERROR_INVALID_PARAMETER
    else do
      let r ← ipp_assign env .ippsAES_GCMGetSize []
      let ippStateSize := r.size
      if r.status ≠ ippStsNoErr then leave SAMPLE_ERROR_UNEXPECTED
      else do
      let _ ← malloc_or env .pState ippStateSize (leave SAMPLE_ERROR_OUT_OF_MEMORY)
      let _ ← ipp_assign env .ippsAES_GCMInit [.bytes key]
      fail_clear ippStateSize switch_init
      let _ ← ipp_assign env .ippsAES_GCMStart [.bytes iv, .bytes aad]
      fail_clear ippStateSize switch_null_length
      (if src_len > 0 then do
        let _ ← ipp_assign env .ippsAES_GCMEncrypt [.bytes src]
        fail_clear ippStateSize switch_null
        setLocals fun l => { l with p_dst := l.p_dst.map (fun dst =>
          memcpy dst (L.ippsAES_GCMEncrypt key iv aad src) src_len) }
       else pure ())
      let _ ← ipp_assign env .ippsAES_GCMGetTag []
      fail_clear ippStateSize switch_null_length
      setLocals fun l => { l with p_out_mac := l.p_out_mac.map (fun mac =>
        memcpy mac (L.ippsAES_GCMGetTag key iv aad src) SAMPLE_AESGCM_MAC_SIZE) }
      clear_temp_state ippStateSize
      pure SAMPLE_SUCCESS)

/-- `sample_rijndael128_cmac_msg` (lines 384-449); the memory behind `p_mac` is
handed back. -/
def sample_rijndael128_cmac_msg (L : IppLib) (env : Env) (p_key : Option (List Nat))
    (p_src : Option (List Nat)) (src_len : Nat) (p_mac : Option (List Nat)) :
    Ret (Option (List Nat)) :=
  let key := p_key.getD []
  let src := (p_src.getD []).take src_len
  run ippStsNoErr p_mac id (
    if (p_key = none) ∨ (p_src = none) ∨ (p_mac = none) then
      leave SAMPLE_ERROR_INVALID_PARAMETER
    else do
      let r ← ipp_assign env .ippsAES_CMACGetSize []
      let ippStateSize := r.size
      if r.status ≠ ippStsNoErr then leave SAMPLE_ERROR_UNEXPECTED
      else do
      let _ ← malloc_or env .pState ippStateSize (leave SAMPLE_ERROR_OUT_OF_MEMORY)
      let _ ← ipp_assign env .ippsAES_CMACInit [.bytes key]
      fail_clear ippStateSize switch_init
      let _ ← ipp_assign env .ippsAES_CMACUpdate [.bytes src]
      fail_clear ippStateSize switch_null_length
      let _ ← ipp_assign env .ippsAES_CMACFinal []
      fail_clear ippStateSize switch_null_length
      setLocals fun mac => mac.map (fun m =>
        memcpy m (L.ippsAES_CMACFinal key src) SAMPLE_CMAC_MAC_SIZE)
      clear_temp_state ippStateSize
      pure SAMPLE_SUCCESS)

/-! ## Elliptic-curve context -/

/-- `ipp_ec_state_handles_t` (lines 56-60), with the buffer `addr` that holds the
struct: what a non-null `sample_ecc_state_handle_t` designates. -/
structure ipp_ec_state_handles_t where
  addr : Buf
  p_gfp_state : Option Buf
  p_ec_state : Option Buf
  deriving DecidableEq, Repr

/-- The `switch (ipp_ret)` of `sample_ecc256_open_context` (lines 516-525). -/
def switch_open : IppStatus → sample_status_t
  | ippStsNoErr => SAMPLE_SUCCESS
  | ippStsNoMemErr => SAMPLE_ERROR_OUT_OF_MEMORY
  | ippStsMemAllocErr => SAMPLE_ERROR_OUT_OF_MEMORY
  | _ => SAMPLE_ERROR_UNEXPECTED

/-- The `switch (ipp_ret)` of the key-pair, shared-key and signing functions
(lines 663-678, 776-791, 939-954). -/
def switch_ecc : IppStatus → sample_status_t
  | ippStsNoErr => SAMPLE_SUCCESS
  | ippStsNoMemErr => SAMPLE_ERROR_OUT_OF_MEMORY
  | ippStsMemAllocErr => SAMPLE_ERROR_OUT_OF_MEMORY
  | ippStsNullPtrErr => SAMPLE_ERROR_INVALID_PARAMETER
  | ippStsLengthErr => SAMPLE_ERROR_INVALID_PARAMETER
  | ippStsOutOfRangeErr => SAMPLE_ERROR_INVALID_PARAMETER
  | ippStsSizeErr => SAMPLE_ERROR_INVALID_PARAMETER
  | ippStsBadArgErr => SAMPLE_ERROR_INVALID_PARAMETER
  | _ => SAMPLE_ERROR_UNEXPECTED

/-- Local variables of `sample_ecc256_open_context`, and the handle variable
`*ecc_handle` of the caller. -/
structure open_locals where
  ipp_state_handle : Option ipp_ec_state_handles_t
  gfp_ctx : Option Buf
  ec_state : Option Buf
  gfp_ctx_size : Int
  ec_size : Int
  ecc_handle : Option (Option ipp_ec_state_handles_t)

/-- The `do { ... } while (0)` block of `sample_ecc256_open_context`
(lines 473-504). -/
def sample_ecc256_open_context_block (env : Env) : Op open_locals Unit Unit := do
  let r ← ipp_assign env .ippsGFpGetSize [.int ECC_FIELD_SIZE]
  setLocals fun l => { l with gfp_ctx_size := r.size }
  ERROR_BREAK
  let gfp_ctx ← malloc_or env .gfp_ctx r.size (break_with ippStsNoMemErr)
  setLocals fun l => { l with gfp_ctx := gfp_ctx }
  let _ ← ipp_assign env .ippsGFpInit [.int ECC_FIELD_SIZE]
  ERROR_BREAK
  let r ← ipp_assign env .ippsGFpECGetSize []
  setLocals fun l => { l with ec_size := r.size }
  ERROR_BREAK
  let ec_state ← malloc_or env .ec_state r.size (break_with ippStsNoMemErr)
  setLocals fun l => { l with ec_state := ec_state }
  let _ ← ipp_assign env .ippsGFpECInitStd256r1 []
  ERROR_BREAK
  let _ ← malloc_or env .ipp_state_handle 16 (break_with ippStsNoMemErr)
  setLocals fun l => { l with
    ipp_state_handle := some ⟨.ipp_state_handle, l.gfp_ctx, l.ec_state⟩ }

/-- The local variables of `sample_ecc256_open_context` at its entry. -/
def open_init (ecc_handle : Option (Option ipp_ec_state_handles_t)) : open_locals :=
  ⟨none, none, none, 0, 0, ecc_handle⟩

/-- `sample_ecc256_open_context` (lines 463-526); the handle variable behind
`ecc_handle` is handed back. -/
def sample_ecc256_open_context (env : Env)
    (ecc_handle : Option (Option ipp_ec_state_handles_t)) :
    Ret (Option (Option ipp_ec_state_handles_t)) :=
  run ippStsErr (open_init ecc_handle) (fun l => l.ecc_handle) (
    if ecc_handle = none then leave SAMPLE_ERROR_INVALID_PARAMETER
    else do
      do_while_0 (sample_ecc256_open_context_block env)
      let ipp_ret ← get_ret
      let l ← getLocals
      (if ipp_ret ≠ ippStsNoErr then do
        CLEAR_FREE_MEM l.gfp_ctx l.gfp_ctx_size
        CLEAR_FREE_MEM l.ec_state l.ec_size
        SAFE_FREE (ptr .ipp_state_handle l.ipp_state_handle)
        setLocals fun l => { l with ipp_state_handle := none }
       else do
        emit (Event.store .ecc_handle)
        setLocals fun l => { l with ecc_handle := some l.ipp_state_handle })
      pure (switch_open ipp_ret))

/-- `sample_ecc256_close_context` (lines 532-565). -/
def sample_ecc256_close_context (env : Env) (ecc_handle : Option ipp_ec_state_handles_t) :
    Ret Unit :=
  run ippStsNoErr () id (
    match ecc_handle with
    | none => leave SAMPLE_ERROR_INVALID_PARAMETER
    | some p_ec_handle => do
      (match p_ec_handle.p_ec_state with
       | some p_ec_state => do
         let r ← ipp env .ippsGFpECGetSize []
         let ec_size := r.size
         if r.status ≠ ippStsNoErr then emit (Event.free p_ec_state)
         else CLEAR_FREE_MEM (some p_ec_state) ec_size
       | none => pure ())
      (match p_ec_handle.p_gfp_state with
       | some p_gfp_state => do
         let r ← ipp env .ippsGFpGetSize [.int ECC_FIELD_SIZE]
         let gfp_ctx_size := r.size
         if r.status ≠ ippStsNoErr then emit (Event.free p_gfp_state)
         else CLEAR_FREE_MEM (some p_gfp_state) gfp_ctx_size
       | none => pure ())
      emit (Event.free p_ec_handle.addr)
      pure SAMPLE_SUCCESS)

/-! ## Key-pair generation -/

/-- `sample_ec256_public_t` of `sample_libcrypto.h`: the two 32-byte
coordinates. -/
structure sample_ec256_public_t where
  gx : List Nat
  gy : List Nat
  deriving DecidableEq, Repr

/-- The big number a non-null `IppsBigNumState *` designates. -/
def bn_at (p : Option BigNum) : BigNum := p.getD ⟨0, []⟩

/-- The point a non-null `IppsGFpECPoint *` designates. -/
def pt_at (p : Option IppsGFpECPoint) : IppsGFpECPoint := p.getD []

/-- The statements that hand a big number out through a 32-byte field `dst`
(lines 637-642 and their repetitions):
`ipp_ret = ippsRef_BN(&sgn, &length, &pdata, bn); ERROR_BREAK(ipp_ret);`
`memset(dst, 0, sizeof(dst));`
`ipp_ret = check_copy_size(sizeof(dst), ROUND_TO(length, 8) / 8); ERROR_BREAK(ipp_ret);`
`memcpy(dst, pdata, ROUND_TO(length, 8) / 8);`
where `upd f` applies `f` to the field in the caller's memory. -/
def ref_BN_copy {σ : Type} (env : Env) (bn : BigNum) (dst : Out)
    (upd : (List Nat → List Nat) → σ → σ) : Op σ Unit Unit := do
  let _ ← ipp_assign env .ippsRef_BN [.bn bn]
  ERROR_BREAK
  let length := bn.length
  let pdata := bn.data
  emit (Event.memset dst 0 32)
  setLocals (upd fun field => memset field 0 32)
  set_ret (check_copy_size 32 (copy_len length))
  ERROR_BREAK
  emit (Event.memcpy dst (copy_len length))
  setLocals (upd fun field => memcpy field pdata (copy_len length))

/-- Local variables of `sample_ecc256_create_key_pair`, and the caller's memory
behind `p_private` (the field `r`) and `p_public`. -/
structure keypair_locals where
  dh_priv_bn : Option BigNum
  pub_gx : Option BigNum
  pub_gy : Option BigNum
  pub_point : Option IppsGFpECPoint
  ec_point_size : Int
  scratch_size : Int
  scratch_buf : Option Buf
  ec_result : IppECResult
  p_private : Option (List Nat)
  p_public : Option sample_ec256_public_t

/-- The `do { ... } while (0)` block of `sample_ecc256_create_key_pair`
(lines 591-655).  A datum the library computes is assigned after the
`ERROR_BREAK` that follows the call, a failing call leaving it as it was. -/
def sample_ecc256_create_key_pair_block (L : IppLib) (host : ByteOrder) (env : Env) :
    Op keypair_locals Unit Unit := do
  let dh_priv_bn ← newBN_or_break L env none SAMPLE_ECP256_KEY_SIZE .dh_priv_bn
    (fun l => l.dh_priv_bn) (fun v l => { l with dh_priv_bn := v })
  let _ ← ipp_assign env .ippsGFpECPrivateKey [.bn (bn_at dh_priv_bn)]
  ERROR_BREAK
  let priv := L.ippsGFpECPrivateKey (sample_ipp_DRNGen host)
  setLocals fun l => { l with dh_priv_bn := some priv }
  let r ← ipp_assign env .ippsGFpECPointGetSize []
  setLocals fun l => { l with ec_point_size := r.size }
  ERROR_BREAK
  let pub_point ← malloc_or env .pub_point r.size (break_with ippStsNoMemErr)
  setLocals fun l => { l with pub_point := pub_point.map fun _ => [] }
  let _ ← ipp_assign env .ippsGFpECPointInit []
  ERROR_BREAK
  setLocals fun l => { l with pub_point := some L.ippsGFpECPointInit }
  let r ← ipp_assign env .ippsGFpECScratchBufferSize [.int 1]
  setLocals fun l => { l with scratch_size := r.size }
  ERROR_BREAK
  let scratch_buf ← malloc_or env .scratch_buf r.size (break_with ippStsNoMemErr)
  setLocals fun l => { l with scratch_buf := scratch_buf }
  let _ ← ipp_assign env .ippsGFpECPublicKey [.bn priv]
  ERROR_BREAK
  let pub := L.ippsGFpECPublicKey priv
  setLocals fun l => { l with pub_point := some pub }
  let r ← ipp_assign env .ippsGFpECTstKeyPair [.bn priv, .pt pub]
  setLocals fun l => { l with ec_result := r.verdict }
  ERROR_BREAK
  if r.verdict ≠ ippECValid then break_with ippStsErr
  else do
  let _ ← newBN_or_break L env none SAMPLE_ECP256_KEY_SIZE .pub_gx
    (fun l => l.pub_gx) (fun v l => { l with pub_gx := v })
  let _ ← newBN_or_break L env none SAMPLE_ECP256_KEY_SIZE .pub_gy
    (fun l => l.pub_gy) (fun v l => { l with pub_gy := v })
  let _ ← ipp_assign env .ippsGFpECGetPointRegular [.pt pub]
  ERROR_BREAK
  let gx := (L.ippsGFpECGetPointRegular pub).1
  let gy := (L.ippsGFpECGetPointRegular pub).2
  setLocals fun l => { l with pub_gx := some gx, pub_gy := some gy }
  ref_BN_copy env gx .gx
    (fun f l => { l with p_public := l.p_public.map fun p => { p with gx := f p.gx } })
  ref_BN_copy env gy .gy
    (fun f l => { l with p_public := l.p_public.map fun p => { p with gy := f p.gy } })
  ref_BN_copy env priv .r
    (fun f l => { l with p_private := l.p_private.map f })

/-- The local variables of `sample_ecc256_create_key_pair` at its entry. -/
def keypair_init (p_private : Option (List Nat)) (p_public : Option sample_ec256_public_t) :
    keypair_locals :=
  ⟨none, none, none, none, 0, 0, none, ippECValid, p_private, p_public⟩

/-- Caller-visible memory of `sample_ecc256_create_key_pair`. -/
structure keypair_out where
  p_private : Option (List Nat)
  p_public : Option sample_ec256_public_t
  deriving DecidableEq, Repr

/-- `sample_ecc256_create_key_pair` (lines 573-679). -/
def sample_ecc256_create_key_pair (L : IppLib) (host : ByteOrder) (env : Env)
    (p_private : Option (List Nat)) (p_public : Option sample_ec256_public_t)
    (ecc_handle : Option ipp_ec_state_handles_t) : Ret keypair_out :=
  run ippStsErr (keypair_init p_private p_public) (fun l => ⟨l.p_private, l.p_public⟩) (
    if (ecc_handle = none) ∨ (p_private = none) ∨ (p_public = none) then
      leave SAMPLE_ERROR_INVALID_PARAMETER
    else do
      do_while_0 (sample_ecc256_create_key_pair_block L host env)
      let l ← getLocals
      CLEAR_FREE_MEM (ptr .pub_point l.pub_point) l.ec_point_size
      SAFE_FREE l.scratch_buf
      sample_ipp_secure_free_BN env .pub_gx l.pub_gx SAMPLE_ECP256_KEY_SIZE
      sample_ipp_secure_free_BN env .pub_gy l.pub_gy SAMPLE_ECP256_KEY_SIZE
      sample_ipp_secure_free_BN env .dh_priv_bn l.dh_priv_bn SAMPLE_ECP256_KEY_SIZE
      let ipp_ret ← get_ret
      pure (switch_ecc ipp_ret))

/-! ## ECDH shared key -/

/-- Local variables of `sample_ecc256_compute_shared_dhkey`, and the caller's
memory behind `p_shared_key` (the field `s`). -/
structure dhkey_locals where
  bn_dh_priv_b : Option BigNum
  bn_dh_share : Option BigNum
  pub_a_gx : Option BigNum
  pub_a_gy : Option BigNum
  point_pub_a : Option IppsGFpECPoint
  ec_point_size : Int
  ipp_result : IppECResult
  scratchSize : Int
  scratch_buf : Option Buf
  p_shared_key : Option (List Nat)

/-- The `do { ... } while (0)` block of `sample_ecc256_compute_shared_dhkey`
(lines 713-763); `r`, `gx`, `gy` are the fields behind `p_private_b` and
`p_public_ga`. -/
def sample_ecc256_compute_shared_dhkey_block (L : IppLib) (env : Env)
    (r gx gy : List Nat) : Op dhkey_locals Unit Unit := do
  let bn_dh_priv_b ← newBN_or_break L env (some r) 32 .bn_dh_priv_b
    (fun l => l.bn_dh_priv_b) (fun v l => { l with bn_dh_priv_b := v })
  let pub_a_gx ← newBN_or_break L env (some gx) 32 .pub_a_gx
    (fun l => l.pub_a_gx) (fun v l => { l with pub_a_gx := v })
  let pub_a_gy ← newBN_or_break L env (some gy) 32 .pub_a_gy
    (fun l => l.pub_a_gy) (fun v l => { l with pub_a_gy := v })
  let rs ← ipp_assign env .ippsGFpECPointGetSize []
  setLocals fun l => { l with ec_point_size := rs.size }
  ERROR_BREAK
  let point_pub_a ← malloc_or env .point_pub_a rs.size (break_with ippStsNoMemErr)
  setLocals fun l => { l with point_pub_a := point_pub_a.map fun _ => [] }
  let _ ← ipp_assign env .ippsGFpECPointInit []
  ERROR_BREAK
  setLocals fun l => { l with point_pub_a := some L.ippsGFpECPointInit }
  let _ ← ipp_assign env .ippsGFpECSetPointRegular
    [.bn (bn_at pub_a_gx), .bn (bn_at pub_a_gy)]
  ERROR_BREAK
  let pub_a := L.ippsGFpECSetPointRegular (bn_at pub_a_gx) (bn_at pub_a_gy)
  setLocals fun l => { l with point_pub_a := some pub_a }
  let rt ← ipp_assign env .ippsGFpECTstPoint [.pt pub_a]
  setLocals fun l => { l with ipp_result := rt.verdict }
  ERROR_BREAK
  if rt.verdict ≠ ippECValid then break_with ippStsErr
  else do
  let _ ← newBN_or_break L env none 32 .bn_dh_share
    (fun l => l.bn_dh_share) (fun v l => { l with bn_dh_share := v })
  let rs ← ipp_assign env .ippsGFpECScratchBufferSize [.int 1]
  setLocals fun l => { l with scratchSize := rs.size }
  ERROR_BREAK
  let scratch_buf ← malloc_or env .scratch_buf rs.size (break_with ippStsNoMemErr)
  setLocals fun l => { l with scratch_buf := scratch_buf }
  let _ ← ipp_assign env .ippsGFpECSharedSecretDH [.bn (bn_at bn_dh_priv_b), .pt pub_a]
  ERROR_BREAK
  let share := L.ippsGFpECSharedSecretDH (bn_at bn_dh_priv_b) pub_a
  setLocals fun l => { l with bn_dh_share := some share }
  ref_BN_copy env share .s
    (fun f l => { l with p_shared_key := l.p_shared_key.map f })

/-- The local variables of `sample_ecc256_compute_shared_dhkey` at its entry. -/
def dhkey_init (p_shared_key : Option (List Nat)) : dhkey_locals :=
  ⟨none, none, none, none, none, 0, ippECValid, 0, none, p_shared_key⟩

/-- `sample_ecc256_compute_shared_dhkey` (lines 692-792); the memory behind
`p_shared_key` is handed back. -/
def sample_ecc256_compute_shared_dhkey (L : IppLib) (env : Env)
    (p_private_b : Option (List Nat)) (p_public_ga : Option sample_ec256_public_t)
    (p_shared_key : Option (List Nat)) (ecc_handle : Option ipp_ec_state_handles_t) :
    Ret (Option (List Nat)) :=
  run ippStsErr (dhkey_init p_shared_key) (fun l => l.p_shared_key) (
    if (ecc_handle = none) ∨ (p_private_b = none) ∨ (p_public_ga = none)
        ∨ (p_shared_key = none) then
      leave SAMPLE_ERROR_INVALID_PARAMETER
    else do
      do_while_0 (sample_ecc256_compute_shared_dhkey_block L env (p_private_b.getD [])
        ((p_public_ga.map fun p => p.gx).getD []) ((p_public_ga.map fun p => p.gy).getD []))
      let l ← getLocals
      CLEAR_FREE_MEM (ptr .point_pub_a l.point_pub_a) l.ec_point_size
      SAFE_FREE l.scratch_buf
      sample_ipp_secure_free_BN env .pub_a_gx l.pub_a_gx 32
      sample_ipp_secure_free_BN env .pub_a_gy l.pub_a_gy 32
      sample_ipp_secure_free_BN env .bn_dh_priv_b l.bn_dh_priv_b 32
      sample_ipp_secure_free_BN env .bn_dh_share l.bn_dh_share 32
      let ipp_ret ← get_ret
      if l.ipp_result ≠ ippECValid then leave SAMPLE_ERROR_INVALID_PARAMETER
      else pure (switch_ecc ipp_ret))

/-! ## ECDSA signature -/

/-- `const uint32_t sample_nistp256_r[]` (lines 795-797). -/
def sample_nistp256_r : List Nat :=
  [0xFC632551, 0xF3B9CAC2, 0xA7179E84, 0xBCE6FAAD, 0xFFFFFFFF, 0xFFFFFFFF,
    0x00000000, 0xFFFFFFFF]

/-- `sizeof(sample_nistp256_r)`, the value of `order_size`. -/
def order_size : Int := 4 * sample_nistp256_r.length

/-- The bytes of an array of `uint32_t` in the memory of the host. -/
def bytes_of_words (host : ByteOrder) (ws : List Nat) : List Nat :=
  ws.flatMap (bytes_of_uint32 host)

/-- `sample_ec256_signature_t` of `sample_libcrypto.h`: the two 32-byte
components. -/
structure sample_ec256_signature_t where
  x : List Nat
  y : List Nat
  deriving DecidableEq, Repr

/-- Local variables of `sample_ecdsa_sign`, and the caller's memory behind
`p_signature`. -/
structure sign_locals where
  p_ecp_order : Option BigNum
  p_hash_bn : Option BigNum
  p_msg_bn : Option BigNum
  p_eph_priv_bn : Option BigNum
  p_eph_pub : Option IppsGFpECPoint
  p_reg_priv_bn : Option BigNum
  p_signx_bn : Option BigNum
  p_signy_bn : Option BigNum
  ecp_size : Int
  ec_result : IppECResult
  hash : List Nat
  scratch_size : Int
  scratch_buf : Option Buf
  bn_result : Nat
  p_signature : Option sample_ec256_signature_t

/-- The statements of the outer block of `sample_ecdsa_sign` before the inner
loop (lines 840-882); `data` are the `data_size` bytes at `p_data` and `r` is
the field behind `p_private`. -/
def sample_ecdsa_sign_before_loop (L : IppLib) (host : ByteOrder) (env : Env)
    (data r : List Nat) : Op sign_locals Unit Unit := do
  let p_ecp_order ← newBN_or_break L env (some (bytes_of_words host sample_nistp256_r))
    order_size .p_ecp_order (fun l => l.p_ecp_order) (fun v l => { l with p_ecp_order := v })
  let _ ← ipp_assign env .ippsHashMessage_rmf [.bytes data]
  ERROR_BREAK
  let hash := L.ippsHashMessage_rmf data
  setLocals fun l => { l with hash := hash }
  let _ ← newBN_or_break L env none 32 .p_hash_bn
    (fun l => l.p_hash_bn) (fun v l => { l with p_hash_bn := v })
  let _ ← ipp_assign env .ippsSetOctString_BN [.bytes hash]
  ERROR_BREAK
  let hash_bn := L.ippsSetOctString_BN hash
  setLocals fun l => { l with p_hash_bn := some hash_bn }
  let _ ← newBN_or_break L env none order_size .p_msg_bn
    (fun l => l.p_msg_bn) (fun v l => { l with p_msg_bn := v })
  let _ ← ipp_assign env .ippsMod_BN [.bn hash_bn, .bn (bn_at p_ecp_order)]
  ERROR_BREAK
  setLocals fun l => { l with p_msg_bn := some (L.ippsMod_BN hash_bn (bn_at p_ecp_order)) }
  let _ ← newBN_or_break L env none order_size .p_eph_priv_bn
    (fun l => l.p_eph_priv_bn) (fun v l => { l with p_eph_priv_bn := v })
  let _ ← newBN_or_break L env (some r) 32 .p_reg_priv_bn
    (fun l => l.p_reg_priv_bn) (fun v l => { l with p_reg_priv_bn := v })
  let rs ← ipp_assign env .ippsGFpECPointGetSize []
  setLocals fun l => { l with ecp_size := rs.size }
  ERROR_BREAK
  let p_eph_pub ← malloc_or env .p_eph_pub rs.size (break_with ippStsNoMemErr)
  setLocals fun l => { l with p_eph_pub := p_eph_pub.map fun _ => [] }
  let _ ← ipp_assign env .ippsGFpECPointInit []
  ERROR_BREAK
  setLocals fun l => { l with p_eph_pub := some L.ippsGFpECPointInit }
  let rs ← ipp_assign env .ippsGFpECScratchBufferSize [.int 1]
  setLocals fun l => { l with scratch_size := rs.size }
  ERROR_BREAK
  let scratch_buf ← malloc_or env .scratch_buf rs.size (break_with ippStsNoMemErr)
  setLocals fun l => { l with scratch_buf := scratch_buf }
  setLocals fun l => { l with bn_result := 0 }

/-- The body of the inner `do { ... } while (bn_result == 0)` loop of
`sample_ecdsa_sign` (lines 885-900). -/
def sample_ecdsa_sign_loop_body (L : IppLib) (host : ByteOrder) (env : Env) :
    Op sign_locals Unit Unit := do
  let l ← getLocals
  let _ ← ipp_assign env .ippsGFpECPrivateKey [.bn (bn_at l.p_eph_priv_bn)]
  ERROR_BREAK
  let eph := L.ippsGFpECPrivateKey (sample_ipp_DRNGen host)
  setLocals fun l => { l with p_eph_priv_bn := some eph }
  let _ ← ipp_assign env .ippsGFpECPublicKey [.bn eph]
  ERROR_BREAK
  let pub := L.ippsGFpECPublicKey eph
  setLocals fun l => { l with p_eph_pub := some pub }
  let rt ← ipp_assign env .ippsGFpECTstKeyPair [.bn eph, .pt pub]
  setLocals fun l => { l with ec_result := rt.verdict }
  ERROR_BREAK
  if rt.verdict ≠ ippECValid then break_with ippStsErr
  else do
  let _ ← ipp_assign env .ippsCmp_BN [.bn eph, .bn (bn_at l.p_reg_priv_bn)]
  ERROR_BREAK
  setLocals fun l => { l with bn_result := L.ippsCmp_BN eph (bn_at l.p_reg_priv_bn) }

/-- The inner loop of `sample_ecdsa_sign` (lines 883-901), run for at most
`fuel` iterations: the machine when the loop is left, by `break` or because
`bn_result` is not zero, and `none` when it is still running after `fuel`
iterations. -/
def sample_ecdsa_sign_loop (L : IppLib) (host : ByteOrder) (env : Env) :
    Nat → Machine sign_locals → Option (Machine sign_locals)
  | 0, _ => none
  | fuel + 1, s =>
    match sample_ecdsa_sign_loop_body L host env s with
    | (.error _, s1) => some s1
    | (.ok _, s1) =>
      if s1.locals.bn_result = 0 then sample_ecdsa_sign_loop L host env fuel s1
      else some s1

/-- The statements of the outer block of `sample_ecdsa_sign` after the inner
loop (lines 902-926). -/
def sample_ecdsa_sign_after_loop (L : IppLib) (env : Env) : Op sign_locals Unit Unit := do
  ERROR_BREAK
  let l ← getLocals
  let _ ← newBN_or_break L env none order_size .p_signx_bn
    (fun l => l.p_signx_bn) (fun v l => { l with p_signx_bn := v })
  let _ ← newBN_or_break L env none order_size .p_signy_bn
    (fun l => l.p_signy_bn) (fun v l => { l with p_signy_bn := v })
  let _ ← ipp_assign env .ippsGFpECSignDSA
    [.bn (bn_at l.p_msg_bn), .bn (bn_at l.p_reg_priv_bn), .bn (bn_at l.p_eph_priv_bn)]
  ERROR_BREAK
  let sig := L.ippsGFpECSignDSA (bn_at l.p_msg_bn) (bn_at l.p_reg_priv_bn)
    (bn_at l.p_eph_priv_bn)
  setLocals fun l => { l with p_signx_bn := some sig.1, p_signy_bn := some sig.2 }
  ref_BN_copy env sig.1 .x
    (fun f l => { l with p_signature := l.p_signature.map fun p => { p with x := f p.x } })
  emit (Event.memset_s .p_sigx 32 0 (copy_len sig.1.length))
  let sigx : BigNum :=
    ⟨sig.1.length, ((memset_s (some sig.1.data) 32 0 (copy_len sig.1.length)).2).getD []⟩
  setLocals fun l => { l with p_signx_bn := some sigx }
  ref_BN_copy env sig.2 .y
    (fun f l => { l with p_signature := l.p_signature.map fun p => { p with y := f p.y } })
  emit (Event.memset_s .p_sigy 32 0 (copy_len sig.2.length))
  let sigy : BigNum :=
    ⟨sig.2.length, ((memset_s (some sig.2.data) 32 0 (copy_len sig.2.length)).2).getD []⟩
  setLocals fun l => { l with p_signy_bn := some sigy }

/-- The statements of `sample_ecdsa_sign` after its outer block
(lines 929-954). -/
def sample_ecdsa_sign_cleanup (env : Env) : Op sign_locals sample_status_t sample_status_t := do
  let l ← getLocals
  CLEAR_FREE_MEM (ptr .p_eph_pub l.p_eph_pub) l.ecp_size
  SAFE_FREE l.scratch_buf
  sample_ipp_secure_free_BN env .p_ecp_order l.p_ecp_order order_size
  sample_ipp_secure_free_BN env .p_hash_bn l.p_hash_bn 32
  sample_ipp_secure_free_BN env .p_msg_bn l.p_msg_bn order_size
  sample_ipp_secure_free_BN env .p_eph_priv_bn l.p_eph_priv_bn order_size
  sample_ipp_secure_free_BN env .p_reg_priv_bn l.p_reg_priv_bn 32
  sample_ipp_secure_free_BN env .p_signx_bn l.p_signx_bn order_size
  sample_ipp_secure_free_BN env .p_signy_bn l.p_signy_bn order_size
  let ipp_ret ← get_ret
  pure (switch_ecc ipp_ret)

/-- The outer `do { ... } while (0)` block of `sample_ecdsa_sign`
(lines 838-927): the machine when the block is left, `none` when the inner loop
is still running after `fuel` iterations. -/
def sample_ecdsa_sign_block (L : IppLib) (host : ByteOrder) (env : Env) (fuel : Nat)
    (data r : List Nat) (s : Machine sign_locals) : Option (Machine sign_locals) :=
  match sample_ecdsa_sign_before_loop L host env data r s with
  | (.error _, s1) => some s1
  | (.ok _, s1) =>
    match sample_ecdsa_sign_loop L host env fuel s1 with
    | none => none
    | some s2 => some (sample_ecdsa_sign_after_loop L env s2).2

/-- The local variables of `sample_ecdsa_sign` at its entry. -/
def sign_init (p_signature : Option sample_ec256_signature_t) : sign_locals :=
  ⟨none, none, none, none, none, none, none, none, 0, ippECValid,
    List.replicate SAMPLE_SHA256_HASH_SIZE 0, 0, none, 0, p_signature⟩

/-- `sample_ecdsa_sign` (lines 809-955), with the inner loop run for at most
`fuel` iterations: `none` when the loop is still running after that many, what
the function hands back otherwise. -/
def sample_ecdsa_sign (L : IppLib) (host : ByteOrder) (env : Env) (fuel : Nat)
    (p_data : Option (List Nat)) (data_size : Nat) (p_private : Option (List Nat))
    (p_signature : Option sample_ec256_signature_t)
    (ecc_handle : Option ipp_ec_state_handles_t) : Option (Ret (Option sample_ec256_signature_t)) :=
  if (ecc_handle = none) ∨ (p_private = none) ∨ (p_signature = none) ∨ (p_data = none)
      ∨ (data_size < 1) then
    some ⟨SAMPLE_ERROR_INVALID_PARAMETER, p_signature, []⟩
  else
    match sample_ecdsa_sign_block L host env fuel ((p_data.getD []).take data_size)
        (p_private.getD [])
        (entry ippStsErr (sign_init p_signature)) with
    | none => none
    | some s =>
      match sample_ecdsa_sign_cleanup env s with
      | (.ok v, s1) => some (ret_of (fun l => l.p_signature) v s1)
      | (.error v, s1) => some (ret_of (fun l => l.p_signature) v s1)

/-! ## SHA-256 -/

/-- What a non-null `sample_sha_state_handle_t` designates: the buffer `addr`
and the hash state it holds. -/
structure sha_state where
  addr : Buf
  state : IppsHashState_rmf
  deriving DecidableEq, Repr

/-- The `switch (ipp_ret)` of `sample_sha256_update` and `sample_sha256_get_hash`
(lines 1007-1013, 1029-1035). -/
def switch_sha : IppStatus → sample_status_t
  | ippStsNoErr => SAMPLE_SUCCESS
  | ippStsNullPtrErr => SAMPLE_ERROR_INVALID_PARAMETER
  | ippStsLengthErr => SAMPLE_ERROR_INVALID_PARAMETER
  | _ => SAMPLE_ERROR_UNEXPECTED

/-- `sample_sha256_init` (lines 961-991); the handle variable behind
`p_sha_handle` is handed back. -/
def sample_sha256_init (L : IppLib) (env : Env) (p_sha_handle : Option (Option sha_state)) :
    Ret (Option (Option sha_state)) :=
  run ippStsNoErr p_sha_handle id (
    if p_sha_handle = none then leave SAMPLE_ERROR_INVALID_PARAMETER
    else do
      let r ← ipp_assign env .ippsHashGetSize_rmf []
      let ctx_size := r.size
      if r.status ≠ ippStsNoErr then leave SAMPLE_ERROR_UNEXPECTED
      else do
      let p_temp_state ← malloc_or env .p_temp_state ctx_size
        (leave SAMPLE_ERROR_OUT_OF_MEMORY)
      let r ← ipp_assign env .ippsHashInit_rmf []
      if r.status ≠ ippStsNoErr then do
        SAFE_FREE p_temp_state
        emit (Event.store .p_sha_handle)
        setLocals fun _ => some none
        leave (switch_null_length r.status)
      else do
      emit (Event.store .p_sha_handle)
      setLocals fun _ => some (some ⟨.p_temp_state, L.ippsHashInit_rmf⟩)
      pure SAMPLE_SUCCESS)

/-- `sample_sha256_update` (lines 999-1014); the state behind `sha_handle` is
handed back. -/
def sample_sha256_update (L : IppLib) (env : Env) (p_src : Option (List Nat)) (src_len : Nat)
    (sha_handle : Option sha_state) : Ret (Option sha_state) :=
  run ippStsNoErr sha_handle id (
    if (p_src = none) ∨ (sha_handle = none) then leave SAMPLE_ERROR_INVALID_PARAMETER
    else do
      let src := (p_src.getD []).take src_len
      let r ← ipp_assign env .ippsHashUpdate_rmf [.bytes src]
      (if r.status = ippStsNoErr then
        setLocals fun h => h.map (fun st => { st with state := L.ippsHashUpdate_rmf st.state src })
       else pure ())
      pure (switch_sha r.status))

/-- `sample_sha256_get_hash` (lines 1021-1036); the memory behind `p_hash` is
handed back. -/
def sample_sha256_get_hash (L : IppLib) (env : Env) (sha_handle : Option sha_state)
    (p_hash : Option (List Nat)) : Ret (Option (List Nat)) :=
  run ippStsNoErr p_hash id (
    if (sha_handle = none) ∨ (p_hash = none) then leave SAMPLE_ERROR_INVALID_PARAMETER
    else do
      let r ← ipp_assign env .ippsHashGetTag_rmf []
      (if r.status = ippStsNoErr then
        setLocals fun h => h.map (fun hash =>
          memcpy hash (L.ippsHashGetTag_rmf ((sha_handle.map fun st => st.state).getD []))
            SAMPLE_SHA256_HASH_SIZE)
       else pure ())
      pure (switch_sha r.status))

/-- `sample_sha256_close` (lines 1042-1050). -/
def sample_sha256_close (sha_handle : Option sha_state) : Ret Unit :=
  run ippStsNoErr () id (
    if sha_handle = none then leave SAMPLE_ERROR_INVALID_PARAMETER
    else do
      SAFE_FREE (sha_handle.map fun st => st.addr)
      pure SAMPLE_SUCCESS)


/-! ## Assertions on machines and traces -/

/-- `wp m Q E s`: running `m` from `s` ends in a machine satisfying `Q` when `m`
completes and `E` when it leaves the enclosing block. -/
def wp {σ ε α : Type} (m : Op σ ε α) (Q : α → Machine σ → Prop) (E : ε → Machine σ → Prop)
    (s : Machine σ) : Prop :=
  match m s with
  | (.ok a, s1) => Q a s1
  | (.error e, s1) => E e s1

/-- The status `st` accounts for the event: a library call reported
`ippStsNoErr` or `st`, and an allocation succeeded unless `st` is one of the two
allocation statuses. -/
def Event.explainedBy (st : IppStatus) : Event → Prop
  | .call _ _ r => r.status = ippStsNoErr ∨ r.status = st
  | .malloc _ _ ok => ok = true ∨ st = ippStsNoMemErr ∨ st = ippStsMemAllocErr
  | _ => True

/-- The status variable accounts for every event so far. -/
def Sound {σ : Type} (s : Machine σ) : Prop := ∀ e ∈ s.trace, e.explainedBy s.ipp_ret

/-- A postcondition as it stands at the end of one path through a body. -/
structure Leaf (P : Prop) : Prop where
  out : P

/-- The events of the statements that release the temporary buffers: `free`,
`memset_s`, and the sizing query of `sample_ipp_secure_free_BN`, whose status
is not looked at. -/
def Event.isCleanup : Event → Bool
  | .free _ => true
  | .memset_s _ _ _ _ => true
  | .call .ippsBigNumGetSize _ _ => true
  | _ => false

/-- Every run of `m` completes, leaves the status variable and the local
variables alone, and performs only events of releasing memory. -/
def OnlyCleans {σ ε : Type} (m : Op σ ε Unit) : Prop :=
  ∀ s : Machine σ, ∃ p evs, m s = (.ok (), ⟨p, s.trace ++ evs, s.ipp_ret, s.locals⟩) ∧
    ∀ e ∈ evs, e.isCleanup = true

/-- The event is a call of the library function `fn`. -/
def Event.isCallOf (fn : IppFn) : Event → Bool
  | .call f _ _ => decide (f = fn)
  | _ => false

/-- If the event is a call of the key-pair test, it is a call on the private
key `d` and the public point `Q`, and when the status variable ends as
`ippStsNoErr` the test reported `ippStsNoErr` and the verdict `ippECValid`. -/
def Event.tstKeyPairOk (d : BigNum) (Q : IppsGFpECPoint) (st : IppStatus) : Event → Prop
  | .call fn args r => fn = .ippsGFpECTstKeyPair →
      args = [.bn d, .pt Q] ∧ (st = ippStsNoErr → r.status = ippStsNoErr ∧ r.verdict = ippECValid)
  | _ => True

/-- The events of the `do { ... } while (0)` block of
`sample_ecc256_create_key_pair`, which the statements releasing the temporary
buffers follow. -/
def keypair_block_run (L : IppLib) (host : ByteOrder) (env : Env)
    (p_private : Option (List Nat)) (p_public : Option sample_ec256_public_t) :
    Machine keypair_locals :=
  (sample_ecc256_create_key_pair_block L host env
    (entry ippStsErr (keypair_init p_private p_public))).2

/-- What the block of `sample_ecc256_create_key_pair` establishes, with `d` the
private key the library generates from the bit supplier and `Q` the public
point it computes from `d`: the status variable accounts for every event; a
key-pair test is a test of `d` and `Q`; and if the status variable ends as
`ippStsNoErr`, the key-pair test has been called and the caller's fields hold
the zero-padded bytes of `d` and of the coordinates of `Q`. -/
def keypair_post (L : IppLib) (host : ByteOrder) (p_private : Option (List Nat))
    (p_public : Option sample_ec256_public_t) (s : Machine keypair_locals) : Prop :=
  let d := L.ippsGFpECPrivateKey (sample_ipp_DRNGen host)
  let Q := L.ippsGFpECPublicKey d
  let gx := (L.ippsGFpECGetPointRegular Q).1
  let gy := (L.ippsGFpECGetPointRegular Q).2
  Sound s ∧
  (∀ e ∈ s.trace, e.tstKeyPairOk d Q s.ipp_ret) ∧
  (s.ipp_ret = ippStsNoErr →
    s.trace.any (Event.isCallOf .ippsGFpECTstKeyPair) = true ∧
    s.locals.p_private =
      p_private.map (fun r => memcpy (memset r 0 32) d.data (copy_len d.length)) ∧
    s.locals.p_public =
      p_public.map (fun p =>
        ⟨memcpy (memset p.gx 0 32) gx.data (copy_len gx.length),
          memcpy (memset p.gy 0 32) gy.data (copy_len gy.length)⟩))

/-- The machine when `sample_ecc256_compute_shared_dhkey` leaves its
`do { ... } while (0)` block, which the statements releasing the temporary
buffers follow. -/
def dhkey_block_run (L : IppLib) (env : Env) (p_private_b : Option (List Nat))
    (p_public_ga : Option sample_ec256_public_t) (p_shared_key : Option (List Nat)) :
    Machine dhkey_locals :=
  (sample_ecc256_compute_shared_dhkey_block L env (p_private_b.getD [])
    ((p_public_ga.map fun p => p.gx).getD []) ((p_public_ga.map fun p => p.gy).getD [])
    (entry ippStsErr (dhkey_init p_shared_key))).2

/-- If the event is a call of the point test, the verdict it left is `v`. -/
def Event.tstPointGave (v : IppECResult) : Event → Prop
  | .call fn _ r => fn = .ippsGFpECTstPoint → r.verdict = v
  | _ => True

/-- The event is neither a call of the shared-secret primitive nor a failure
other than one of the point test. -/
def Event.upToPointTest : Event → Prop
  | .call fn _ r =>
      fn ≠ .ippsGFpECSharedSecretDH ∧ (fn = .ippsGFpECTstPoint ∨ r.status = ippStsNoErr)
  | .malloc _ _ ok => ok = true
  | .memcpy _ _ => False
  | .memset _ _ _ => False
  | _ => True

/-- The event is a call of the point test that reported `ippStsNoErr` and the
verdict `ippECValid`. -/
def Event.isValidPointTest : Event → Prop
  | .call fn _ r => fn = .ippsGFpECTstPoint ∧ r.status = ippStsNoErr ∧ r.verdict = ippECValid
  | _ => False

/-- No call of the shared-secret primitive occurs in the trace before a call of
the point test that reported `ippStsNoErr` and `ippECValid`. -/
def dhAfterPointTest : List Event → Prop
  | [] => True
  | e :: t => e.isValidPointTest ∨ (e.isCallOf .ippsGFpECSharedSecretDH = false ∧ dhAfterPointTest t)

/-- What the block of `sample_ecc256_compute_shared_dhkey` establishes: the
status variable accounts for every event; `ipp_result` is what the point test
left; the shared-secret primitive is called only after a point test that
reported `ippECValid`; and if `ipp_result` is not `ippECValid`, the block made no
call of the shared-secret primitive, wrote nothing to `p_shared_key`, and no
event but the point test failed. -/
def dhkey_post (p_shared_key : Option (List Nat)) (s : Machine dhkey_locals) : Prop :=
  Sound s ∧
  (∀ e ∈ s.trace, e.tstPointGave s.locals.ipp_result) ∧
  dhAfterPointTest s.trace ∧
  (s.locals.ipp_result ≠ ippECValid →
    s.locals.p_shared_key = p_shared_key ∧ ∀ e ∈ s.trace, e.upToPointTest)

/-- The shared secret the library computes for the private key `r` and the
peer point with coordinates `gx`, `gy`, as the shared-key function requests
it. -/
def dh_share (L : IppLib) (r gx gy : List Nat) : BigNum :=
  L.ippsGFpECSharedSecretDH (L.ippsSet_BN (Int.tdiv 32 4) r)
    (L.ippsGFpECSetPointRegular (L.ippsSet_BN (Int.tdiv 32 4) gx)
      (L.ippsSet_BN (Int.tdiv 32 4) gy))

/-- The machine after a block of the shared-key function that ran to its end:
the status variable holds `ippStsNoErr`, the verdict is `ippECValid`, and the
caller's field was zeroed and then received the bytes of the shared secret. -/
def dhkey_done (share : BigNum) (p_shared_key : Option (List Nat))
    (s : Machine dhkey_locals) : Prop :=
  s.ipp_ret = ippStsNoErr ∧ s.locals.ipp_result = ippECValid ∧
    s.locals.p_shared_key =
      p_shared_key.map fun f => memcpy (memset f 0 32) share.data (copy_len share.length)

/-- The value the functions that return from inside their body (AES-GCM,
AES-CMAC, SHA-256 init) return after a call of `fn` that reported the status
`st` other than `ippStsNoErr`: `SAMPLE_ERROR_UNEXPECTED` after a sizing query
(lines 307-310, 396-399, 970-972), and what the `switch` that follows the call
maps `st` to otherwise. -/
def status_after : IppFn → IppStatus → sample_status_t
  | .ippsAES_GCMGetSize, _ => SAMPLE_ERROR_UNEXPECTED
  | .ippsAES_CMACGetSize, _ => SAMPLE_ERROR_UNEXPECTED
  | .ippsHashGetSize_rmf, _ => SAMPLE_ERROR_UNEXPECTED
  | .ippsAES_GCMInit, st => switch_init st
  | .ippsAES_CMACInit, st => switch_init st
  | .ippsAES_GCMEncrypt, st => switch_null st
  | _, st => switch_null_length st

/-- The return value `v` accounts for the event: a library call reported
`ippStsNoErr` or `v` is what the function returns after that failure, and an
allocation succeeded or `v` is `SAMPLE_ERROR_OUT_OF_MEMORY`. -/
def Event.mappedTo (v : sample_status_t) : Event → Prop
  | .call fn _ r => r.status = ippStsNoErr ∨ v = status_after fn r.status
  | .malloc _ _ ok => ok = true ∨ v = SAMPLE_ERROR_OUT_OF_MEMORY
  | _ => True

/-- The return value accounts for every event of the run. -/
def Mapped {α : Type} (R : Ret α) : Prop := ∀ e ∈ R.trace, e.mappedTo R.status

/-- The machine when `sample_ecc256_open_context` leaves its
`do { ... } while (0)` block. -/
def open_block_run (env : Env) (ecc_handle : Option (Option ipp_ec_state_handles_t)) :
    Machine open_locals :=
  (sample_ecc256_open_context_block env (entry ippStsErr (open_init ecc_handle))).2

/-- Every event of the trace succeeded: every library call reported
`ippStsNoErr` and every allocation returned a buffer. -/
def Clean (t : List Event) : Prop := ∀ e ∈ t, e.explainedBy ippStsNoErr

/-- The run of the statements of `sample_ecdsa_sign` that precede the inner
loop: whether they completed or left the outer block, and the machine then. -/
def sign_before_run (L : IppLib) (host : ByteOrder) (env : Env) (p_data : Option (List Nat))
    (data_size : Nat) (p_private : Option (List Nat))
    (p_signature : Option sample_ec256_signature_t) : Except Unit Unit × Machine sign_locals :=
  sample_ecdsa_sign_before_loop L host env ((p_data.getD []).take data_size)
    (p_private.getD []) (entry ippStsErr (sign_init p_signature))

/-- The machine when `sample_ecdsa_sign` leaves its outer
`do { ... } while (0)` block, `none` when the inner loop is still running after
`fuel` iterations. -/
def sign_block_run (L : IppLib) (host : ByteOrder) (env : Env) (fuel : Nat)
    (p_data : Option (List Nat)) (data_size : Nat) (p_private : Option (List Nat))
    (p_signature : Option sample_ec256_signature_t) : Option (Machine sign_locals) :=
  sample_ecdsa_sign_block L host env fuel ((p_data.getD []).take data_size)
    (p_private.getD []) (entry ippStsErr (sign_init p_signature))

/-- Every interaction with the environment succeeds: every library call reports
`ippStsNoErr`, every allocation returns a buffer, and every test leaves the
verdict `ippECValid`. -/
def Env.allOk (env : Env) : Prop :=
  ∀ k, (env k).status = ippStsNoErr ∧ (env k).ok = true ∧ (env k).verdict = ippECValid

/-- Modelled from the spec: the curve arithmetic of the wrapped primitives
library, which the translation unit calls and does not contain.  The spec says
of it that key-pair generation "computes the corresponding public point" of a
private scalar and that the shared secret is "the x-coordinate of the
scalar-multiplied point".  So: the points form a commutative group `G` with a
base point; a big number stands for a scalar and a point context for a point;
and `ippsGFpECSharedSecretDH` computes the coordinate `secret` of the scalar
multiple of the peer point, a value of at most 256 bits. -/
structure CurveModel (L : IppLib) where
  G : Type
  [group : AddCommGroup G]
  base : G
  scalar : BigNum → Nat
  point : IppsGFpECPoint → G
  secret : G → BigNum
  shared_secret : ∀ d P, L.ippsGFpECSharedSecretDH d P = secret (scalar d • point P)
  secret_size : ∀ g, copy_len (secret g).length ≤ 32

attribute [instance] CurveModel.group

/-- The point the library builds from the two 32-byte coordinates of a
`sample_ec256_public_t`. -/
def public_point (L : IppLib) (A : sample_ec256_public_t) : IppsGFpECPoint :=
  L.ippsGFpECSetPointRegular (L.ippsSet_BN 8 A.gx) (L.ippsSet_BN 8 A.gy)

/-- Modelled from the spec: `(a, A)` is a key pair when the point of `A` is "the
corresponding public point" of the private scalar held in the 32 bytes `a`: the
multiple of the base point by that scalar. -/
def CurveModel.isKeyPair {L : IppLib} (M : CurveModel L) (a : List Nat)
    (A : sample_ec256_public_t) : Prop :=
  M.point (public_point L A) = M.scalar (L.ippsSet_BN 8 a) • M.base

/-- The 32-byte field a big number is handed out in: its first
`ROUND_TO(length, 8) / 8` bytes, then zeros. -/
def padded (bn : BigNum) : List Nat :=
  (List.range (copy_len bn.length)).map (fun i => bn.data.getD i 0)
    ++ List.replicate (32 - copy_len bn.length) 0

/-! ## Sample inputs -/

/-- A stand-in for the library, over small numbers: a private key and a point
are read off their first byte, the public point of a private key is the key
itself (the base point is 1), the shared secret of a key and a point is their
product, and two big numbers compare equal when they are the same. -/
def sampleLib : IppLib where
  ippsBigNumInit := fun _ => ⟨0, []⟩
  ippsSet_BN := fun len data => ⟨32 * len, data⟩
  ippsSetOctString_BN := fun oct => ⟨8 * oct.length, oct.reverse⟩
  ippsMod_BN := fun a _ => a
  ippsCmp_BN := fun a b => if a = b then 0 else 1
  ippsGFpECPrivateKey := fun _ => ⟨256, [7]⟩
  ippsGFpECPublicKey := fun d => d.data
  ippsGFpECPointInit := []
  ippsGFpECGetPointRegular := fun p => (⟨256, p⟩, ⟨256, p.reverse⟩)
  ippsGFpECSetPointRegular := fun x _ => x.data
  ippsGFpECSharedSecretDH := fun d p =>
    ⟨256, [(d.data.headD 0 * p.headD 0) % 256, (d.data.headD 0 * p.headD 0) / 256 % 256]⟩
  ippsGFpECSignDSA := fun m r e =>
    (⟨256, m.data⟩, ⟨256, List.zipWith (fun a b => (a + b) % 256) r.data e.data⟩)
  ippsHashMessage_rmf := fun msg => List.replicate 32 (msg.sum % 256)
  ippsHashInit_rmf := []
  ippsHashUpdate_rmf := fun st src => st ++ src
  ippsHashGetTag_rmf := fun st => List.replicate 32 (st.sum % 256)
  ippsAES_GCMEncrypt := fun key _ _ src =>
    List.zipWith (fun a b => (a + b) % 256) src (key ++ key)
  ippsAES_GCMGetTag := fun key _ aad src =>
    List.replicate 16 ((key.sum + aad.sum + src.sum) % 256)
  ippsAES_CMACFinal := fun key src => List.replicate 16 ((key.sum + src.sum) % 256)

/-- The curve model `sampleLib` satisfies, over the integers. -/
def sampleModel : CurveModel sampleLib where
  G := Int
  base := 1
  scalar := fun d => d.data.headD 0
  point := fun p => (p.headD 0 : Nat)
  secret := fun g => ⟨256, [g.toNat % 256, g.toNat / 256 % 256]⟩
  shared_secret := by
    intro d P
    show (⟨256, _⟩ : BigNum) = ⟨256, _⟩
    simp only [nsmul_eq_mul, ← Nat.cast_mul, Int.toNat_natCast]
  secret_size := by
    intro g
    show copy_len 256 ≤ 32
    decide

/-- The environment in which every call reports `ippStsNoErr`, every sizing
query 64 bytes, every test `ippECValid`, and every allocation succeeds. -/
def env_ok : Env := fun _ => ⟨ippStsNoErr, 64, ippECValid, true⟩

/-- The environment `env_ok` except that the `k`-th interaction gets the
response `r`. -/
def env_at (k : Nat) (r : Resp) : Env := fun i => if i = k then r else env_ok i

/-- A 16-byte key. -/
def sample_key : List Nat := List.replicate 16 0x2b

/-- A 32-byte field holding the bytes `c`. -/
def sample_field (c : Nat) : List Nat := List.replicate 32 c

/-- A handle as `sample_ecc256_open_context` produces it. -/
def sample_handle : ipp_ec_state_handles_t := ⟨.ipp_state_handle, some .gfp_ctx, some .ec_state⟩


/-! ## Numbers held in words and bytes -/

/-- The number whose 32-bit words, least significant first, are `ws`. -/
def nat_of_words : List Nat → Nat
  | [] => 0
  | w :: ws => w + 2 ^ 32 * nat_of_words ws

/-- The number whose bytes, least significant first, are `bs`. -/
def nat_of_bytes : List Nat → Nat
  | [] => 0
  | b :: bs => b + 256 * nat_of_bytes bs

/-- The order of the group of points of the curve NIST P-256 (FIPS 186-4,
D.1.2.3). -/
def nistp256_order : Nat := 0xFFFFFFFF00000000FFFFFFFFFFFFFFFFBCE6FAADA7179E84F3B9CAC2FC632551

/-! ## Bookkeeping of the heap along a trace -/

/-- The buffers that are allocated and not yet freed after an event, given those
before it; `none` once an event has freed a buffer that was not among them. -/
def Event.heap_step (live : Option (List Buf)) : Event → Option (List Buf)
  | .malloc b _ ok => live.map fun bufs => if ok then b :: bufs else bufs
  | .free b => live.bind fun bufs => if b ∈ bufs then some (bufs.erase b) else none
  | _ => live

/-- The buffers that are allocated and not yet freed after a trace, starting
from the buffers `live`; `none` when the trace frees a buffer that is not
allocated at that point. -/
def live_after (live : List Buf) (t : List Event) : Option (List Buf) :=
  t.foldl Event.heap_step (some live)

/-- The buffers allocated and not yet freed by the events so far are those the
pointer variables listed by `owned` hold. -/
def Owns {σ : Type} (owned : σ → List Buf) (s : Machine σ) : Prop :=
  ∃ live, live_after [] s.trace = some live ∧ live.Perm (owned s.locals)

/-- If the event is a `memcpy` into the field `dst`, it copies
`ROUND_TO(length, 8) / 8` bytes for the bit length of the big number `src dst`,
and that is at most 32. -/
def Event.copyFits (src : Out → BigNum) : Event → Prop
  | .memcpy dst n => n = copy_len (src dst).length ∧ n ≤ 32
  | _ => True

/-- If the event is a call of `ippsRef_BN` that reported `ippStsNoErr` on a big
number whose `ROUND_TO(length, 8) / 8` exceeds 32, the status variable ended as
`ippStsSizeErr`. -/
def Event.refChecked (st : IppStatus) : Event → Prop
  | .call fn args r => fn = .ippsRef_BN → r.status = ippStsNoErr →
      ∀ bn, args = [.bn bn] → 32 < copy_len bn.length → st = ippStsSizeErr
  | _ => True

/-- The buffers the pointer variables of `sample_ecc256_create_key_pair` hold,
in the order in which the function releases them. -/
def keypair_owned (l : keypair_locals) : List Buf :=
  (ptr .pub_point l.pub_point).toList ++ l.scratch_buf.toList ++
    (ptr .pub_gx l.pub_gx).toList ++ (ptr .pub_gy l.pub_gy).toList ++
    (ptr .dh_priv_bn l.dh_priv_bn).toList

/-- The big number whose bytes `sample_ecc256_create_key_pair` copies to each
output field. -/
def keypair_source (L : IppLib) (host : ByteOrder) : Out → BigNum
  | .r => L.ippsGFpECPrivateKey (sample_ipp_DRNGen host)
  | .gx => (L.ippsGFpECGetPointRegular
      (L.ippsGFpECPublicKey (L.ippsGFpECPrivateKey (sample_ipp_DRNGen host)))).1
  | .gy => (L.ippsGFpECGetPointRegular
      (L.ippsGFpECPublicKey (L.ippsGFpECPrivateKey (sample_ipp_DRNGen host)))).2
  | _ => ⟨0, []⟩

/-- What the block of `sample_ecc256_create_key_pair` establishes about memory:
the pointer variables hold exactly the buffers allocated and not freed; every
`memcpy` copies the byte count of its big number, at most 32; a big number too
long for its field leaves `ippStsSizeErr`; and if the status variable ends as
`ippStsNoErr`, the three big numbers fit their fields. -/
def keypair_post2 (L : IppLib) (host : ByteOrder) (s : Machine keypair_locals) : Prop :=
  Owns keypair_owned s ∧
  (∀ e ∈ s.trace, e.copyFits (keypair_source L host)) ∧
  (∀ e ∈ s.trace, e.refChecked s.ipp_ret) ∧
  (s.ipp_ret = ippStsNoErr →
    copy_len (keypair_source L host .r).length ≤ 32 ∧
    copy_len (keypair_source L host .gx).length ≤ 32 ∧
    copy_len (keypair_source L host .gy).length ≤ 32)

/-- The buffers left after the pointer `address` is released: unchanged when it
is null, and otherwise without the buffer it holds, which must be among them. -/
def release (live : List Buf) : Option Buf → Option (List Buf)
  | none => some live
  | some b => if b ∈ live then some (live.erase b) else none

/-- Every run of `m` completes, leaves the status variable and the local
variables alone, and as far as the heap goes frees the buffer `address` holds,
once, when `address` is not null. -/
def Releases {σ ε : Type} (m : Op σ ε Unit) (address : Option Buf) : Prop :=
  ∀ s : Machine σ, ∃ p evs, m s = (.ok (), ⟨p, s.trace ++ evs, s.ipp_ret, s.locals⟩) ∧
    ∀ live, live_after live evs = release live address

/-- The buffers the pointer variables of `sample_ecc256_compute_shared_dhkey`
hold, in the order in which the function releases them. -/
def dhkey_owned (l : dhkey_locals) : List Buf :=
  (ptr .point_pub_a l.point_pub_a).toList ++ l.scratch_buf.toList ++
    (ptr .pub_a_gx l.pub_a_gx).toList ++ (ptr .pub_a_gy l.pub_a_gy).toList ++
    (ptr .bn_dh_priv_b l.bn_dh_priv_b).toList ++ (ptr .bn_dh_share l.bn_dh_share).toList

/-- What the block of `sample_ecc256_compute_shared_dhkey` establishes about
memory, with `share` the shared secret the library computes: the pointer
variables hold exactly the buffers allocated and not freed; every `memcpy`
copies the byte count of `share`, at most 32; a secret too long for the field
leaves `ippStsSizeErr`; and if the status variable ends as `ippStsNoErr`, the
verdict is `ippECValid`, the secret fits, and the caller's field was zeroed and
then received its bytes. -/
def dhkey_post2 (share : BigNum) (p_shared_key : Option (List Nat))
    (s : Machine dhkey_locals) : Prop :=
  Owns dhkey_owned s ∧
  (∀ e ∈ s.trace, e.copyFits fun _ => share) ∧
  (∀ e ∈ s.trace, e.refChecked s.ipp_ret) ∧
  (s.ipp_ret = ippStsNoErr →
    s.locals.ipp_result = ippECValid ∧ copy_len share.length ≤ 32 ∧
    s.locals.p_shared_key =
      p_shared_key.map fun f => memcpy (memset f 0 32) share.data (copy_len share.length))

/-! ## What `sample_ecdsa_sign` passes to the library -/

/-- The buffers the pointer variables of `sample_ecdsa_sign` hold before the
two components of the signature are allocated, in the order in which the
function releases them. -/
def sign_kept (l : sign_locals) : List Buf :=
  (ptr .p_eph_pub l.p_eph_pub).toList ++ l.scratch_buf.toList ++
    (ptr .p_ecp_order l.p_ecp_order).toList ++ (ptr .p_hash_bn l.p_hash_bn).toList ++
    (ptr .p_msg_bn l.p_msg_bn).toList ++ (ptr .p_eph_priv_bn l.p_eph_priv_bn).toList ++
    (ptr .p_reg_priv_bn l.p_reg_priv_bn).toList

/-- The buffers of the two components of the signature. -/
def sign_result (l : sign_locals) : List Buf :=
  (ptr .p_signx_bn l.p_signx_bn).toList ++ (ptr .p_signy_bn l.p_signy_bn).toList

/-- The buffers the pointer variables of `sample_ecdsa_sign` hold, in the order
in which the function releases them. -/
def sign_owned (l : sign_locals) : List Buf := sign_kept l ++ sign_result l

/-- The big number `p_ecp_order` of `sample_ecdsa_sign`: `sample_nistp256_r`, as
`sgx_ipp_newBN` sets it. -/
def sign_order (L : IppLib) (host : ByteOrder) : BigNum :=
  L.ippsSet_BN (Int.tdiv order_size 4) (bytes_of_words host sample_nistp256_r)

/-- The big number `p_hash_bn` of `sample_ecdsa_sign` once
`ippsSetOctString_BN` has set it from the hash of the data. -/
def sign_hash (L : IppLib) (data : List Nat) : BigNum :=
  L.ippsSetOctString_BN (L.ippsHashMessage_rmf data)

/-- The big number `p_msg_bn` of `sample_ecdsa_sign`: the hash reduced by
`ippsMod_BN`. -/
def sign_msg (L : IppLib) (host : ByteOrder) (data : List Nat) : BigNum :=
  L.ippsMod_BN (sign_hash L data) (sign_order L host)

/-- The big number `p_reg_priv_bn` of `sample_ecdsa_sign`: the private key `r`,
as `sgx_ipp_newBN` sets it. -/
def sign_reg (L : IppLib) (r : List Nat) : BigNum := L.ippsSet_BN (Int.tdiv 32 4) r

/-- The big number `p_eph_priv_bn` of `sample_ecdsa_sign` after
`ippsGFpECPrivateKey` has drawn it from `sample_ipp_DRNGen`. -/
def sign_eph (L : IppLib) (host : ByteOrder) : BigNum :=
  L.ippsGFpECPrivateKey (sample_ipp_DRNGen host)

/-- The two big numbers `ippsGFpECSignDSA` computes in `sample_ecdsa_sign`. -/
def sign_sig (L : IppLib) (host : ByteOrder) (data r : List Nat) : BigNum × BigNum :=
  L.ippsGFpECSignDSA (sign_msg L host data) (sign_reg L r) (sign_eph L host)

/-- The big number whose bytes `sample_ecdsa_sign` copies to each field of the
signature. -/
def sign_source (L : IppLib) (host : ByteOrder) (data r : List Nat) : Out → BigNum
  | .x => (sign_sig L host data r).1
  | .y => (sign_sig L host data r).2
  | _ => ⟨0, []⟩

/-- The event is a call of `ippsCmp_BN` that reported `ippStsNoErr` on two big
numbers that compare equal. -/
def Event.foundEqual (L : IppLib) : Event → Prop
  | .call fn args r => fn = .ippsCmp_BN ∧ r.status = ippStsNoErr ∧
      ∃ a b, args = [.bn a, .bn b] ∧ L.ippsCmp_BN a b = 0
  | _ => False

/-- The event is a call of `ippsGFpECPrivateKey`. -/
def Event.drawsKey : Event → Prop
  | .call fn _ _ => fn = .ippsGFpECPrivateKey
  | _ => False

/-- Of two consecutive events: if the first is a comparison that found the keys
equal, the second draws a private key. -/
def retry (L : IppLib) (e1 e2 : Event) : Prop := e1.foundEqual L → e2.drawsKey

/-- What holds of an event of `sample_ecdsa_sign` before the signing primitive
is called: it is no call of `ippsGFpECSignDSA` or `ippsRef_BN` and no `memcpy`,
and a call of `ippsMod_BN` reduces the hash of the data by `p_ecp_order`. -/
def Event.signPrep (L : IppLib) (host : ByteOrder) (data : List Nat) : Event → Prop
  | .call fn args _ => fn ≠ .ippsGFpECSignDSA ∧ fn ≠ .ippsRef_BN ∧
      (fn = .ippsMod_BN → args = [.bn (sign_hash L data), .bn (sign_order L host)])
  | .memcpy _ _ => False
  | _ => True

/-- What holds of every event of `sample_ecdsa_sign`: a call of `ippsMod_BN`
reduces the hash of the data by `p_ecp_order`; a call of `ippsGFpECSignDSA` is
on the reduced hash, the private key and the ephemeral key, which compare
different; and a `memcpy` copies the byte count of its big number, at most
32. -/
def Event.signStep (L : IppLib) (host : ByteOrder) (data r : List Nat) : Event → Prop
  | .call fn args _ =>
      (fn = .ippsMod_BN → args = [.bn (sign_hash L data), .bn (sign_order L host)]) ∧
      (fn = .ippsGFpECSignDSA →
        args = [.bn (sign_msg L host data), .bn (sign_reg L r), .bn (sign_eph L host)] ∧
        L.ippsCmp_BN (sign_eph L host) (sign_reg L r) ≠ 0)
  | .memcpy dst n => n = copy_len (sign_source L host data r dst).length ∧ n ≤ 32
  | _ => True

/-- The trace holds a call of `ippsGFpECTstKeyPair` on the ephemeral key and its
public point that reported `ippStsNoErr` and the verdict `ippECValid`, and a
call of `ippsCmp_BN` on the ephemeral key and the private key that reported
`ippStsNoErr`. -/
def Tested (L : IppLib) (host : ByteOrder) (r : List Nat) (t : List Event) : Prop :=
  ∃ rt rc : Resp,
    Event.call .ippsGFpECTstKeyPair
      [.bn (sign_eph L host), .pt (L.ippsGFpECPublicKey (sign_eph L host))] rt ∈ t ∧
    rt.status = ippStsNoErr ∧ rt.verdict = ippECValid ∧
    Event.call .ippsCmp_BN [.bn (sign_eph L host), .bn (sign_reg L r)] rc ∈ t ∧
    rc.status = ippStsNoErr

/-- The machine of `sample_ecdsa_sign` at the head of the inner loop. -/
def sign_at_loop (L : IppLib) (host : ByteOrder) (data r : List Nat)
    (sig : Option sample_ec256_signature_t) (s : Machine sign_locals) : Prop :=
  Owns sign_owned s ∧ (∀ e ∈ s.trace, e.signPrep L host data) ∧
  s.trace.Chain' (retry L) ∧
  s.locals.p_eph_priv_bn.isSome = true ∧ s.locals.p_eph_pub.isSome = true ∧
  s.locals.p_msg_bn = some (sign_msg L host data) ∧
  s.locals.p_reg_priv_bn = some (sign_reg L r) ∧
  s.locals.p_signx_bn = none ∧ s.locals.p_signy_bn = none ∧ s.locals.p_signature = sig

/-- The machine of `sample_ecdsa_sign` when the inner loop is left with the
status `ippStsNoErr`: the ephemeral key is drawn, tested and compared. -/
def sign_chosen (L : IppLib) (host : ByteOrder) (data r : List Nat)
    (sig : Option sample_ec256_signature_t) (s : Machine sign_locals) : Prop :=
  sign_at_loop L host data r sig s ∧ s.ipp_ret = ippStsNoErr ∧
  s.locals.p_eph_priv_bn = some (sign_eph L host) ∧
  s.locals.bn_result = L.ippsCmp_BN (sign_eph L host) (sign_reg L r) ∧
  Tested L host r s.trace ∧
  (s.locals.bn_result ≠ 0 → ∀ e ∈ s.trace.getLast?, ¬ e.foundEqual L)

/-- The machine of `sample_ecdsa_sign` when its outer block is left before the
signing primitive is called. -/
def sign_failed (L : IppLib) (host : ByteOrder) (data : List Nat)
    (sig : Option sample_ec256_signature_t) (s : Machine sign_locals) : Prop :=
  Owns sign_owned s ∧ (∀ e ∈ s.trace, e.signPrep L host data) ∧
  s.trace.Chain' (retry L) ∧ (∀ e ∈ s.trace.getLast?, ¬ e.foundEqual L) ∧
  s.ipp_ret ≠ ippStsNoErr ∧ s.locals.p_signature = sig

/-- The machine of `sample_ecdsa_sign` when its outer block is left: the
pointer variables hold exactly the buffers allocated and not freed; every event
is as `Event.signStep` says; a big number too long for its field leaves
`ippStsSizeErr`; a comparison that found the keys equal is followed by a new
draw; before any call of the signing primitive the ephemeral key was tested and
compared; and if the status variable ends as `ippStsNoErr`, both components
fit their fields, which were zeroed and then received their bytes. -/
def sign_post (L : IppLib) (host : ByteOrder) (data r : List Nat)
    (sig : Option sample_ec256_signature_t) (s : Machine sign_locals) : Prop :=
  Owns sign_owned s ∧ (∀ e ∈ s.trace, e.signStep L host data r) ∧
  (∀ e ∈ s.trace, e.refChecked s.ipp_ret) ∧
  s.trace.Chain' (retry L) ∧ (∀ e ∈ s.trace.getLast?, ¬ e.foundEqual L) ∧
  (∀ pre post args rs, s.trace = pre ++ Event.call .ippsGFpECSignDSA args rs :: post →
    Tested L host r pre) ∧
  (s.ipp_ret = ippStsNoErr →
    copy_len (sign_sig L host data r).1.length ≤ 32 ∧
    copy_len (sign_sig L host data r).2.length ≤ 32 ∧
    (∃ e ∈ s.trace, e.isCallOf .ippsGFpECSignDSA = true) ∧
    s.locals.p_signature = sig.map fun f =>
      ⟨memcpy (memset f.x 0 32) (sign_sig L host data r).1.data
          (copy_len (sign_sig L host data r).1.length),
        memcpy (memset f.y 0 32) (sign_sig L host data r).2.data
          (copy_len (sign_sig L host data r).2.length)⟩)

/-- The copies into the 32-byte output fields along the trace `t` of a function
that returned `status`, with `src dst` the big number copied to the field
`dst`: every `memcpy` copies `ROUND_TO(length, 8) / 8` bytes for the bit length
of its big number, and that is at most 32; and when `ippsRef_BN` reported
`ippStsNoErr` on a big number for which that byte count exceeds 32, no `memcpy`
of that many bytes is made and the function returned
`SAMPLE_ERROR_INVALID_PARAMETER`. -/
def CopiesFit (src : Out → BigNum) (t : List Event) (status : sample_status_t) : Prop :=
  (∀ dst n, Event.memcpy dst n ∈ t → n = copy_len (src dst).length ∧ n ≤ 32) ∧
  (∀ bn rs, Event.call .ippsRef_BN [.bn bn] rs ∈ t → rs.status = ippStsNoErr →
    32 < copy_len bn.length →
    status = SAMPLE_ERROR_INVALID_PARAMETER ∧ ∀ dst, Event.memcpy dst (copy_len bn.length) ∉ t)

/-- The library `sampleLib`, except that the private key it generates is
reported as 264 bits long, one byte more than the 32-byte field holds. -/
def longLib : IppLib := { sampleLib with ippsGFpECPrivateKey := fun _ => ⟨264, [7]⟩ }

/-- The library `sampleLib`, except that two big numbers compare equal when
they hold the same number, whatever the count of leading zero bytes. -/
def valueLib : IppLib :=
  { sampleLib with
    ippsCmp_BN := fun a b => if nat_of_bytes a.data = nat_of_bytes b.data then 0 else 1 }

/-! ## ECDSA over P-256 -/

/-- Modelled from the spec: the ECDSA arithmetic of the wrapped primitives
library, which the translation unit calls and does not contain.  The spec says
that signing "hashes the message with SHA-256, reduces it modulo the curve
order, generates an ephemeral key pair" and that the library "produces" the
`(x,y)` signature of "ECDSA: elliptic-curve digital signature algorithm".  So:
the points form a commutative group `G` in which the base point has the order
of P-256; a big number holds a number, `val`; the SHA-256 digest has 32 bytes;
`ippsSet_BN` reads 32 bytes as a number, least significant byte first, and
`ippsSetOctString_BN` most significant byte first; `ippsMod_BN` reduces modulo
the order; the bytes `ippsRef_BN` exposes for a component of a signature hold
its number, least significant byte first; a private key the library
generates is invertible modulo the order `n` (it is a number from 1 to
`n - 1`, and the order is prime); and for such an ephemeral key `k`
`ippsGFpECSignDSA` computes, from the reduced hash `m` and the private key `d`,
`r = x(k G) mod n` and `s < n` with `s k = m + r d (mod n)`. -/
structure EcdsaModel (L : IppLib) where
  G : Type
  [group : AddCommGroup G]
  base : G
  xcoord : G → Nat
  val : BigNum → Nat
  order_exact : ∀ j : Nat, j • base = 0 ↔ nistp256_order ∣ j
  hash_size : ∀ msg, (L.ippsHashMessage_rmf msg).length = 32
  val_set : ∀ bytes : List Nat, bytes.length = 32 →
    val (L.ippsSet_BN 8 bytes) = nat_of_bytes bytes
  val_oct : ∀ oct : List Nat, oct.length = 32 →
    val (L.ippsSetOctString_BN oct) = nat_of_bytes oct.reverse
  val_mod : ∀ a b, val b = nistp256_order → val (L.ippsMod_BN a b) = val a % nistp256_order
  val_bytes : ∀ m d k,
    (copy_len (L.ippsGFpECSignDSA m d k).1.length ≤ 32 →
      nat_of_bytes (padded (L.ippsGFpECSignDSA m d k).1) = val (L.ippsGFpECSignDSA m d k).1) ∧
    (copy_len (L.ippsGFpECSignDSA m d k).2.length ≤ 32 →
      nat_of_bytes (padded (L.ippsGFpECSignDSA m d k).2) = val (L.ippsGFpECSignDSA m d k).2)
  key_unit : ∀ supplier, (val (L.ippsGFpECPrivateKey supplier)).Coprime nistp256_order
  sign_r : ∀ m d k, (val k).Coprime nistp256_order →
    val (L.ippsGFpECSignDSA m d k).1 = xcoord (val k • base) % nistp256_order
  sign_lt : ∀ m d k, (val k).Coprime nistp256_order →
    val (L.ippsGFpECSignDSA m d k).2 < nistp256_order
  sign_s : ∀ m d k, (val k).Coprime nistp256_order →
    (val (L.ippsGFpECSignDSA m d k).2 * val k) % nistp256_order
      = (val m + val (L.ippsGFpECSignDSA m d k).1 * val d) % nistp256_order

attribute [instance] EcdsaModel.group

/-- The inverse of `s` modulo the order of P-256. -/
def ecdsa_w (s : Nat) : Nat := ((s : ZMod nistp256_order)⁻¹).val

/-- Modelled from the spec: the point ECDSA verification computes from the
digest `digest` of the message (an octet string, most significant byte first),
the public point `Q`, and the 32-byte components `x` and `y` of the signature
(least significant byte first): `u1 G + u2 Q`, with `e`, `r`, `s` the numbers
of `digest`, `x`, `y`, `w` the inverse of `s` modulo the order `n`,
`u1 = e w mod n` and `u2 = r w mod n`. -/
def EcdsaModel.verify_point {L : IppLib} (M : EcdsaModel L) (Q : M.G)
    (digest x y : List Nat) : M.G :=
  (nat_of_bytes digest.reverse * ecdsa_w (nat_of_bytes y) % nistp256_order) • M.base +
    (nat_of_bytes x * ecdsa_w (nat_of_bytes y) % nistp256_order) • Q

/-- Modelled from the spec: "verifying the same message with the matching
public key succeeds", by ECDSA verification over P-256: both components of the
signature are numbers from 1 to `n - 1`, the point `u1 G + u2 Q` is not the
neutral point, and its x-coordinate modulo `n` is the first component. -/
def EcdsaModel.verifies {L : IppLib} (M : EcdsaModel L) (Q : M.G)
    (digest x y : List Nat) : Prop :=
  0 < nat_of_bytes x ∧ nat_of_bytes x < nistp256_order ∧
  0 < nat_of_bytes y ∧ nat_of_bytes y < nistp256_order ∧
  M.verify_point Q digest x y ≠ 0 ∧
  M.xcoord (M.verify_point Q digest x y) % nistp256_order = nat_of_bytes x

/-- The `k` bytes of the number `x`, least significant first. -/
def le_bytes : Nat → Nat → List Nat
  | 0, _ => []
  | k + 1, x => x % 256 :: le_bytes k (x / 256)

/-- The library `sampleLib`, except that it computes ECDSA in the additive group
of the integers modulo the order of P-256 with the base point 1 (so that the
x-coordinate of `k G` is `k mod n`), on big numbers of 32 bytes: the ephemeral
key it draws is 1, `ippsMod_BN` reduces, and `ippsGFpECSignDSA` gives
`r = k mod n` and `s = (m + r d) / k mod n`. -/
def ecdsaLib : IppLib :=
  { sampleLib with
    ippsGFpECPrivateKey := fun _ => ⟨256, [1]⟩
    ippsMod_BN := fun a b => ⟨256, le_bytes 32 (nat_of_bytes a.data % nat_of_bytes b.data)⟩
    ippsGFpECSignDSA := fun m d k =>
      (⟨256, le_bytes 32 (nat_of_bytes k.data % nistp256_order)⟩,
        ⟨256, le_bytes 32 (((nat_of_bytes k.data : ZMod nistp256_order)⁻¹ *
          ((nat_of_bytes m.data + nat_of_bytes k.data % nistp256_order * nat_of_bytes d.data
            : Nat) : ZMod nistp256_order)).val)⟩) }

/-- The model `ecdsaLib` satisfies: the integers modulo the order of P-256, with
the base point 1. -/
def ecdsaModel : EcdsaModel ecdsaLib :=
  have bytes_val : ∀ k x, nat_of_bytes (le_bytes k x) = x % 256 ^ k := by
    intro k
    induction k with
    | zero => intro x; simp [le_bytes, nat_of_bytes, Nat.mod_one]
    | succ k ih =>
      intro x
      rw [le_bytes, nat_of_bytes, ih, pow_succ', Nat.mod_mul]
  have small : ∀ x, x < nistp256_order → nat_of_bytes (le_bytes 32 x) = x := by
    intro x hx
    rw [bytes_val]
    exact Nat.mod_eq_of_lt (lt_trans hx (by decide))
  have hpad : ∀ x, padded ⟨256, le_bytes 32 x⟩ = le_bytes 32 x := by
    intro x
    have hc : copy_len 256 = 32 := by decide
    have hl : ∀ k y, (le_bytes k y).length = k := by
      intro k
      induction k with
      | zero => intro y; rfl
      | succ k ih => intro y; rw [le_bytes, List.length_cons, ih]
    unfold padded
    simp only [hc, Nat.sub_self, List.replicate_zero, List.append_nil]
    apply List.ext_getElem?
    intro i
    by_cases hi : i < 32
    · rw [List.getElem?_map, List.getElem?_range hi, Option.map_some',
        List.getD_eq_getElem?_getD, List.getElem?_eq_getElem (by rw [hl]; exact hi)]
      rfl
    · rw [List.getElem?_eq_none (by simp only [List.length_map, List.length_range]; omega),
        List.getElem?_eq_none (by rw [hl]; omega)]
  { G := ZMod nistp256_order
    base := 1
    xcoord := ZMod.val
    val := fun bn => nat_of_bytes bn.data
    order_exact := fun j => by
      rw [nsmul_one]
      exact ZMod.natCast_zmod_eq_zero_iff_dvd j _
    hash_size := fun msg => List.length_replicate _ _
    val_set := fun _ _ => rfl
    val_oct := fun _ _ => rfl
    val_mod := fun a b hb => by
      show nat_of_bytes (le_bytes 32 (nat_of_bytes a.data % nat_of_bytes b.data)) = _
      have hb1 : nat_of_bytes b.data = nistp256_order := hb
      rw [hb1]
      exact small _ (Nat.mod_lt _ (by decide))
    val_bytes := fun m d k => ⟨fun _ => congrArg nat_of_bytes (hpad _),
      fun _ => congrArg nat_of_bytes (hpad _)⟩
    key_unit := fun _ => Nat.coprime_one_left _
    sign_r := fun m d k _ => by
      show nat_of_bytes (le_bytes 32 (nat_of_bytes k.data % nistp256_order))
        = ZMod.val (nat_of_bytes k.data • (1 : ZMod nistp256_order)) % nistp256_order
      rw [small _ (Nat.mod_lt _ (by decide)), nsmul_one, ZMod.val_natCast, Nat.mod_mod]
    sign_lt := fun m d k _ => by
      haveI : NeZero nistp256_order := ⟨by decide⟩
      show nat_of_bytes (le_bytes 32 _) < nistp256_order
      rw [small _ (ZMod.val_lt _)]
      exact ZMod.val_lt _
    sign_s := fun m d k hk => by
      haveI : NeZero nistp256_order := ⟨by decide⟩
      show nat_of_bytes (le_bytes 32 _) * nat_of_bytes k.data % nistp256_order
        = (nat_of_bytes m.data
            + nat_of_bytes (le_bytes 32 (nat_of_bytes k.data % nistp256_order))
              * nat_of_bytes d.data) % nistp256_order
      rw [small _ (ZMod.val_lt _), small _ (Nat.mod_lt _ (by decide))]
      apply (ZMod.natCast_eq_natCast_iff' _ _ _).mp
      have hinv : (nat_of_bytes k.data : ZMod nistp256_order)
          * (nat_of_bytes k.data : ZMod nistp256_order)⁻¹ = 1 :=
        ZMod.coe_mul_inv_eq_one _ hk
      rw [Nat.cast_mul, ZMod.natCast_zmod_val, mul_comm, ← mul_assoc, hinv, one_mul] }

/-- A private key, 32 bytes least significant first: the order of P-256 minus
the number of the digest `ecdsaLib` gives of the message `[1, 2, 3]`, so that
with the ephemeral key 1 the second component of the signature of that message
is zero. -/
def zero_s_key : List Nat :=
  [75, 31, 93, 246, 188, 196, 179, 237, 126, 152, 17, 161, 167, 244, 224, 182,
    249, 249, 249, 249, 249, 249, 249, 249, 250, 249, 249, 249, 248, 249, 249, 249]

/-- The library `ecdsaLib`, except that it computes ECDSA with an x-coordinate
that is 0 on every point: `ippsGFpECSignDSA` gives `r = 0` and
`s = m / k mod n`. -/
def flatLib : IppLib :=
  { ecdsaLib with
    ippsGFpECSignDSA := fun m _ k =>
      (⟨256, le_bytes 32 0⟩,
        ⟨256, le_bytes 32 (((nat_of_bytes k.data : ZMod nistp256_order)⁻¹ *
          ((nat_of_bytes m.data : Nat) : ZMod nistp256_order)).val)⟩) }

/-- The model `flatLib` satisfies: the integers modulo the order of P-256, with
the base point 1 and the x-coordinate 0 of every point. -/
def flatModel : EcdsaModel flatLib :=
  have bytes_val : ∀ k x, nat_of_bytes (le_bytes k x) = x % 256 ^ k := by
    intro k
    induction k with
    | zero => intro x; simp [le_bytes, nat_of_bytes, Nat.mod_one]
    | succ k ih =>
      intro x
      rw [le_bytes, nat_of_bytes, ih, pow_succ', Nat.mod_mul]
  have small : ∀ x, x < nistp256_order → nat_of_bytes (le_bytes 32 x) = x := by
    intro x hx
    rw [bytes_val]
    exact Nat.mod_eq_of_lt (lt_trans hx (by decide))
  have hpad : ∀ x, padded ⟨256, le_bytes 32 x⟩ = le_bytes 32 x := by
    intro x
    have hc : copy_len 256 = 32 := by decide
    have hl : ∀ k y, (le_bytes k y).length = k := by
      intro k
      induction k with
      | zero => intro y; rfl
      | succ k ih => intro y; rw [le_bytes, List.length_cons, ih]
    unfold padded
    simp only [hc, Nat.sub_self, List.replicate_zero, List.append_nil]
    apply List.ext_getElem?
    intro i
    by_cases hi : i < 32
    · rw [List.getElem?_map, List.getElem?_range hi, Option.map_some',
        List.getD_eq_getElem?_getD, List.getElem?_eq_getElem (by rw [hl]; exact hi)]
      rfl
    · rw [List.getElem?_eq_none (by simp only [List.length_map, List.length_range]; omega),
        List.getElem?_eq_none (by rw [hl]; omega)]
  { G := ZMod nistp256_order
    base := 1
    xcoord := fun _ => 0
    val := fun bn => nat_of_bytes bn.data
    order_exact := fun j => by
      rw [nsmul_one]
      exact ZMod.natCast_zmod_eq_zero_iff_dvd j _
    hash_size := fun msg => List.length_replicate _ _
    val_set := fun _ _ => rfl
    val_oct := fun _ _ => rfl
    val_mod := fun a b hb => by
      show nat_of_bytes (le_bytes 32 (nat_of_bytes a.data % nat_of_bytes b.data)) = _
      have hb1 : nat_of_bytes b.data = nistp256_order := hb
      rw [hb1]
      exact small _ (Nat.mod_lt _ (by decide))
    val_bytes := fun m d k => ⟨fun _ => congrArg nat_of_bytes (hpad _),
      fun _ => congrArg nat_of_bytes (hpad _)⟩
    key_unit := fun _ => Nat.coprime_one_left _
    sign_r := fun m d k _ => by
      show nat_of_bytes (le_bytes 32 0) = 0 % nistp256_order
      rw [small _ (by decide), Nat.zero_mod]
    sign_lt := fun m d k _ => by
      haveI : NeZero nistp256_order := ⟨by decide⟩
      show nat_of_bytes (le_bytes 32 _) < nistp256_order
      rw [small _ (ZMod.val_lt _)]
      exact ZMod.val_lt _
    sign_s := fun m d k hk => by
      haveI : NeZero nistp256_order := ⟨by decide⟩
      show nat_of_bytes (le_bytes 32 _) * nat_of_bytes k.data % nistp256_order
        = (nat_of_bytes m.data + nat_of_bytes (le_bytes 32 0) * nat_of_bytes d.data)
          % nistp256_order
      rw [small _ (ZMod.val_lt _), small 0 (by decide), Nat.zero_mul, Nat.add_zero]
      apply (ZMod.natCast_eq_natCast_iff' _ _ _).mp
      have hinv : (nat_of_bytes k.data : ZMod nistp256_order)
          * (nat_of_bytes k.data : ZMod nistp256_order)⁻¹ = 1 :=
        ZMod.coe_mul_inv_eq_one _ hk
      rw [Nat.cast_mul, ZMod.natCast_zmod_val, mul_comm, ← mul_assoc, hinv, one_mul] }

/-! # Theorems -/

section wp_rules
variable {σ ε α β : Type} (E : ε → Machine σ → Prop) (s : Machine σ)
variable (p : Nat) (t : List Event) (st : IppStatus) (l : σ)

theorem wp_bind (m : Op σ ε β) (f : β → Op σ ε α) (Q : α → Machine σ → Prop) :
    wp (m >>= f) Q E s = wp m (fun b s1 => wp (f b) Q E s1) E s := by
  show wp (Op.bind m f) Q E s = _
  unfold wp Op.bind
  rcases m s with ⟨r, s1⟩
  cases r <;> rfl

theorem wp_pure (a : α) (Q : α → Machine σ → Prop) : wp (pure a : Op σ ε α) Q E s = Q a s := rfl

theorem wp_leave (e : ε) (Q : α → Machine σ → Prop) : wp (leave e : Op σ ε α) Q E s = E e s := rfl

theorem wp_ite (c : Prop) [Decidable c] (a b : Op σ ε α) (Q : α → Machine σ → Prop) :
    wp (if c then a else b) Q E s = ((c → wp a Q E s) ∧ (¬c → wp b Q E s)) := by
  by_cases h : c <;> simp [h]

theorem wp_emit (e : Event) (Q : Unit → Machine σ → Prop) :
    wp (emit e : Op σ ε Unit) Q E ⟨p, t, st, l⟩ = Q () ⟨p, t ++ [e], st, l⟩ := rfl

theorem wp_setLocals (f : σ → σ) (Q : Unit → Machine σ → Prop) :
    wp (setLocals f : Op σ ε Unit) Q E ⟨p, t, st, l⟩ = Q () ⟨p, t, st, f l⟩ := rfl

theorem wp_getLocals (Q : σ → Machine σ → Prop) :
    wp (getLocals : Op σ ε σ) Q E ⟨p, t, st, l⟩ = Q l ⟨p, t, st, l⟩ := rfl

theorem wp_get_ret (Q : IppStatus → Machine σ → Prop) :
    wp (get_ret : Op σ ε IppStatus) Q E ⟨p, t, st, l⟩ = Q st ⟨p, t, st, l⟩ := rfl

theorem wp_set_ret (x : IppStatus) (Q : Unit → Machine σ → Prop) :
    wp (set_ret x : Op σ ε Unit) Q E ⟨p, t, st, l⟩ = Q () ⟨p, t, x, l⟩ := rfl

theorem wp_ipp (env : Env) (fn : IppFn) (args : List Val) (Q : Resp → Machine σ → Prop) :
    wp (ipp env fn args : Op σ ε Resp) Q E ⟨p, t, st, l⟩ =
      Q (env p) ⟨p + 1, t ++ [Event.call fn args (env p)], st, l⟩ := rfl

theorem wp_ipp_assign (env : Env) (fn : IppFn) (args : List Val) (Q : Resp → Machine σ → Prop) :
    wp (ipp_assign env fn args : Op σ ε Resp) Q E ⟨p, t, st, l⟩ =
      Q (env p) ⟨p + 1, t ++ [Event.call fn args (env p)], (env p).status, l⟩ := rfl

theorem wp_malloc (env : Env) (b : Buf) (sz : Int) (Q : Option Buf → Machine σ → Prop) :
    wp (malloc env b sz : Op σ ε (Option Buf)) Q E ⟨p, t, st, l⟩ =
      (((env p).ok = true → Q (some b) ⟨p + 1, t ++ [Event.malloc b sz true], st, l⟩) ∧
       ((env p).ok = false → Q none ⟨p + 1, t ++ [Event.malloc b sz false], st, l⟩)) := by
  unfold wp malloc
  cases h : (env p).ok <;> simp

theorem wp_do_while_0 {ε' : Type} (E' : ε' → Machine σ → Prop) (block : Op σ Unit Unit)
    (Q : Unit → Machine σ → Prop) :
    wp (do_while_0 block : Op σ ε' Unit) Q E' s = wp block Q (fun _ s1 => Q () s1) s := by
  unfold wp do_while_0
  rcases block s with ⟨r, s1⟩
  cases r <;> rfl

end wp_rules


theorem run_wp {σ α : Type} (P : Ret α → Prop) (ret0 : IppStatus) (init : σ) (out : σ → α)
    (body : Op σ sample_status_t sample_status_t) :
    P (run ret0 init out body) ↔
      wp body (fun v s => P (ret_of out v s)) (fun v s => P (ret_of out v s))
        (entry ret0 init) := by
  unfold run wp
  rcases body (entry ret0 init) with ⟨r, s⟩
  cases r <;> exact Iff.rfl

/-- A function whose body starts with a parameter check that fails returns the
value of the check, with the caller's memory and no event. -/
theorem run_reject {σ α : Type} (ret0 : IppStatus) (init : σ) (out : σ → α) (c : Prop)
    [Decidable c] (v : sample_status_t) (rest : Op σ sample_status_t sample_status_t) (h : c) :
    run ret0 init out (if c then leave v else rest) = ⟨v, out init, []⟩ := by
  rw [if_pos h]
  rfl

theorem wp_ERROR_BREAK {σ : Type} (E : Unit → Machine σ → Prop) (Q : Unit → Machine σ → Prop)
    (p : Nat) (t : List Event) (st : IppStatus) (l : σ) :
    wp (ERROR_BREAK : Op σ Unit Unit) Q E ⟨p, t, st, l⟩ =
      ((st ≠ ippStsNoErr → E () ⟨p, t, st, l⟩) ∧
       (st = ippStsNoErr → Q () ⟨p, t, ippStsNoErr, l⟩)) := by
  unfold ERROR_BREAK
  rw [wp_bind, wp_get_ret, wp_ite, wp_leave, wp_pure]
  by_cases h : st = ippStsNoErr <;> simp [h]

theorem wp_break_with {σ α : Type} (E : Unit → Machine σ → Prop) (Q : α → Machine σ → Prop)
    (x : IppStatus) (p : Nat) (t : List Event) (st : IppStatus) (l : σ) :
    wp (break_with x : Op σ Unit α) Q E ⟨p, t, st, l⟩ = E () ⟨p, t, x, l⟩ := rfl

theorem wp_malloc_or {σ ε : Type} (E : ε → Machine σ → Prop) (env : Env) (b : Buf) (sz : Int)
    (on_null : Op σ ε (Option Buf)) (Q : Option Buf → Machine σ → Prop)
    (p : Nat) (t : List Event) (st : IppStatus) (l : σ) :
    wp (malloc_or env b sz on_null) Q E ⟨p, t, st, l⟩ =
      (((env p).ok = false → wp on_null Q E ⟨p + 1, t ++ [Event.malloc b sz false], st, l⟩) ∧
       ((env p).ok = true → Q (some b) ⟨p + 1, t ++ [Event.malloc b sz true], st, l⟩)) := by
  unfold malloc_or
  rw [wp_bind, wp_malloc]
  cases h : (env p).ok <;> simp [wp_ite, wp_pure]

theorem wp_newBN_or_break {σ : Type} (E : Unit → Machine σ → Prop) (L : IppLib) (env : Env)
    (p_data : Option (List Nat)) (size : Int) (var : Buf) (get : σ → Option BigNum)
    (set : Option BigNum → σ → σ)
    (hsize : ¬ (size ≤ 0 ∨ to_size_t size % 4 ≠ 0))
    (Q : Option BigNum → Machine σ → Prop) (p : Nat) (t : List Event) (st : IppStatus) (l : σ) :
    wp (newBN_or_break L env p_data size var get set) Q E ⟨p, t, st, l⟩ =
      (((env p).status ≠ ippStsNoErr →
          E () ⟨p + 1, t ++ [Event.call .ippsBigNumGetSize [.int (Int.tdiv size 4)] (env p)],
            (env p).status, set none l⟩) ∧
       ((env p).status = ippStsNoErr →
         (((env (p + 1)).ok = false →
            E () ⟨p + 2, t ++ [Event.call .ippsBigNumGetSize [.int (Int.tdiv size 4)] (env p),
              Event.malloc var (env p).size false], ippStsMemAllocErr, set none l⟩) ∧
          ((env (p + 1)).ok = true →
            (((env (p + 2)).status ≠ ippStsNoErr →
              E () ⟨p + 3, t ++ [Event.call .ippsBigNumGetSize [.int (Int.tdiv size 4)] (env p),
                Event.malloc var (env p).size true,
                Event.call .ippsBigNumInit [.int (Int.tdiv size 4)] (env (p + 2)),
                Event.free var], (env (p + 2)).status, set none l⟩) ∧
             ((env (p + 2)).status = ippStsNoErr →
               match p_data with
               | none =>
                 Q (some (L.ippsBigNumInit (Int.tdiv size 4)))
                   ⟨p + 3, t ++ [Event.call .ippsBigNumGetSize [.int (Int.tdiv size 4)] (env p),
                     Event.malloc var (env p).size true,
                     Event.call .ippsBigNumInit [.int (Int.tdiv size 4)] (env (p + 2))],
                     ippStsNoErr, set (some (L.ippsBigNumInit (Int.tdiv size 4))) l⟩
               | some data =>
                 (((env (p + 3)).status ≠ ippStsNoErr →
                   E () ⟨p + 4, t ++ [Event.call .ippsBigNumGetSize [.int (Int.tdiv size 4)] (env p),
                     Event.malloc var (env p).size true,
                     Event.call .ippsBigNumInit [.int (Int.tdiv size 4)] (env (p + 2)),
                     Event.call .ippsSet_BN [.int (Int.tdiv size 4), .bytes data] (env (p + 3)),
                     Event.free var], (env (p + 3)).status, set none l⟩) ∧
                  ((env (p + 3)).status = ippStsNoErr →
                   Q (some (L.ippsSet_BN (Int.tdiv size 4) data))
                     ⟨p + 4, t ++ [Event.call .ippsBigNumGetSize [.int (Int.tdiv size 4)] (env p),
                       Event.malloc var (env p).size true,
                       Event.call .ippsBigNumInit [.int (Int.tdiv size 4)] (env (p + 2)),
                       Event.call .ippsSet_BN [.int (Int.tdiv size 4), .bytes data] (env (p + 3))],
                       ippStsNoErr, set (some (L.ippsSet_BN (Int.tdiv size 4) data)) l⟩)))))))) := by
  unfold newBN_or_break sgx_ipp_newBN
  simp only [hsize, if_false, wp_bind, wp_ipp, wp_ite, wp_pure, wp_set_ret, wp_malloc, wp_emit,
    wp_getLocals, wp_setLocals, wp_ERROR_BREAK,
    sizeof_Ipp32u, List.append_assoc, List.singleton_append, List.cons_append, List.nil_append]
  cases p_data with
  | none =>
    by_cases h0 : (env p).status = ippStsNoErr <;> by_cases h1 : (env (p + 1)).ok = true <;>
      by_cases h2 : (env (p + 1 + 1)).status = ippStsNoErr <;>
      simp [h0, h1, h2, wp_pure, wp_set_ret, wp_setLocals, wp_ERROR_BREAK]
  | some data =>
    by_cases h0 : (env p).status = ippStsNoErr <;> by_cases h1 : (env (p + 1)).ok = true <;>
      by_cases h2 : (env (p + 1 + 1)).status = ippStsNoErr <;>
      by_cases h3 : (env (p + 1 + 1 + 1)).status = ippStsNoErr <;>
      simp [h0, h1, h2, h3, wp_bind, wp_ipp, wp_ite, wp_pure, wp_set_ret, wp_emit, wp_setLocals,
        wp_ERROR_BREAK]

theorem wp_ref_BN_copy {σ : Type} (E : Unit → Machine σ → Prop) (env : Env) (bn : BigNum)
    (dst : Out) (upd : (List Nat → List Nat) → σ → σ) (Q : Unit → Machine σ → Prop)
    (p : Nat) (t : List Event) (st : IppStatus) (l : σ) :
    wp (ref_BN_copy env bn dst upd) Q E ⟨p, t, st, l⟩ =
      (((env p).status ≠ ippStsNoErr →
          E () ⟨p + 1, t ++ [Event.call .ippsRef_BN [.bn bn] (env p)], (env p).status, l⟩) ∧
       ((env p).status = ippStsNoErr →
         ((32 < copy_len bn.length →
            E () ⟨p + 1, t ++ [Event.call .ippsRef_BN [.bn bn] (env p), Event.memset dst 0 32],
              ippStsSizeErr, upd (fun field => memset field 0 32) l⟩) ∧
          (¬ 32 < copy_len bn.length →
            Q () ⟨p + 1, t ++ [Event.call .ippsRef_BN [.bn bn] (env p), Event.memset dst 0 32,
                Event.memcpy dst (copy_len bn.length)], ippStsNoErr,
              upd (fun field => memcpy field bn.data (copy_len bn.length))
                (upd (fun field => memset field 0 32) l)⟩)))) := by
  unfold ref_BN_copy
  simp only [wp_bind, wp_ipp_assign, wp_ERROR_BREAK, wp_emit, wp_setLocals, wp_set_ret,
    check_copy_size, List.append_assoc, List.singleton_append, List.cons_append, List.nil_append]
  by_cases h0 : (env p).status = ippStsNoErr <;> by_cases h1 : 32 < copy_len bn.length <;>
    simp [h0, h1]

theorem size_32_ok : ¬ ((32 : Int) ≤ 0 ∨ to_size_t 32 % 4 ≠ 0) := by decide

theorem size_key_ok :
    ¬ (SAMPLE_ECP256_KEY_SIZE ≤ 0 ∨ to_size_t SAMPLE_ECP256_KEY_SIZE % 4 ≠ 0) := by
  decide

theorem size_order_ok : ¬ (order_size ≤ 0 ∨ to_size_t order_size % 4 ≠ 0) := by decide

theorem wp_elim {σ ε α : Type} (m : Op σ ε α) (P : Machine σ → Prop) (s : Machine σ)
    (h : wp m (fun _ s1 => Leaf (P s1)) (fun _ s1 => Leaf (P s1)) s) : P (m s).2 := by
  revert h
  unfold wp
  rcases m s with ⟨r, s1⟩
  cases r <;> exact fun h => h.out

/-! ## Statements that release memory -/

theorem OnlyCleans.emit {σ ε : Type} (e : Event) (h : e.isCleanup = true) :
    OnlyCleans (emit e : Op σ ε Unit) := by
  intro s
  exact ⟨s.pos, [e], rfl, by simpa using h⟩

theorem OnlyCleans.pure {σ ε : Type} : OnlyCleans (pure () : Op σ ε Unit) := by
  intro s
  exact ⟨s.pos, [], by simp [Pure.pure], by simp⟩

theorem OnlyCleans.seq {σ ε : Type} {m n : Op σ ε Unit} (hm : OnlyCleans m)
    (hn : OnlyCleans n) : OnlyCleans (m >>= fun _ => n) := by
  intro s
  obtain ⟨p1, evs1, h1, c1⟩ := hm s
  obtain ⟨p2, evs2, h2, c2⟩ := hn ⟨p1, s.trace ++ evs1, s.ipp_ret, s.locals⟩
  refine ⟨p2, evs1 ++ evs2, ?_, ?_⟩
  · show Op.bind m (fun _ => n) s = _
    unfold Op.bind
    rw [h1]
    simp only [h2, List.append_assoc]
  · intro e he
    rcases List.mem_append.mp he with h | h
    · exact c1 e h
    · exact c2 e h

theorem OnlyCleans.ite {σ ε : Type} (c : Prop) [Decidable c] {m n : Op σ ε Unit}
    (hm : OnlyCleans m) (hn : OnlyCleans n) : OnlyCleans (if c then m else n) := by
  by_cases h : c
  · rw [if_pos h]; exact hm
  · rw [if_neg h]; exact hn

theorem OnlyCleans.SAFE_FREE {σ ε : Type} (address : Option Buf) :
    OnlyCleans (SAFE_FREE address : Op σ ε Unit) := by
  cases address with
  | none => exact OnlyCleans.pure
  | some b => exact OnlyCleans.emit _ rfl

theorem OnlyCleans.CLEAR_FREE_MEM {σ ε : Type} (address : Option Buf) (size : Int) :
    OnlyCleans (CLEAR_FREE_MEM address size : Op σ ε Unit) := by
  cases address with
  | none => exact OnlyCleans.pure
  | some b =>
    exact OnlyCleans.seq (OnlyCleans.ite _ (OnlyCleans.emit _ rfl) OnlyCleans.pure)
      (OnlyCleans.emit _ rfl)

theorem OnlyCleans.sample_ipp_secure_free_BN {σ ε : Type} (env : Env) (var : Buf)
    (pBN : Option BigNum) (size_in_bytes : Int) :
    OnlyCleans (sample_ipp_secure_free_BN env var pBN size_in_bytes : Op σ ε Unit) := by
  unfold SampleLibcrypto.sample_ipp_secure_free_BN
  refine OnlyCleans.ite _ (OnlyCleans.ite _ (OnlyCleans.emit _ rfl) OnlyCleans.pure) ?_
  intro s
  by_cases h : (env s.pos).size ≤ 0
  · refine ⟨s.pos + 1, [Event.call .ippsBigNumGetSize
      [.int (Int.tdiv size_in_bytes sizeof_Ipp32u)] (env s.pos), Event.free var], ?_, ?_⟩
    · show Op.bind _ _ s = _
      simp [Op.bind, ipp, h, SampleLibcrypto.emit]
    · simp [Event.isCleanup]
  · refine ⟨s.pos + 1, [Event.call .ippsBigNumGetSize
      [.int (Int.tdiv size_in_bytes sizeof_Ipp32u)] (env s.pos),
      Event.memset_s var (to_size_t (env s.pos).size) 0 (to_size_t (env s.pos).size),
      Event.free var], ?_, ?_⟩
    · show Op.bind _ _ s = _
      simp only [Op.bind, ipp, h, if_false]
      show Op.bind _ _ _ = _
      simp [Op.bind, SampleLibcrypto.emit]
    · simp [Event.isCleanup]

/-- After statements that only release memory, the rest of the body runs from a
machine that differs by events of releasing memory. -/
theorem wp_onlyCleans {σ ε α : Type} {m : Op σ ε Unit} (hm : OnlyCleans m) (f : Unit → Op σ ε α)
    (Q : α → Machine σ → Prop) (E : ε → Machine σ → Prop) (s : Machine σ)
    (h : ∀ p evs, (∀ e ∈ evs, e.isCleanup = true) →
      wp (f ()) Q E ⟨p, s.trace ++ evs, s.ipp_ret, s.locals⟩) :
    wp (m >>= f) Q E s := by
  obtain ⟨p, evs, h1, c1⟩ := hm s
  rw [wp_bind]
  unfold wp at h ⊢
  rw [h1]
  exact h p evs c1

theorem do_while_0_apply {σ ε : Type} (block : Op σ Unit Unit) (s : Machine σ) :
    (do_while_0 block : Op σ ε Unit) s = (.ok (), (block s).2) := by
  unfold do_while_0
  rcases block s with ⟨r, s1⟩
  cases r <;> rfl


/-! ## C1, C2: parameter checks -/

/-- C2: whatever the other arguments are, `sample_rijndael128GCM_encrypt` with an
`iv_len` other than `SAMPLE_AESGCM_IV_SIZE` (12) returns
`SAMPLE_ERROR_INVALID_PARAMETER`, performs no event (no library call, no
allocation) and leaves `p_dst` and `p_out_mac` as they were. -/
theorem gcm_encrypt_rejects_iv_len (L : IppLib) (env : Env)
    (p_key p_src p_dst p_iv p_aad p_out_mac : Option (List Nat)) (src_len iv_len aad_len : Nat)
    (h : iv_len ≠ SAMPLE_AESGCM_IV_SIZE) :
    SAMPLE_AESGCM_IV_SIZE = 12 ∧
    sample_rijndael128GCM_encrypt L env p_key p_src src_len p_dst p_iv iv_len p_aad aad_len
        p_out_mac
      = ⟨SAMPLE_ERROR_INVALID_PARAMETER, ⟨p_dst, p_out_mac⟩, []⟩ := by
  refine ⟨rfl, ?_⟩
  unfold sample_rijndael128GCM_encrypt
  exact run_reject _ _ _ _ _ _ (by simp [h])

/-- Witness of C2 at `iv_len = 16`. -/
theorem gcm_encrypt_rejects_iv_len_witness :
    (16 : Nat) ≠ SAMPLE_AESGCM_IV_SIZE ∧
    sample_rijndael128GCM_encrypt sampleLib env_ok (some sample_key) (some [1, 2]) 2
        (some [0, 0]) (some (List.replicate 16 7)) 16 (some [5]) 1 (some (List.replicate 16 0))
      = ⟨SAMPLE_ERROR_INVALID_PARAMETER, ⟨some [0, 0], some (List.replicate 16 0)⟩, []⟩ :=
  ⟨by decide, (gcm_encrypt_rejects_iv_len sampleLib env_ok (some sample_key) (some [1, 2])
    (some [0, 0]) (some (List.replicate 16 7)) (some [5]) (some (List.replicate 16 0)) 2 16 1
    (by decide)).2⟩

/-- C1: each of the twelve operations, called with a required pointer or handle
argument null, returns `SAMPLE_ERROR_INVALID_PARAMETER`, performs no event (no
library call, no allocation) and hands the caller's memory back as it was.  For
AES-GCM, `p_src` and `p_dst` are required when `src_len > 0` and `p_aad` when
`aad_len > 0`. -/
theorem null_argument_rejected :
    (∀ (host : ByteOrder) (n : Nat),
      sample_read_rand host none n = (SAMPLE_ERROR_INVALID_PARAMETER, none)) ∧
    (∀ (L : IppLib) (env : Env) (p_key p_src p_dst p_iv p_aad p_out_mac : Option (List Nat))
        (src_len iv_len aad_len : Nat),
      p_key = none ∨ p_out_mac = none ∨ p_iv = none ∨
        (src_len > 0 ∧ (p_src = none ∨ p_dst = none)) ∨ (aad_len > 0 ∧ p_aad = none) →
      sample_rijndael128GCM_encrypt L env p_key p_src src_len p_dst p_iv iv_len p_aad aad_len
          p_out_mac
        = ⟨SAMPLE_ERROR_INVALID_PARAMETER, ⟨p_dst, p_out_mac⟩, []⟩) ∧
    (∀ (L : IppLib) (env : Env) (p_key p_src p_mac : Option (List Nat)) (src_len : Nat),
      p_key = none ∨ p_src = none ∨ p_mac = none →
      sample_rijndael128_cmac_msg L env p_key p_src src_len p_mac
        = ⟨SAMPLE_ERROR_INVALID_PARAMETER, p_mac, []⟩) ∧
    (∀ (env : Env),
      sample_ecc256_open_context env none = ⟨SAMPLE_ERROR_INVALID_PARAMETER, none, []⟩) ∧
    (∀ (env : Env),
      sample_ecc256_close_context env none = ⟨SAMPLE_ERROR_INVALID_PARAMETER, (), []⟩) ∧
    (∀ (L : IppLib) (host : ByteOrder) (env : Env) (p_private : Option (List Nat))
        (p_public : Option sample_ec256_public_t) (ecc_handle : Option ipp_ec_state_handles_t),
      ecc_handle = none ∨ p_private = none ∨ p_public = none →
      sample_ecc256_create_key_pair L host env p_private p_public ecc_handle
        = ⟨SAMPLE_ERROR_INVALID_PARAMETER, ⟨p_private, p_public⟩, []⟩) ∧
    (∀ (L : IppLib) (env : Env) (p_private_b : Option (List Nat))
        (p_public_ga : Option sample_ec256_public_t) (p_shared_key : Option (List Nat))
        (ecc_handle : Option ipp_ec_state_handles_t),
      ecc_handle = none ∨ p_private_b = none ∨ p_public_ga = none ∨ p_shared_key = none →
      sample_ecc256_compute_shared_dhkey L env p_private_b p_public_ga p_shared_key ecc_handle
        = ⟨SAMPLE_ERROR_INVALID_PARAMETER, p_shared_key, []⟩) ∧
    (∀ (L : IppLib) (host : ByteOrder) (env : Env) (fuel : Nat) (p_data : Option (List Nat))
        (data_size : Nat) (p_private : Option (List Nat))
        (p_signature : Option sample_ec256_signature_t)
        (ecc_handle : Option ipp_ec_state_handles_t),
      ecc_handle = none ∨ p_private = none ∨ p_signature = none ∨ p_data = none →
      sample_ecdsa_sign L host env fuel p_data data_size p_private p_signature ecc_handle
        = some ⟨SAMPLE_ERROR_INVALID_PARAMETER, p_signature, []⟩) ∧
    (∀ (L : IppLib) (env : Env),
      sample_sha256_init L env none = ⟨SAMPLE_ERROR_INVALID_PARAMETER, none, []⟩) ∧
    (∀ (L : IppLib) (env : Env) (p_src : Option (List Nat)) (src_len : Nat)
        (sha_handle : Option sha_state),
      p_src = none ∨ sha_handle = none →
      sample_sha256_update L env p_src src_len sha_handle
        = ⟨SAMPLE_ERROR_INVALID_PARAMETER, sha_handle, []⟩) ∧
    (∀ (L : IppLib) (env : Env) (sha_handle : Option sha_state) (p_hash : Option (List Nat)),
      sha_handle = none ∨ p_hash = none →
      sample_sha256_get_hash L env sha_handle p_hash
        = ⟨SAMPLE_ERROR_INVALID_PARAMETER, p_hash, []⟩) ∧
    sample_sha256_close none = ⟨SAMPLE_ERROR_INVALID_PARAMETER, (), []⟩ := by
  refine ⟨fun _ _ => rfl, ?_, ?_, fun _ => rfl, fun _ => rfl, ?_, ?_, ?_, fun _ _ => rfl, ?_, ?_,
    rfl⟩
  · intro L env p_key p_src p_dst p_iv p_aad p_out_mac src_len iv_len aad_len h
    unfold sample_rijndael128GCM_encrypt
    refine run_reject _ _ _ _ _ _ ?_
    rcases h with h | h | h | ⟨h1, h | h⟩ | ⟨h1, h⟩ <;> simp [h, *]
  · intro L env p_key p_src p_mac src_len h
    unfold sample_rijndael128_cmac_msg
    exact run_reject _ _ _ _ _ _ h
  · intro L host env p_private p_public ecc_handle h
    unfold sample_ecc256_create_key_pair
    exact run_reject _ _ _ _ _ _ h
  · intro L env p_private_b p_public_ga p_shared_key ecc_handle h
    unfold sample_ecc256_compute_shared_dhkey
    exact run_reject _ _ _ _ _ _ h
  · intro L host env fuel p_data data_size p_private p_signature ecc_handle h
    unfold sample_ecdsa_sign
    rw [if_pos]
    rcases h with h | h | h | h <;> simp [h]
  · intro L env p_src src_len sha_handle h
    unfold sample_sha256_update
    exact run_reject _ _ _ _ _ _ h
  · intro L env sha_handle p_hash h
    unfold sample_sha256_get_hash
    exact run_reject _ _ _ _ _ _ h

/-- Witness of C1: one call of each operation that takes a hypothesis, with a
null argument. -/
theorem null_argument_rejected_witness :
    sample_rijndael128GCM_encrypt sampleLib env_ok (some sample_key) none 2 (some [0, 0])
        (some (List.replicate 12 7)) 12 none 0 (some (List.replicate 16 0))
      = ⟨SAMPLE_ERROR_INVALID_PARAMETER, ⟨some [0, 0], some (List.replicate 16 0)⟩, []⟩ ∧
    sample_rijndael128_cmac_msg sampleLib env_ok none (some [1]) 1 (some (List.replicate 16 0))
      = ⟨SAMPLE_ERROR_INVALID_PARAMETER, some (List.replicate 16 0), []⟩ ∧
    sample_ecc256_create_key_pair sampleLib .little env_ok (some (sample_field 1)) none
        (some sample_handle)
      = ⟨SAMPLE_ERROR_INVALID_PARAMETER, ⟨some (sample_field 1), none⟩, []⟩ ∧
    sample_ecc256_compute_shared_dhkey sampleLib env_ok (some (sample_field 1))
        (some ⟨sample_field 2, sample_field 3⟩) (some (sample_field 4)) none
      = ⟨SAMPLE_ERROR_INVALID_PARAMETER, some (sample_field 4), []⟩ ∧
    sample_ecdsa_sign sampleLib .little env_ok 1 none 3 (some (sample_field 1))
        (some ⟨sample_field 0, sample_field 0⟩) (some sample_handle)
      = some ⟨SAMPLE_ERROR_INVALID_PARAMETER, some ⟨sample_field 0, sample_field 0⟩, []⟩ ∧
    sample_sha256_update sampleLib env_ok none 0 (some ⟨.caller 0, []⟩)
      = ⟨SAMPLE_ERROR_INVALID_PARAMETER, some ⟨.caller 0, []⟩, []⟩ ∧
    sample_sha256_get_hash sampleLib env_ok (some ⟨.caller 0, []⟩) none
      = ⟨SAMPLE_ERROR_INVALID_PARAMETER, none, []⟩ :=
  ⟨null_argument_rejected.2.1 _ _ _ _ _ _ _ _ _ _ _
      (Or.inr (Or.inr (Or.inr (Or.inl ⟨by decide, Or.inl rfl⟩)))),
    null_argument_rejected.2.2.1 _ _ _ _ _ _ (Or.inl rfl),
    null_argument_rejected.2.2.2.2.2.1 _ _ _ _ _ _ (Or.inr (Or.inr rfl)),
    null_argument_rejected.2.2.2.2.2.2.1 _ _ _ _ _ _ (Or.inl rfl),
    null_argument_rejected.2.2.2.2.2.2.2.1 _ _ _ _ _ _ _ _ _ (Or.inr (Or.inr (Or.inr rfl))),
    null_argument_rejected.2.2.2.2.2.2.2.2.2.1 _ _ _ _ _ (Or.inl rfl),
    null_argument_rejected.2.2.2.2.2.2.2.2.2.2.1 _ _ _ _ (Or.inr rfl)⟩

/-! ## C3: the deterministic random source -/

/-- The loop of `sample_read_rand` succeeds and fills the `n` bytes from `off` on
with the bytes of `seed`, repeated, leaving the rest of the memory alone. -/
theorem sample_read_rand_loop_spec (host : ByteOrder) :
    ∀ (n : Nat) (mem : Nat → Nat) (off : Nat),
      (sample_read_rand_loop host mem off n).1 = SAMPLE_SUCCESS ∧
      ∀ i, (sample_read_rand_loop host mem off n).2 i =
        if off ≤ i ∧ i < off + n then (bytes_of_uint32 host seed).getD ((i - off) % 4) 0
        else mem i := by
  intro n
  induction n using Nat.strong_induction_on with
  | _ n ih =>
    intro mem off
    rw [sample_read_rand_loop]
    by_cases hn : n > 0
    · simp only [hn, dite_true, __do_get_rand32, ne_eq, not_true_eq_false, if_false]
      have hsz : (if n < 4 then n else 4) ≤ n ∧ 0 < (if n < 4 then n else 4) ∧
          ((if n < 4 then n else 4) = 4 ∨ (if n < 4 then n else 4) = n ∧ n < 4) := by
        split <;> omega
      generalize (if n < 4 then n else 4) = size at hsz ⊢
      obtain ⟨h1, h2, h4⟩ := hsz
      have hm : memcpy_s mem off size (bytes_of_uint32 host seed) size =
          (0, fun i => if off ≤ i ∧ i < off + size
            then (bytes_of_uint32 host seed).getD (i - off) 0 else mem i) := by
        simp [memcpy_s]
      rw [hm]
      simp only [not_true_eq_false, if_false]
      obtain ⟨ihs, ihm⟩ := ih (n - size) (by omega)
        (fun i => if off ≤ i ∧ i < off + size
          then (bytes_of_uint32 host seed).getD (i - off) 0 else mem i)
        (off + size)
      refine ⟨ihs, fun i => ?_⟩
      rw [ihm i]
      by_cases c1 : off + size ≤ i ∧ i < off + size + (n - size)
      · have c2 : off ≤ i ∧ i < off + n := by omega
        rw [if_pos c1, if_pos c2]
        rcases h4 with h4 | h4
        · have h5 : (i - (off + size)) % 4 = (i - off) % 4 := by omega
          rw [h5]
        · omega
      · rw [if_neg c1]
        by_cases c3 : off ≤ i ∧ i < off + size
        · have c2 : off ≤ i ∧ i < off + n := by omega
          rw [if_pos c3, if_pos c2]
          have h5 : (i - off) % 4 = i - off := by omega
          rw [h5]
        · have c2 : ¬ (off ≤ i ∧ i < off + n) := by omega
          rw [if_neg c3, if_neg c2]
    · have h0 : n = 0 := by omega
      subst h0
      refine ⟨by simp, fun i => ?_⟩
      have c2 : ¬ (off ≤ i ∧ i < off + 0) := by omega
      simp only [gt_iff_lt, Nat.lt_irrefl, dite_false]
      rw [if_neg c2]

/-- C3: for a non-null buffer and a length `n > 0`, `sample_read_rand` returns
`SAMPLE_SUCCESS` and writes exactly `n` bytes: byte `i` is byte `i mod 4` of the
32-bit constant `seed = 9` in the byte order of the host (on a little-endian
host 9 when `i mod 4 = 0` and 0 otherwise), the bytes from index `n` on are
unchanged, and any other call with the same length writes the same `n` bytes. -/
theorem read_rand_constant_output (host : ByteOrder) (mem : Nat → Nat) (n : Nat) (hn : 0 < n) :
    seed = 9 ∧
    ∃ out, sample_read_rand host (some mem) n = (SAMPLE_SUCCESS, some out) ∧
      (∀ i, i < n → out i = (bytes_of_uint32 host seed).getD (i % 4) 0) ∧
      (host = ByteOrder.little → ∀ i, i < n → out i = if i % 4 = 0 then 9 else 0) ∧
      (∀ i, n ≤ i → out i = mem i) ∧
      (∀ mem2 out2, sample_read_rand host (some mem2) n = (SAMPLE_SUCCESS, some out2) →
        ∀ i, i < n → out2 i = out i) := by
  have hn0 : n ≠ 0 := by omega
  have key : ∀ m : Nat → Nat, sample_read_rand host (some m) n =
      (SAMPLE_SUCCESS, some (sample_read_rand_loop host m 0 n).2) := by
    intro m
    simp only [sample_read_rand, hn0, if_false]
    rw [(sample_read_rand_loop_spec host n m 0).1]
  have bytes : ∀ (m : Nat → Nat) (i : Nat), i < n →
      (sample_read_rand_loop host m 0 n).2 i = (bytes_of_uint32 host seed).getD (i % 4) 0 := by
    intro m i hi
    rw [(sample_read_rand_loop_spec host n m 0).2 i, if_pos (by omega)]
    rfl
  refine ⟨rfl, _, key mem, bytes mem, ?_, ?_, ?_⟩
  · intro hl i hi
    rw [bytes mem i hi, hl]
    have h4 : i % 4 < 4 := Nat.mod_lt _ (by decide)
    generalize i % 4 = j at h4 ⊢
    match j, h4 with
    | 0, _ => rfl
    | 1, _ => rfl
    | 2, _ => rfl
    | 3, _ => rfl
  · intro i hi
    rw [(sample_read_rand_loop_spec host n mem 0).2 i, if_neg (by omega)]
  · intro mem2 out2 h2 i hi
    rw [key mem2] at h2
    have h3 : (sample_read_rand_loop host mem2 0 n).2 = out2 := by
      injection h2 with _ h2
      injection h2
    rw [← h3, bytes mem2 i hi, bytes mem i hi]

/-- Witness of C3: five bytes asked for, in a memory holding `0xAA` everywhere. -/
theorem read_rand_constant_output_witness :
    0 < 5 ∧ seed = 9 ∧
    ∃ out, sample_read_rand ByteOrder.little (some fun _ => 0xAA) 5 = (SAMPLE_SUCCESS, some out) ∧
      (∀ i, i < 5 → out i = (bytes_of_uint32 ByteOrder.little seed).getD (i % 4) 0) ∧
      (ByteOrder.little = ByteOrder.little → ∀ i, i < 5 → out i = if i % 4 = 0 then 9 else 0) ∧
      (∀ i, 5 ≤ i → out i = 0xAA) ∧
      (∀ mem2 out2, sample_read_rand ByteOrder.little (some mem2) 5 = (SAMPLE_SUCCESS, some out2) →
        ∀ i, i < 5 → out2 i = out i) :=
  ⟨by decide, read_rand_constant_output ByteOrder.little (fun _ => 0xAA) 5 (by decide)⟩

/-! ## Key-pair generation -/

theorem keypair_reject (L : IppLib) (host : ByteOrder) (env : Env)
    (p_private : Option (List Nat)) (p_public : Option sample_ec256_public_t)
    (ecc_handle : Option ipp_ec_state_handles_t)
    (h : ecc_handle = none ∨ p_private = none ∨ p_public = none) :
    sample_ecc256_create_key_pair L host env p_private p_public ecc_handle
      = ⟨SAMPLE_ERROR_INVALID_PARAMETER, ⟨p_private, p_public⟩, []⟩ := by
  unfold sample_ecc256_create_key_pair
  exact run_reject _ _ _ _ _ _ h

/-- The key-pair function is its block followed by statements that release
memory, and the `switch` on the status variable. -/
theorem keypair_decomp (L : IppLib) (host : ByteOrder) (env : Env)
    (p_private : Option (List Nat)) (p_public : Option sample_ec256_public_t)
    (ecc_handle : Option ipp_ec_state_handles_t)
    (hnn : ¬ (ecc_handle = none ∨ p_private = none ∨ p_public = none)) :
    ∃ evs : List Event, (∀ e ∈ evs, e.isCleanup = true) ∧
      sample_ecc256_create_key_pair L host env p_private p_public ecc_handle =
        ⟨switch_ecc (keypair_block_run L host env p_private p_public).ipp_ret,
          ⟨(keypair_block_run L host env p_private p_public).locals.p_private,
            (keypair_block_run L host env p_private p_public).locals.p_public⟩,
          (keypair_block_run L host env p_private p_public).trace ++ evs⟩ := by
  unfold sample_ecc256_create_key_pair
  rw [if_neg hnn]
  generalize hs : keypair_block_run L host env p_private p_public = s
  refine (run_wp (fun R : Ret keypair_out => ∃ evs : List Event,
      (∀ e ∈ evs, e.isCleanup = true) ∧
    R = ⟨switch_ecc s.ipp_ret, ⟨s.locals.p_private, s.locals.p_public⟩, s.trace ++ evs⟩)
    _ _ _ _).mpr ?_
  rw [wp_bind]
  unfold wp
  rw [do_while_0_apply]
  show wp _ _ _ (keypair_block_run L host env p_private p_public)
  rw [hs]
  rcases s with ⟨p, t, st, l⟩
  rw [wp_bind, wp_getLocals]
  refine wp_onlyCleans (OnlyCleans.CLEAR_FREE_MEM _ _) _ _ _ _ fun p1 e1 h1 => ?_
  refine wp_onlyCleans (OnlyCleans.SAFE_FREE _) _ _ _ _ fun p2 e2 h2 => ?_
  refine wp_onlyCleans (OnlyCleans.sample_ipp_secure_free_BN _ _ _ _) _ _ _ _ fun p3 e3 h3 => ?_
  refine wp_onlyCleans (OnlyCleans.sample_ipp_secure_free_BN _ _ _ _) _ _ _ _ fun p4 e4 h4 => ?_
  refine wp_onlyCleans (OnlyCleans.sample_ipp_secure_free_BN _ _ _ _) _ _ _ _ fun p5 e5 h5 => ?_
  rw [wp_bind, wp_get_ret, wp_pure]
  refine ⟨e1 ++ (e2 ++ (e3 ++ (e4 ++ e5))), ?_, ?_⟩
  · intro e he
    simp only [List.mem_append] at he
    rcases he with h | h | h | h | h
    exacts [h1 e h, h2 e h, h3 e h, h4 e h, h5 e h]
  · simp [ret_of, List.append_assoc]

/-- The block of the key-pair function establishes `keypair_post`. -/
theorem keypair_block_summary (L : IppLib) (host : ByteOrder) (env : Env)
    (p_private : Option (List Nat)) (p_public : Option sample_ec256_public_t) :
    keypair_post L host p_private p_public
      (keypair_block_run L host env p_private p_public) := by
  unfold keypair_block_run
  apply wp_elim _ (keypair_post L host p_private p_public)
  simp only [sample_ecc256_create_key_pair_block, keypair_init, entry, wp_bind, wp_pure,
    wp_leave, wp_ite, wp_setLocals, wp_getLocals, wp_ipp_assign, wp_malloc_or, wp_ERROR_BREAK,
    wp_break_with, wp_newBN_or_break _ _ _ _ _ _ _ _ size_key_ok, wp_ref_BN_copy]
  repeat' (first | apply And.intro | intro _)
  all_goals constructor
  all_goals first
    | (simp only [keypair_post, Sound, List.nil_append, List.append_assoc, List.cons_append,
        List.forall_mem_cons, List.not_mem_nil, false_imp_iff, implies_true, and_true,
        Event.explainedBy, Event.tstKeyPairOk, reduceCtorEq, true_or, or_true, true_and, *]; done)
    | skip
  have hv : (env (0 + 3 + 1 + 1 + 1 + 1 + 1 + 1 + 1)).verdict = ippECValid := by
    simpa using ‹¬ (env (0 + 3 + 1 + 1 + 1 + 1 + 1 + 1 + 1)).verdict ≠ ippECValid›
  simp only [keypair_post, Sound, List.nil_append, List.append_assoc, List.cons_append,
    List.forall_mem_cons, List.not_mem_nil, false_imp_iff, implies_true, and_true,
    Event.explainedBy, Event.tstKeyPairOk, reduceCtorEq, true_or, or_true, true_and,
    List.any_cons, Event.isCallOf, decide_True, decide_False, Bool.or_true, Bool.true_or,
    Bool.false_or, Option.map_map, hv, *]
  exact fun _ => ⟨rfl, rfl⟩

theorem switch_ecc_success (st : IppStatus) : switch_ecc st = SAMPLE_SUCCESS ↔ st = ippStsNoErr := by
  cases st <;> simp [switch_ecc]

theorem not_cleanup_of_call {fn : IppFn} {args : List Val} {r : Resp}
    (h : fn ≠ .ippsBigNumGetSize) : (Event.call fn args r).isCleanup = false := by
  cases fn <;> first | rfl | exact absurd rfl h

/-- C4: whenever `sample_ecc256_create_key_pair` returns `SAMPLE_SUCCESS`, the
key-pair test `ippsGFpECTstKeyPair` was called, every call of it was on the
private key `d` and the public point `Q` whose bytes are written to `p_private`
and `p_public`, it reported `ippStsNoErr`, and its verdict was `ippECValid`; and
a run in which the test gave any other verdict does not return
`SAMPLE_SUCCESS`. -/
theorem create_key_pair_success_tested (L : IppLib) (host : ByteOrder) (env : Env)
    (p_private : Option (List Nat)) (p_public : Option sample_ec256_public_t)
    (ecc_handle : Option ipp_ec_state_handles_t) :
    ((sample_ecc256_create_key_pair L host env p_private p_public ecc_handle).status
        = SAMPLE_SUCCESS →
      (∃ r, Event.call .ippsGFpECTstKeyPair
            [.bn (L.ippsGFpECPrivateKey (sample_ipp_DRNGen host)),
              .pt (L.ippsGFpECPublicKey (L.ippsGFpECPrivateKey (sample_ipp_DRNGen host)))] r
          ∈ (sample_ecc256_create_key_pair L host env p_private p_public ecc_handle).trace) ∧
      (∀ args r, Event.call .ippsGFpECTstKeyPair args r
          ∈ (sample_ecc256_create_key_pair L host env p_private p_public ecc_handle).trace →
        args = [.bn (L.ippsGFpECPrivateKey (sample_ipp_DRNGen host)),
              .pt (L.ippsGFpECPublicKey (L.ippsGFpECPrivateKey (sample_ipp_DRNGen host)))] ∧
        r.status = ippStsNoErr ∧ r.verdict = ippECValid) ∧
      (sample_ecc256_create_key_pair L host env p_private p_public ecc_handle).out.p_private =
        p_private.map (fun r =>
          memcpy (memset r 0 32) (L.ippsGFpECPrivateKey (sample_ipp_DRNGen host)).data
            (copy_len (L.ippsGFpECPrivateKey (sample_ipp_DRNGen host)).length)) ∧
      (sample_ecc256_create_key_pair L host env p_private p_public ecc_handle).out.p_public =
        p_public.map (fun p =>
          ⟨memcpy (memset p.gx 0 32)
              (L.ippsGFpECGetPointRegular (L.ippsGFpECPublicKey
                (L.ippsGFpECPrivateKey (sample_ipp_DRNGen host)))).1.data
              (copy_len (L.ippsGFpECGetPointRegular (L.ippsGFpECPublicKey
                (L.ippsGFpECPrivateKey (sample_ipp_DRNGen host)))).1.length),
            memcpy (memset p.gy 0 32)
              (L.ippsGFpECGetPointRegular (L.ippsGFpECPublicKey
                (L.ippsGFpECPrivateKey (sample_ipp_DRNGen host)))).2.data
              (copy_len (L.ippsGFpECGetPointRegular (L.ippsGFpECPublicKey
                (L.ippsGFpECPrivateKey (sample_ipp_DRNGen host)))).2.length)⟩)) ∧
    (∀ args r, Event.call .ippsGFpECTstKeyPair args r
        ∈ (sample_ecc256_create_key_pair L host env p_private p_public ecc_handle).trace →
      r.verdict ≠ ippECValid →
      (sample_ecc256_create_key_pair L host env p_private p_public ecc_handle).status
        ≠ SAMPLE_SUCCESS) := by
  by_cases hnn : ecc_handle = none ∨ p_private = none ∨ p_public = none
  · rw [keypair_reject L host env p_private p_public ecc_handle hnn]
    simp
  · obtain ⟨evs, hevs, hR⟩ := keypair_decomp L host env p_private p_public ecc_handle hnn
    obtain ⟨_, htst, hok⟩ := keypair_block_summary L host env p_private p_public
    rw [hR]
    generalize keypair_block_run L host env p_private p_public = s at htst hok
    have key : ∀ args r, Event.call .ippsGFpECTstKeyPair args r ∈ s.trace ++ evs →
        args = [.bn (L.ippsGFpECPrivateKey (sample_ipp_DRNGen host)),
              .pt (L.ippsGFpECPublicKey (L.ippsGFpECPrivateKey (sample_ipp_DRNGen host)))] ∧
        (s.ipp_ret = ippStsNoErr → r.status = ippStsNoErr ∧ r.verdict = ippECValid) := by
      intro args r hmem
      rcases List.mem_append.mp hmem with h | h
      · exact htst _ h rfl
      · have h1 := hevs _ h
        rw [not_cleanup_of_call (by decide)] at h1
        exact absurd h1 (by decide)
    refine ⟨fun hs => ?_, fun args r hmem hv hs => ?_⟩
    · have hst : s.ipp_ret = ippStsNoErr := (switch_ecc_success _).mp hs
      obtain ⟨hany, hpriv, hpub⟩ := hok hst
      refine ⟨?_, fun args r hmem => ⟨(key args r hmem).1, (key args r hmem).2 hst⟩, hpriv, hpub⟩
      obtain ⟨e, he, hc⟩ := List.any_eq_true.mp hany
      cases e with
      | call fn args r =>
        have hfn : fn = .ippsGFpECTstKeyPair := by simpa [Event.isCallOf] using hc
        subst hfn
        have ha := (htst _ he rfl).1
        subst ha
        exact ⟨r, List.mem_append_left _ he⟩
      | _ => simp [Event.isCallOf] at hc
    · have hst : s.ipp_ret = ippStsNoErr := (switch_ecc_success _).mp hs
      exact hv ((key args r hmem).2 hst).2

/-- Witness of C4: a run in which every call and allocation succeeds. -/
theorem create_key_pair_success_tested_witness :
    (sample_ecc256_create_key_pair sampleLib .little env_ok (some (sample_field 1))
        (some ⟨sample_field 2, sample_field 3⟩) (some sample_handle)).status = SAMPLE_SUCCESS ∧
    ∃ r, Event.call .ippsGFpECTstKeyPair
          [.bn (sampleLib.ippsGFpECPrivateKey (sample_ipp_DRNGen .little)),
            .pt (sampleLib.ippsGFpECPublicKey
              (sampleLib.ippsGFpECPrivateKey (sample_ipp_DRNGen .little)))] r
        ∈ (sample_ecc256_create_key_pair sampleLib .little env_ok (some (sample_field 1))
            (some ⟨sample_field 2, sample_field 3⟩) (some sample_handle)).trace :=
  ⟨by decide, ((create_key_pair_success_tested sampleLib .little env_ok (some (sample_field 1))
    (some ⟨sample_field 2, sample_field 3⟩) (some sample_handle)).1 (by decide)).1⟩

/-! ## ECDH shared key -/

theorem dhkey_reject (L : IppLib) (env : Env) (p_private_b : Option (List Nat))
    (p_public_ga : Option sample_ec256_public_t) (p_shared_key : Option (List Nat))
    (ecc_handle : Option ipp_ec_state_handles_t)
    (h : ecc_handle = none ∨ p_private_b = none ∨ p_public_ga = none ∨ p_shared_key = none) :
    sample_ecc256_compute_shared_dhkey L env p_private_b p_public_ga p_shared_key ecc_handle
      = ⟨SAMPLE_ERROR_INVALID_PARAMETER, p_shared_key, []⟩ := by
  unfold sample_ecc256_compute_shared_dhkey
  exact run_reject _ _ _ _ _ _ h

/-- The shared-key function is its block followed by statements that release
memory, the test of `ipp_result`, and the `switch` on the status variable. -/
theorem dhkey_decomp (L : IppLib) (env : Env) (p_private_b : Option (List Nat))
    (p_public_ga : Option sample_ec256_public_t) (p_shared_key : Option (List Nat))
    (ecc_handle : Option ipp_ec_state_handles_t)
    (hnn : ¬ (ecc_handle = none ∨ p_private_b = none ∨ p_public_ga = none
      ∨ p_shared_key = none)) :
    ∃ evs : List Event, (∀ e ∈ evs, e.isCleanup = true) ∧
      sample_ecc256_compute_shared_dhkey L env p_private_b p_public_ga p_shared_key ecc_handle =
        ⟨if (dhkey_block_run L env p_private_b p_public_ga p_shared_key).locals.ipp_result
              ≠ ippECValid then SAMPLE_ERROR_INVALID_PARAMETER
          else switch_ecc (dhkey_block_run L env p_private_b p_public_ga p_shared_key).ipp_ret,
          (dhkey_block_run L env p_private_b p_public_ga p_shared_key).locals.p_shared_key,
          (dhkey_block_run L env p_private_b p_public_ga p_shared_key).trace ++ evs⟩ := by
  unfold sample_ecc256_compute_shared_dhkey
  rw [if_neg hnn]
  generalize hs : dhkey_block_run L env p_private_b p_public_ga p_shared_key = s
  refine (run_wp (fun R : Ret (Option (List Nat)) => ∃ evs : List Event,
      (∀ e ∈ evs, e.isCleanup = true) ∧
    R = ⟨if s.locals.ipp_result ≠ ippECValid then SAMPLE_ERROR_INVALID_PARAMETER
          else switch_ecc s.ipp_ret, s.locals.p_shared_key, s.trace ++ evs⟩)
    _ _ _ _).mpr ?_
  rw [wp_bind]
  unfold wp
  rw [do_while_0_apply]
  show wp _ _ _ (dhkey_block_run L env p_private_b p_public_ga p_shared_key)
  rw [hs]
  rcases s with ⟨p, t, st, l⟩
  rw [wp_bind, wp_getLocals]
  refine wp_onlyCleans (OnlyCleans.CLEAR_FREE_MEM _ _) _ _ _ _ fun p1 e1 h1 => ?_
  refine wp_onlyCleans (OnlyCleans.SAFE_FREE _) _ _ _ _ fun p2 e2 h2 => ?_
  refine wp_onlyCleans (OnlyCleans.sample_ipp_secure_free_BN _ _ _ _) _ _ _ _ fun p3 e3 h3 => ?_
  refine wp_onlyCleans (OnlyCleans.sample_ipp_secure_free_BN _ _ _ _) _ _ _ _ fun p4 e4 h4 => ?_
  refine wp_onlyCleans (OnlyCleans.sample_ipp_secure_free_BN _ _ _ _) _ _ _ _ fun p5 e5 h5 => ?_
  refine wp_onlyCleans (OnlyCleans.sample_ipp_secure_free_BN _ _ _ _) _ _ _ _ fun p6 e6 h6 => ?_
  rw [wp_bind, wp_get_ret, wp_ite, wp_leave, wp_pure]
  refine ⟨fun hv => ⟨e1 ++ (e2 ++ (e3 ++ (e4 ++ (e5 ++ e6)))), ?_, ?_⟩,
    fun hv => ⟨e1 ++ (e2 ++ (e3 ++ (e4 ++ (e5 ++ e6)))), ?_, ?_⟩⟩
  · intro e he
    simp only [List.mem_append] at he
    rcases he with h | h | h | h | h | h
    exacts [h1 e h, h2 e h, h3 e h, h4 e h, h5 e h, h6 e h]
  · simp only [ret_of, List.append_assoc]
    rw [if_pos hv]
  · intro e he
    simp only [List.mem_append] at he
    rcases he with h | h | h | h | h | h
    exacts [h1 e h, h2 e h, h3 e h, h4 e h, h5 e h, h6 e h]
  · simp only [ret_of, List.append_assoc]
    rw [if_neg hv]

set_option maxHeartbeats 3200000 in
/-- The block of the shared-key function establishes `dhkey_post`. -/
theorem dhkey_block_summary (L : IppLib) (env : Env) (p_private_b : Option (List Nat))
    (p_public_ga : Option sample_ec256_public_t) (p_shared_key : Option (List Nat)) :
    dhkey_post p_shared_key (dhkey_block_run L env p_private_b p_public_ga p_shared_key) := by
  unfold dhkey_block_run
  apply wp_elim _ (dhkey_post p_shared_key)
  simp only [sample_ecc256_compute_shared_dhkey_block, dhkey_init, entry, wp_bind, wp_pure,
    wp_leave, wp_ite, wp_setLocals, wp_getLocals, wp_ipp_assign, wp_malloc_or, wp_ERROR_BREAK,
    wp_break_with, wp_newBN_or_break _ _ _ _ _ _ _ _ size_32_ok, wp_ref_BN_copy]
  repeat' (first | apply And.intro | intro _)
  all_goals constructor
  all_goals first
    | (have hv : (env (0 + 4 + 4 + 4 + 1 + 1 + 1 + 1)).verdict = ippECValid :=
        not_not.mp ‹¬ (env (0 + 4 + 4 + 4 + 1 + 1 + 1 + 1)).verdict ≠ ippECValid›
       simp only [dhkey_post, Sound, List.nil_append, List.append_assoc, List.cons_append,
        List.forall_mem_cons, List.not_mem_nil, false_imp_iff, implies_true, and_true,
        Event.explainedBy, Event.tstPointGave, Event.upToPointTest, dhAfterPointTest,
        Event.isValidPointTest, Event.isCallOf, reduceCtorEq, true_or, or_true, true_and,
        ne_eq, not_true_eq_false, not_false_eq_true, decide_False, decide_True, false_and,
        and_false, false_or, or_false, and_self, hv, *])
    | (simp only [dhkey_post, Sound, List.nil_append, List.append_assoc, List.cons_append,
        List.forall_mem_cons, List.not_mem_nil, false_imp_iff, implies_true, and_true,
        Event.explainedBy, Event.tstPointGave, Event.upToPointTest, dhAfterPointTest,
        Event.isValidPointTest, Event.isCallOf, reduceCtorEq, true_or, or_true, true_and,
        ne_eq, not_true_eq_false, not_false_eq_true, decide_False, decide_True, false_and,
        and_false, false_or, or_false, and_self, *])

theorem isCallOf_of_isCleanup {e : Event} {fn : IppFn} (hfn : fn ≠ .ippsBigNumGetSize)
    (h : e.isCleanup = true) : e.isCallOf fn = false := by
  cases e with
  | call f args r =>
    cases f <;> first
      | exact absurd h Bool.false_ne_true
      | (simp only [Event.isCallOf, decide_eq_false_iff_not]; exact fun h1 => hfn h1.symm)
  | _ => rfl

theorem dhAfterPointTest_append {t evs : List Event} (h : dhAfterPointTest t)
    (hevs : ∀ e ∈ evs, e.isCallOf .ippsGFpECSharedSecretDH = false) :
    dhAfterPointTest (t ++ evs) := by
  induction t with
  | nil =>
    induction evs with
    | nil => trivial
    | cons e evs ih =>
      exact Or.inr ⟨hevs e (List.mem_cons_self _ _),
        ih fun e' he' => hevs e' (List.mem_cons_of_mem _ he')⟩
  | cons e t ih =>
    rcases h with h | ⟨h1, h2⟩
    · exact Or.inl h
    · exact Or.inr ⟨h1, ih h2⟩

theorem dhAfterPointTest_split {l : List Event} (h : dhAfterPointTest l) :
    ∀ (pre : List Event) (args : List Val) (r : Resp) (post : List Event),
      l = pre ++ Event.call .ippsGFpECSharedSecretDH args r :: post →
      ∃ e ∈ pre, e.isValidPointTest := by
  induction l with
  | nil =>
    intro pre args r post hl
    cases pre <;> simp at hl
  | cons e t ih =>
    intro pre args r post hl
    cases pre with
    | nil =>
      simp only [List.nil_append, List.cons.injEq] at hl
      rcases h with h | ⟨h1, _⟩
      · rw [hl.1] at h
        simp [Event.isValidPointTest] at h
      · rw [hl.1] at h1
        simp [Event.isCallOf] at h1
    | cons e' pre' =>
      simp only [List.cons_append, List.cons.injEq] at hl
      rcases h with h | ⟨_, h2⟩
      · exact ⟨e', List.mem_cons_self _ _, hl.1 ▸ h⟩
      · obtain ⟨e2, he2, hv⟩ := ih h2 pre' args r post hl.2
        exact ⟨e2, List.mem_cons_of_mem _ he2, hv⟩

/-- C5: in `sample_ecc256_compute_shared_dhkey`, a run in which the point test
`ippsGFpECTstPoint` leaves a verdict other than `ippECValid` returns
`SAMPLE_ERROR_INVALID_PARAMETER`, makes no call of `ippsGFpECSharedSecretDH` and
hands `p_shared_key` back as it was; and in every run, a call of
`ippsGFpECSharedSecretDH` comes after a call of the point test that reported
`ippStsNoErr` and `ippECValid`. -/
theorem dhkey_invalid_point_rejected (L : IppLib) (env : Env)
    (p_private_b : Option (List Nat)) (p_public_ga : Option sample_ec256_public_t)
    (p_shared_key : Option (List Nat)) (ecc_handle : Option ipp_ec_state_handles_t) :
    (∀ args r, Event.call .ippsGFpECTstPoint args r ∈
        (sample_ecc256_compute_shared_dhkey L env p_private_b p_public_ga p_shared_key
          ecc_handle).trace →
      r.verdict ≠ ippECValid →
      (sample_ecc256_compute_shared_dhkey L env p_private_b p_public_ga p_shared_key
          ecc_handle).status = SAMPLE_ERROR_INVALID_PARAMETER ∧
      (∀ args1 r1, Event.call .ippsGFpECSharedSecretDH args1 r1 ∉
        (sample_ecc256_compute_shared_dhkey L env p_private_b p_public_ga p_shared_key
          ecc_handle).trace) ∧
      (sample_ecc256_compute_shared_dhkey L env p_private_b p_public_ga p_shared_key
          ecc_handle).out = p_shared_key) ∧
    (∀ pre args r post,
      (sample_ecc256_compute_shared_dhkey L env p_private_b p_public_ga p_shared_key
          ecc_handle).trace = pre ++ Event.call .ippsGFpECSharedSecretDH args r :: post →
      ∃ args1 r1, Event.call .ippsGFpECTstPoint args1 r1 ∈ pre ∧
        r1.status = ippStsNoErr ∧ r1.verdict = ippECValid) := by
  by_cases hnn : ecc_handle = none ∨ p_private_b = none ∨ p_public_ga = none
      ∨ p_shared_key = none
  · rw [dhkey_reject L env p_private_b p_public_ga p_shared_key ecc_handle hnn]
    refine ⟨fun args r hmem => absurd hmem (List.not_mem_nil _), fun pre args r post h => ?_⟩
    cases pre <;> simp at h
  · obtain ⟨evs, hevs, hR⟩ := dhkey_decomp L env p_private_b p_public_ga p_shared_key
      ecc_handle hnn
    obtain ⟨_, hgave, hord, hinv⟩ :=
      dhkey_block_summary L env p_private_b p_public_ga p_shared_key
    rw [hR]
    generalize dhkey_block_run L env p_private_b p_public_ga p_shared_key = s
      at hgave hord hinv
    refine ⟨fun args r hmem hv => ?_, fun pre args r post h => ?_⟩
    · have hin : Event.call .ippsGFpECTstPoint args r ∈ s.trace := by
        rcases List.mem_append.mp hmem with h | h
        · exact h
        · have h1 := hevs _ h
          rw [not_cleanup_of_call (by decide)] at h1
          exact absurd h1 (by decide)
      have hres : s.locals.ipp_result ≠ ippECValid := by
        rw [← hgave _ hin rfl]
        exact hv
      obtain ⟨hkey, hup⟩ := hinv hres
      refine ⟨if_pos hres, fun args1 r1 hmem1 => ?_, hkey⟩
      rcases List.mem_append.mp hmem1 with h | h
      · exact (hup _ h).1 rfl
      · have h1 := hevs _ h
        rw [not_cleanup_of_call (by decide)] at h1
        exact absurd h1 (by decide)
    · have hall : dhAfterPointTest (s.trace ++ evs) :=
        dhAfterPointTest_append hord fun e he => isCallOf_of_isCleanup (by decide) (hevs e he)
      obtain ⟨e, he, hv⟩ := dhAfterPointTest_split hall pre args r post h
      cases e with
      | call fn args1 r1 =>
        obtain ⟨hfn, h1, h2⟩ := hv
        subst hfn
        exact ⟨args1, r1, he, h1, h2⟩
      | _ => exact absurd hv (by simp [Event.isValidPointTest])

/-- Witness of C5: the point test, the seventeenth interaction of the run,
leaves the verdict `ippECInvalid 1`. -/
theorem dhkey_invalid_point_rejected_witness :
    Event.call .ippsGFpECTstPoint [.pt (sample_field 2)] ⟨ippStsNoErr, 64, ippECInvalid 1, true⟩ ∈
      (sample_ecc256_compute_shared_dhkey sampleLib
        (env_at 16 ⟨ippStsNoErr, 64, ippECInvalid 1, true⟩) (some (sample_field 1))
        (some ⟨sample_field 2, sample_field 3⟩) (some (sample_field 4))
        (some sample_handle)).trace ∧
    (sample_ecc256_compute_shared_dhkey sampleLib
        (env_at 16 ⟨ippStsNoErr, 64, ippECInvalid 1, true⟩) (some (sample_field 1))
        (some ⟨sample_field 2, sample_field 3⟩) (some (sample_field 4))
        (some sample_handle)).status = SAMPLE_ERROR_INVALID_PARAMETER ∧
    (sample_ecc256_compute_shared_dhkey sampleLib
        (env_at 16 ⟨ippStsNoErr, 64, ippECInvalid 1, true⟩) (some (sample_field 1))
        (some ⟨sample_field 2, sample_field 3⟩) (some (sample_field 4))
        (some sample_handle)).out = some (sample_field 4) :=
  ⟨by decide,
    ((dhkey_invalid_point_rejected sampleLib (env_at 16 ⟨ippStsNoErr, 64, ippECInvalid 1, true⟩)
      (some (sample_field 1)) (some ⟨sample_field 2, sample_field 3⟩) (some (sample_field 4))
      (some sample_handle)).1 [.pt (sample_field 2)] ⟨ippStsNoErr, 64, ippECInvalid 1, true⟩
      (by decide) (by decide)).1,
    ((dhkey_invalid_point_rejected sampleLib (env_at 16 ⟨ippStsNoErr, 64, ippECInvalid 1, true⟩)
      (some (sample_field 1)) (some ⟨sample_field 2, sample_field 3⟩) (some (sample_field 4))
      (some sample_handle)).1 [.pt (sample_field 2)] ⟨ippStsNoErr, 64, ippECInvalid 1, true⟩
      (by decide) (by decide)).2.2⟩

/-! ## ECDH: the run in which nothing fails -/

/-- In an environment where nothing fails and the shared secret fits the field,
the block of the shared-key function runs to its end. -/
theorem dhkey_block_ok (L : IppLib) (env : Env) (r gx gy : List Nat)
    (A : sample_ec256_public_t) (p_shared_key : Option (List Nat)) (hA : A = ⟨gx, gy⟩)
    (henv : env.allOk) (hlen : ¬ 32 < copy_len (dh_share L r gx gy).length) :
    dhkey_done (dh_share L r gx gy) p_shared_key
      (dhkey_block_run L env (some r) (some A) p_shared_key) := by
  have hst : ∀ k, (env k).status = ippStsNoErr := fun k => (henv k).1
  have hok : ∀ k, (env k).ok = true := fun k => (henv k).2.1
  have hv : ∀ k, (env k).verdict = ippECValid := fun k => (henv k).2.2
  subst hA
  unfold dhkey_block_run
  apply wp_elim _ (dhkey_done (dh_share L r gx gy) p_shared_key)
  unfold dh_share at hlen
  simp only [sample_ecc256_compute_shared_dhkey_block, dhkey_init, entry, wp_bind, wp_pure,
    wp_leave, wp_ite, wp_setLocals, wp_getLocals, wp_ipp_assign, wp_malloc_or, wp_ERROR_BREAK,
    wp_break_with, wp_newBN_or_break _ _ _ _ _ _ _ _ size_32_ok, wp_ref_BN_copy,
    hst, hok, hv, ne_eq, not_true_eq_false, false_imp_iff, true_and, forall_const,
    reduceCtorEq, not_false_eq_true, bn_at, Option.getD_some, Option.map_some', hlen, and_true]
  exact ⟨⟨rfl, rfl, by cases p_shared_key <;> rfl⟩⟩

theorem padded_field (f : List Nat) (bn : BigNum) (hf : f.length = 32)
    (hn : copy_len bn.length ≤ 32) :
    memcpy (memset f 0 32) bn.data (copy_len bn.length) = padded bn := by
  have hd : f.drop 32 = [] := List.drop_eq_nil_of_le (le_of_eq hf)
  have hm : memset f 0 32 = List.replicate 32 0 := by
    unfold memset
    rw [hd, hf, List.append_nil]
    rfl
  rw [hm]
  unfold memcpy padded
  rw [List.length_replicate, Nat.min_eq_left hn, List.drop_replicate]

/-- In an environment where nothing fails, the shared-key function returns
`SAMPLE_SUCCESS` and hands out the padded shared secret of the library. -/
theorem dhkey_ok (L : IppLib) (env : Env) (r s : List Nat) (A : sample_ec256_public_t)
    (h : ipp_ec_state_handles_t) (henv : env.allOk) (hs : s.length = 32)
    (hlen : copy_len (dh_share L r A.gx A.gy).length ≤ 32) :
    (sample_ecc256_compute_shared_dhkey L env (some r) (some A) (some s) (some h)).status
        = SAMPLE_SUCCESS ∧
    (sample_ecc256_compute_shared_dhkey L env (some r) (some A) (some s) (some h)).out
        = some (padded (dh_share L r A.gx A.gy)) := by
  obtain ⟨evs, _, hR⟩ := dhkey_decomp L env (some r) (some A) (some s) (some h)
    (by simp only [reduceCtorEq, or_self, not_false_eq_true])
  obtain ⟨h1, h2, h3⟩ := dhkey_block_ok L env r A.gx A.gy A (some s) rfl henv (not_lt.mpr hlen)
  rw [hR, h1, h2, h3]
  exact ⟨rfl, congrArg some (padded_field s _ hs hlen)⟩

/-- The shared secret of a private key and the public point of a key pair, in
the curve model. -/
theorem dh_share_model (L : IppLib) (M : CurveModel L) (a b : List Nat)
    (B : sample_ec256_public_t) (hB : M.isKeyPair b B) :
    dh_share L a B.gx B.gy =
      M.secret ((M.scalar (L.ippsSet_BN 8 a) * M.scalar (L.ippsSet_BN 8 b)) • M.base) := by
  unfold dh_share
  rw [M.shared_secret, mul_smul, ← hB]
  rfl

/-- In the model of the stand-in library, the private scalar `c` and the point
with first coordinate `c` are a key pair. -/
theorem sample_isKeyPair (c : Nat) :
    sampleModel.isKeyPair (sample_field c) ⟨sample_field c, sample_field 0⟩ := by
  show ((c : Nat) : Int) = c • (1 : Int)
  simp

/-- C6, as stated, fails: the two key pairs are valid and every library call
succeeds, but the second interaction of the run, the allocation of the first
big number, is refused, and the function returns
`SAMPLE_ERROR_OUT_OF_MEMORY`. -/
theorem dhkey_symmetric_counterexample :
    sampleModel.isKeyPair (sample_field 3) ⟨sample_field 3, sample_field 0⟩ ∧
    sampleModel.isKeyPair (sample_field 5) ⟨sample_field 5, sample_field 0⟩ ∧
    (sample_ecc256_compute_shared_dhkey sampleLib
      (env_at 1 ⟨ippStsNoErr, 64, ippECValid, false⟩) (some (sample_field 3))
      (some ⟨sample_field 5, sample_field 0⟩) (some (sample_field 0))
      (some sample_handle)).status = SAMPLE_ERROR_OUT_OF_MEMORY := by
  refine ⟨?_, ?_, ?_⟩
  · exact sample_isKeyPair 3
  · exact sample_isKeyPair 5
  · decide

/-- C6 (amended): for key pairs `(a, A)` and `(b, B)` of the curve the library
implements, when every library call, allocation and point test of the two runs
succeeds, `sample_ecc256_compute_shared_dhkey(a, B)` and
`sample_ecc256_compute_shared_dhkey(b, A)` both return `SAMPLE_SUCCESS` and
write the same 32 bytes to `p_shared_key`: the zero-padded coordinate of the
base point multiplied by both private scalars. -/
theorem dhkey_symmetric (L : IppLib) (M : CurveModel L) (env1 env2 : Env)
    (a b s1 s2 : List Nat) (A B : sample_ec256_public_t) (h1 h2 : ipp_ec_state_handles_t)
    (hA : M.isKeyPair a A) (hB : M.isKeyPair b B)
    (henv1 : env1.allOk) (henv2 : env2.allOk)
    (hs1 : s1.length = 32) (hs2 : s2.length = 32) :
    (sample_ecc256_compute_shared_dhkey L env1 (some a) (some B) (some s1) (some h1)).status
        = SAMPLE_SUCCESS ∧
    (sample_ecc256_compute_shared_dhkey L env2 (some b) (some A) (some s2) (some h2)).status
        = SAMPLE_SUCCESS ∧
    (sample_ecc256_compute_shared_dhkey L env1 (some a) (some B) (some s1) (some h1)).out
        = some (padded (M.secret
            ((M.scalar (L.ippsSet_BN 8 a) * M.scalar (L.ippsSet_BN 8 b)) • M.base))) ∧
    (sample_ecc256_compute_shared_dhkey L env2 (some b) (some A) (some s2) (some h2)).out
        = (sample_ecc256_compute_shared_dhkey L env1 (some a) (some B) (some s1) (some h1)).out
    := by
  have e1 := dh_share_model L M a b B hB
  have e2 := dh_share_model L M b a A hA
  rw [mul_comm] at e2
  obtain ⟨r1, o1⟩ := dhkey_ok L env1 a s1 B h1 henv1 hs1 (e1 ▸ M.secret_size _)
  obtain ⟨r2, o2⟩ := dhkey_ok L env2 b s2 A h2 henv2 hs2 (e2 ▸ M.secret_size _)
  rw [e1] at o1
  rw [e2] at o2
  exact ⟨r1, r2, o1, o2.trans o1.symm⟩

/-- Witness of C6 (amended): the key pairs with private scalars 3 and 5 of the
stand-in library, in the environment where nothing fails. -/
theorem dhkey_symmetric_witness :
    sampleModel.isKeyPair (sample_field 3) ⟨sample_field 3, sample_field 0⟩ ∧
    sampleModel.isKeyPair (sample_field 5) ⟨sample_field 5, sample_field 0⟩ ∧
    env_ok.allOk ∧
    (sample_ecc256_compute_shared_dhkey sampleLib env_ok (some (sample_field 5))
        (some ⟨sample_field 3, sample_field 0⟩) (some (sample_field 9))
        (some sample_handle)).out
      = (sample_ecc256_compute_shared_dhkey sampleLib env_ok (some (sample_field 3))
        (some ⟨sample_field 5, sample_field 0⟩) (some (sample_field 7))
        (some sample_handle)).out :=
  ⟨sample_isKeyPair 3, sample_isKeyPair 5, fun _ => ⟨rfl, rfl, rfl⟩,
    (dhkey_symmetric sampleLib sampleModel env_ok env_ok (sample_field 3) (sample_field 5)
      (sample_field 7) (sample_field 9) ⟨sample_field 3, sample_field 0⟩
      ⟨sample_field 5, sample_field 0⟩ sample_handle sample_handle (sample_isKeyPair 3)
      (sample_isKeyPair 5) (fun _ => ⟨rfl, rfl, rfl⟩) (fun _ => ⟨rfl, rfl, rfl⟩) (by decide) (by decide)).2.2.2⟩

/-! ## The functions that return from inside their body -/

theorem wp_clear_temp_state {σ ε : Type} (E : ε → Machine σ → Prop) (sz : Int)
    (Q : Unit → Machine σ → Prop) (p : Nat) (t : List Event) (st : IppStatus) (l : σ) :
    wp (clear_temp_state sz : Op σ ε Unit) Q E ⟨p, t, st, l⟩ =
      Q () ⟨p, t ++ [Event.memset_s .pState (to_size_t sz) 0 (to_size_t sz),
        Event.free .pState], st, l⟩ := by
  unfold clear_temp_state
  simp only [wp_bind, wp_emit, List.append_assoc, List.singleton_append]

theorem wp_fail_clear {σ : Type} (E : sample_status_t → Machine σ → Prop) (sz : Int)
    (sw : IppStatus → sample_status_t) (Q : Unit → Machine σ → Prop)
    (p : Nat) (t : List Event) (st : IppStatus) (l : σ) :
    wp (fail_clear sz sw) Q E ⟨p, t, st, l⟩ =
      ((st ≠ ippStsNoErr →
          E (sw st) ⟨p, t ++ [Event.memset_s .pState (to_size_t sz) 0 (to_size_t sz),
            Event.free .pState], st, l⟩) ∧
       (st = ippStsNoErr → Q () ⟨p, t, ippStsNoErr, l⟩)) := by
  unfold fail_clear
  rw [wp_bind, wp_get_ret, wp_ite, wp_bind, wp_clear_temp_state, wp_leave, wp_pure]
  by_cases h : st = ippStsNoErr <;> simp [h]

/-- The return value of AES-GCM encryption accounts for every event. -/
theorem gcm_mapped (L : IppLib) (env : Env)
    (p_key p_src p_dst p_iv p_aad p_out_mac : Option (List Nat)) (src_len iv_len aad_len : Nat) :
    Mapped (sample_rijndael128GCM_encrypt L env p_key p_src src_len p_dst p_iv iv_len p_aad
      aad_len p_out_mac) := by
  unfold sample_rijndael128GCM_encrypt
  refine Leaf.out ((run_wp (fun R : Ret gcm_out => Leaf (Mapped R)) _ _ _ _).mpr ?_)
  simp only [entry, wp_bind, wp_pure, wp_leave, wp_ite, wp_setLocals, wp_ipp_assign,
    wp_malloc_or, wp_fail_clear, wp_clear_temp_state, ne_eq, not_not]
  repeat' (first | apply And.intro | intro _)
  all_goals constructor
  all_goals simp only [Mapped, ret_of, Event.mappedTo, status_after, List.nil_append,
    List.append_assoc, List.cons_append, List.forall_mem_cons, List.not_mem_nil,
    false_imp_iff, implies_true, and_true, reduceCtorEq, true_or, or_true, true_and,
    and_self, *]

/-- The return value of AES-CMAC accounts for every event. -/
theorem cmac_mapped (L : IppLib) (env : Env) (p_key p_src p_mac : Option (List Nat))
    (src_len : Nat) :
    Mapped (sample_rijndael128_cmac_msg L env p_key p_src src_len p_mac) := by
  unfold sample_rijndael128_cmac_msg
  refine Leaf.out ((run_wp (fun R : Ret (Option (List Nat)) => Leaf (Mapped R)) _ _ _ _).mpr ?_)
  simp only [entry, wp_bind, wp_pure, wp_leave, wp_ite, wp_setLocals, wp_ipp_assign,
    wp_malloc_or, wp_fail_clear, wp_clear_temp_state, ne_eq, not_not]
  repeat' (first | apply And.intro | intro _)
  all_goals constructor
  all_goals simp only [Mapped, ret_of, Event.mappedTo, status_after, List.nil_append,
    List.append_assoc, List.cons_append, List.forall_mem_cons, List.not_mem_nil,
    false_imp_iff, implies_true, and_true, reduceCtorEq, true_or, or_true, true_and,
    and_self, *]

/-- The return value of `sample_sha256_init` accounts for every event. -/
theorem sha256_init_mapped (L : IppLib) (env : Env) (p_sha_handle : Option (Option sha_state)) :
    Mapped (sample_sha256_init L env p_sha_handle) := by
  unfold sample_sha256_init
  refine Leaf.out ((run_wp (fun R : Ret (Option (Option sha_state)) => Leaf (Mapped R))
    _ _ _ _).mpr ?_)
  simp only [entry, wp_bind, wp_pure, wp_leave, wp_ite, wp_setLocals, wp_ipp_assign,
    wp_malloc_or, wp_emit, SAFE_FREE, ne_eq, not_not]
  repeat' (first | apply And.intro | intro _)
  all_goals constructor
  all_goals simp only [Mapped, ret_of, Event.mappedTo, status_after, List.nil_append,
    List.append_assoc, List.cons_append, List.forall_mem_cons, List.not_mem_nil,
    false_imp_iff, implies_true, and_true, reduceCtorEq, true_or, or_true, true_and,
    and_self, *]

/-- With its arguments not null, `sample_sha256_update` makes one call and
returns what its `switch` maps the status of the call to. -/
theorem sha256_update_run (L : IppLib) (env : Env) (src : List Nat) (src_len : Nat)
    (h : sha_state) :
    (sample_sha256_update L env (some src) src_len (some h)).status
        = switch_sha (env 0).status ∧
    (sample_sha256_update L env (some src) src_len (some h)).trace
        = [Event.call .ippsHashUpdate_rmf [.bytes (src.take src_len)] (env 0)] := by
  unfold sample_sha256_update
  refine Leaf.out ((run_wp (fun R : Ret (Option sha_state) => Leaf (R.status
    = switch_sha (env 0).status ∧ R.trace
        = [Event.call .ippsHashUpdate_rmf [.bytes (src.take src_len)] (env 0)])) _ _ _ _).mpr ?_)
  simp only [entry, wp_bind, wp_pure, wp_leave, wp_ite, wp_setLocals, wp_ipp_assign,
    reduceCtorEq, or_self, false_imp_iff, true_and, not_false_eq_true, forall_const,
    Option.getD_some, ret_of, List.nil_append, and_self, imp_self]
  exact ⟨fun _ => ⟨trivial⟩, fun _ => ⟨trivial⟩⟩

/-- With its arguments not null, `sample_sha256_get_hash` makes one call and
returns what its `switch` maps the status of the call to. -/
theorem sha256_get_hash_run (L : IppLib) (env : Env) (h : sha_state) (hash : List Nat) :
    (sample_sha256_get_hash L env (some h) (some hash)).status
        = switch_sha (env 0).status ∧
    (sample_sha256_get_hash L env (some h) (some hash)).trace
        = [Event.call .ippsHashGetTag_rmf [] (env 0)] := by
  unfold sample_sha256_get_hash
  refine Leaf.out ((run_wp (fun R : Ret (Option (List Nat)) => Leaf (R.status
    = switch_sha (env 0).status ∧ R.trace
        = [Event.call .ippsHashGetTag_rmf [] (env 0)])) _ _ _ _).mpr ?_)
  simp only [entry, wp_bind, wp_pure, wp_leave, wp_ite, wp_setLocals, wp_ipp_assign,
    reduceCtorEq, or_self, false_imp_iff, true_and, not_false_eq_true, forall_const,
    Option.getD_some, ret_of, List.nil_append, and_self, imp_self]
  exact ⟨fun _ => ⟨trivial⟩, fun _ => ⟨trivial⟩⟩

/-! ## The elliptic-curve context -/

/-- The block of `sample_ecc256_open_context` leaves a status variable that
accounts for every event. -/
theorem open_block_sound (env : Env) (ecc_handle : Option (Option ipp_ec_state_handles_t)) :
    Sound (open_block_run env ecc_handle) := by
  unfold open_block_run
  apply wp_elim _ Sound
  simp only [sample_ecc256_open_context_block, open_init, entry, wp_bind, wp_pure,
    wp_leave, wp_ite, wp_setLocals, wp_getLocals, wp_ipp_assign, wp_malloc_or, wp_ERROR_BREAK,
    wp_break_with]
  repeat' (first | apply And.intro | intro _)
  all_goals constructor
  all_goals simp only [Sound, List.nil_append, List.append_assoc, List.cons_append,
    List.forall_mem_cons, List.not_mem_nil, false_imp_iff, implies_true, and_true,
    Event.explainedBy, reduceCtorEq, true_or, or_true, true_and, and_self, *]

/-- The function `sample_ecc256_open_context` is its block followed by statements that make
no library call and no allocation, and the `switch` on the status variable. -/
theorem open_decomp (env : Env) (h : Option ipp_ec_state_handles_t) :
    ∃ evs : List Event,
      (∀ e ∈ evs, e.isCleanup = true ∨ e = Event.store .ecc_handle) ∧
      (sample_ecc256_open_context env (some h)).status
        = switch_open (open_block_run env (some h)).ipp_ret ∧
      (sample_ecc256_open_context env (some h)).trace
        = (open_block_run env (some h)).trace ++ evs := by
  unfold sample_ecc256_open_context
  rw [if_neg (by simp only [reduceCtorEq, not_false_eq_true])]
  generalize hs : open_block_run env (some h) = s
  refine (run_wp (fun R : Ret (Option (Option ipp_ec_state_handles_t)) => ∃ evs : List Event,
      (∀ e ∈ evs, e.isCleanup = true ∨ e = Event.store .ecc_handle) ∧
      R.status = switch_open s.ipp_ret ∧ R.trace = s.trace ++ evs) _ _ _ _).mpr ?_
  rw [wp_bind]
  unfold wp
  rw [do_while_0_apply]
  show wp _ _ _ (open_block_run env (some h))
  rw [hs]
  rcases s with ⟨p, t, st, l⟩
  rw [wp_bind, wp_get_ret, wp_bind, wp_getLocals, wp_bind, wp_ite]
  refine ⟨fun _ => ?_, fun _ => ?_⟩
  · refine wp_onlyCleans (OnlyCleans.CLEAR_FREE_MEM _ _) _ _ _ _ fun p1 e1 h1 => ?_
    refine wp_onlyCleans (OnlyCleans.CLEAR_FREE_MEM _ _) _ _ _ _ fun p2 e2 h2 => ?_
    refine wp_onlyCleans (OnlyCleans.SAFE_FREE _) _ _ _ _ fun p3 e3 h3 => ?_
    rw [wp_setLocals, wp_pure]
    refine ⟨e1 ++ (e2 ++ e3), fun e he => Or.inl ?_, rfl, ?_⟩
    · simp only [List.mem_append] at he
      rcases he with h | h | h
      exacts [h1 e h, h2 e h, h3 e h]
    · simp only [ret_of, List.append_assoc]
  · rw [wp_bind, wp_emit, wp_setLocals, wp_pure]
    exact ⟨[Event.store .ecc_handle], fun e he => Or.inr (List.mem_singleton.mp he), rfl, rfl⟩

/-! ## ECDSA signature -/

theorem Clean.explained {t : List Event} (h : Clean t) (st : IppStatus) :
    ∀ e ∈ t, e.explainedBy st := by
  intro e he
  have h1 := h e he
  cases e with
  | call fn args r =>
    rcases h1 with h1 | h1
    · exact Or.inl h1
    · exact Or.inl h1
  | malloc b sz ok =>
    rcases h1 with h1 | h1 | h1
    · exact Or.inl h1
    · exact absurd h1 (by decide)
    · exact absurd h1 (by decide)
  | _ => trivial

/-- The statements of `sample_ecdsa_sign` before the inner loop complete with
every event successful, or leave the block with a status variable that accounts
for every event. -/
theorem sign_before_summary (L : IppLib) (host : ByteOrder) (env : Env) (data r : List Nat)
    (sig : Option sample_ec256_signature_t) :
    wp (sample_ecdsa_sign_before_loop L host env data r)
      (fun _ s1 => Leaf (Clean s1.trace)) (fun _ s1 => Leaf (Sound s1))
      (entry ippStsErr (sign_init sig)) := by
  simp only [sample_ecdsa_sign_before_loop, sign_init, entry, wp_bind, wp_pure,
    wp_leave, wp_ite, wp_setLocals, wp_getLocals, wp_ipp_assign, wp_malloc_or, wp_ERROR_BREAK,
    wp_break_with, wp_newBN_or_break _ _ _ _ _ _ _ _ size_32_ok,
    wp_newBN_or_break _ _ _ _ _ _ _ _ size_order_ok]
  repeat' (first | apply And.intro | intro _)
  all_goals constructor
  all_goals simp only [Sound, Clean, List.nil_append, List.append_assoc, List.cons_append,
    List.forall_mem_cons, List.not_mem_nil, false_imp_iff, implies_true, and_true,
    Event.explainedBy, reduceCtorEq, true_or, or_true, true_and, and_self, *]

/-- From a machine where every event succeeded, the body of the inner loop
completes with every event successful, or leaves the loop with a status
variable that accounts for every event. -/
theorem sign_body_summary (L : IppLib) (host : ByteOrder) (env : Env) (p : Nat)
    (t : List Event) (st : IppStatus) (l : sign_locals) (hC : Clean t) :
    wp (sample_ecdsa_sign_loop_body L host env)
      (fun _ s1 => Leaf (Clean s1.trace)) (fun _ s1 => Leaf (Sound s1)) ⟨p, t, st, l⟩ := by
  have hE : ∀ st, (∀ e ∈ t, e.explainedBy st) ↔ True :=
    fun st => iff_true_intro (Clean.explained hC st)
  simp only [sample_ecdsa_sign_loop_body, wp_bind, wp_pure,
    wp_leave, wp_ite, wp_setLocals, wp_getLocals, wp_ipp_assign, wp_ERROR_BREAK,
    wp_break_with]
  repeat' (first | apply And.intro | intro _)
  all_goals constructor
  all_goals simp only [Sound, Clean, List.nil_append, List.append_assoc, List.cons_append,
    List.forall_mem_append, hE, true_and]
  all_goals simp only [List.forall_mem_cons, List.not_mem_nil, false_imp_iff,
    implies_true, and_true, Event.explainedBy, reduceCtorEq, true_or, or_true, true_and,
    and_self, *]

/-- When the inner loop is left, the status variable accounts for every
event. -/
theorem sign_loop_sound (L : IppLib) (host : ByteOrder) (env : Env) (fuel : Nat) :
    ∀ s s2 : Machine sign_locals, Clean s.trace →
      sample_ecdsa_sign_loop L host env fuel s = some s2 → Sound s2 := by
  induction fuel with
  | zero =>
    intro s s2 _ h
    exact absurd h (by simp [sample_ecdsa_sign_loop])
  | succ n ih =>
    intro s s2 hC h
    rcases s with ⟨p, t, st, l⟩
    have hb := sign_body_summary L host env p t st l hC
    unfold wp at hb
    unfold sample_ecdsa_sign_loop at h
    rcases hr : sample_ecdsa_sign_loop_body L host env ⟨p, t, st, l⟩ with ⟨r, s1⟩
    rw [hr] at hb h
    cases r with
    | error e =>
      simp only [Option.some.injEq] at h
      exact h ▸ hb.out
    | ok a =>
      simp only at h hb
      split at h
      · exact ih s1 s2 hb.out h
      · simp only [Option.some.injEq] at h
        exact h ▸ Clean.explained hb.out _

/-- From a machine whose status variable accounts for every event, the
statements after the inner loop end in such a machine. -/
theorem sign_after_summary (L : IppLib) (env : Env) (s : Machine sign_locals) (hS : Sound s) :
    Sound (sample_ecdsa_sign_after_loop L env s).2 := by
  rcases s with ⟨p, t, st, l⟩
  apply wp_elim _ Sound
  by_cases hst : st = ippStsNoErr
  · subst hst
    have hC : Clean t := hS
    have hE : ∀ st, (∀ e ∈ t, e.explainedBy st) ↔ True :=
      fun st => iff_true_intro (Clean.explained hC st)
    simp only [sample_ecdsa_sign_after_loop, wp_bind, wp_pure, wp_emit,
      wp_leave, wp_ite, wp_setLocals, wp_getLocals, wp_ipp_assign, wp_ERROR_BREAK,
      wp_break_with, wp_newBN_or_break _ _ _ _ _ _ _ _ size_order_ok, wp_ref_BN_copy]
    repeat' (first | apply And.intro | intro _)
    all_goals constructor
    all_goals simp only [Sound, Clean, List.nil_append, List.append_assoc, List.cons_append,
      List.forall_mem_append, hE, true_and]
    all_goals simp only [List.forall_mem_cons, List.not_mem_nil, false_imp_iff,
      implies_true, and_true, Event.explainedBy, reduceCtorEq, true_or, or_true, true_and,
      and_self, *]
  · unfold sample_ecdsa_sign_after_loop
    rw [wp_bind, wp_ERROR_BREAK]
    exact ⟨fun _ => ⟨hS⟩, fun h => absurd h hst⟩

/-- When `sample_ecdsa_sign` leaves its outer block, the status variable
accounts for every event. -/
theorem sign_block_sound (L : IppLib) (host : ByteOrder) (env : Env) (fuel : Nat)
    (p_data : Option (List Nat)) (data_size : Nat) (p_private : Option (List Nat))
    (p_signature : Option sample_ec256_signature_t) (s : Machine sign_locals)
    (h : sign_block_run L host env fuel p_data data_size p_private p_signature = some s) :
    Sound s := by
  unfold sign_block_run sample_ecdsa_sign_block at h
  have hb := sign_before_summary L host env ((p_data.getD []).take data_size)
    (p_private.getD []) p_signature
  unfold wp at hb
  rcases hr : sample_ecdsa_sign_before_loop L host env ((p_data.getD []).take data_size)
    (p_private.getD []) (entry ippStsErr (sign_init p_signature)) with ⟨r, s1⟩
  rw [hr] at hb h
  cases r with
  | error e =>
    simp only [Option.some.injEq] at h
    exact h ▸ hb.out
  | ok a =>
    simp only at h hb
    rcases hl : sample_ecdsa_sign_loop L host env fuel s1 with _ | s2
    · rw [hl] at h
      exact absurd h (by simp)
    · rw [hl] at h
      simp only [Option.some.injEq] at h
      exact h ▸ sign_after_summary L env s2 (sign_loop_sound L host env fuel s1 s2 hb.out hl)

/-- The statements after the outer block of `sample_ecdsa_sign` release memory
and return what the `switch` maps the status variable to. -/
theorem sign_cleanup_run (env : Env) (s : Machine sign_locals) :
    ∃ (p : Nat) (evs : List Event), (∀ e ∈ evs, e.isCleanup = true) ∧
      sample_ecdsa_sign_cleanup env s
        = (.ok (switch_ecc s.ipp_ret), ⟨p, s.trace ++ evs, s.ipp_ret, s.locals⟩) := by
  have hw : wp (sample_ecdsa_sign_cleanup env)
      (fun v s1 => ∃ evs : List Event, (∀ e ∈ evs, e.isCleanup = true) ∧
        v = switch_ecc s.ipp_ret ∧ s1.trace = s.trace ++ evs ∧ s1.ipp_ret = s.ipp_ret ∧
        s1.locals = s.locals)
      (fun _ _ => False) s := by
    rcases s with ⟨p, t, st, l⟩
    unfold sample_ecdsa_sign_cleanup
    rw [wp_bind, wp_getLocals]
    refine wp_onlyCleans (OnlyCleans.CLEAR_FREE_MEM _ _) _ _ _ _ fun p1 e1 h1 => ?_
    refine wp_onlyCleans (OnlyCleans.SAFE_FREE _) _ _ _ _ fun p2 e2 h2 => ?_
    refine wp_onlyCleans (OnlyCleans.sample_ipp_secure_free_BN _ _ _ _) _ _ _ _
      fun p3 e3 h3 => ?_
    refine wp_onlyCleans (OnlyCleans.sample_ipp_secure_free_BN _ _ _ _) _ _ _ _
      fun p4 e4 h4 => ?_
    refine wp_onlyCleans (OnlyCleans.sample_ipp_secure_free_BN _ _ _ _) _ _ _ _
      fun p5 e5 h5 => ?_
    refine wp_onlyCleans (OnlyCleans.sample_ipp_secure_free_BN _ _ _ _) _ _ _ _
      fun p6 e6 h6 => ?_
    refine wp_onlyCleans (OnlyCleans.sample_ipp_secure_free_BN _ _ _ _) _ _ _ _
      fun p7 e7 h7 => ?_
    refine wp_onlyCleans (OnlyCleans.sample_ipp_secure_free_BN _ _ _ _) _ _ _ _
      fun p8 e8 h8 => ?_
    refine wp_onlyCleans (OnlyCleans.sample_ipp_secure_free_BN _ _ _ _) _ _ _ _
      fun p9 e9 h9 => ?_
    rw [wp_bind, wp_get_ret, wp_pure]
    refine ⟨e1 ++ (e2 ++ (e3 ++ (e4 ++ (e5 ++ (e6 ++ (e7 ++ (e8 ++ e9))))))), ?_, rfl, ?_,
      rfl, rfl⟩
    · intro e he
      simp only [List.mem_append] at he
      rcases he with h | h | h | h | h | h | h | h | h
      exacts [h1 e h, h2 e h, h3 e h, h4 e h, h5 e h, h6 e h, h7 e h, h8 e h, h9 e h]
    · simp only [List.append_assoc]
  unfold wp at hw
  rcases hr : sample_ecdsa_sign_cleanup env s with ⟨r, s1⟩
  rw [hr] at hw
  cases r with
  | error e => exact hw.elim
  | ok v =>
    obtain ⟨evs, hevs, hv, ht, hst, hl⟩ := hw
    rcases s1 with ⟨p1, t1, st1, l1⟩
    simp only at ht hst hl
    exact ⟨p1, evs, hevs, by rw [hv, ht, hst, hl]⟩

/-- With its arguments accepted, `sample_ecdsa_sign` is its outer block, followed
by statements that release memory and the `switch` on the status variable. -/
theorem sign_decomp (L : IppLib) (host : ByteOrder) (env : Env) (fuel : Nat)
    (p_data : Option (List Nat)) (data_size : Nat) (p_private : Option (List Nat))
    (p_signature : Option sample_ec256_signature_t)
    (ecc_handle : Option ipp_ec_state_handles_t)
    (hnn : ¬ (ecc_handle = none ∨ p_private = none ∨ p_signature = none ∨ p_data = none
      ∨ data_size < 1)) :
    (sign_block_run L host env fuel p_data data_size p_private p_signature = none →
      sample_ecdsa_sign L host env fuel p_data data_size p_private p_signature ecc_handle
        = none) ∧
    (∀ s, sign_block_run L host env fuel p_data data_size p_private p_signature = some s →
      ∃ evs : List Event, (∀ e ∈ evs, e.isCleanup = true) ∧
        sample_ecdsa_sign L host env fuel p_data data_size p_private p_signature ecc_handle
          = some ⟨switch_ecc s.ipp_ret, s.locals.p_signature, s.trace ++ evs⟩) := by
  unfold sample_ecdsa_sign sign_block_run
  rw [if_neg hnn]
  refine ⟨fun h => ?_, fun s h => ?_⟩
  · rw [h]
  · rw [h]
    obtain ⟨p, evs, hevs, hc⟩ := sign_cleanup_run env s
    exact ⟨evs, hevs, by simp only [hc, ret_of]⟩

/-- When the statements before the inner loop leave the outer block, the block
is left whatever the number of iterations allowed. -/
theorem sign_block_of_break (L : IppLib) (host : ByteOrder) (env : Env) (fuel : Nat)
    (p_data : Option (List Nat)) (data_size : Nat) (p_private : Option (List Nat))
    (p_signature : Option sample_ec256_signature_t)
    (h : ¬ Clean (sign_before_run L host env p_data data_size p_private p_signature).2.trace) :
    sign_block_run L host env fuel p_data data_size p_private p_signature
      = some (sign_before_run L host env p_data data_size p_private p_signature).2 := by
  have hb := sign_before_summary L host env ((p_data.getD []).take data_size)
    (p_private.getD []) p_signature
  unfold wp at hb
  unfold sign_block_run sample_ecdsa_sign_block
  unfold sign_before_run at h ⊢
  rcases hr : sample_ecdsa_sign_before_loop L host env ((p_data.getD []).take data_size)
    (p_private.getD []) (entry ippStsErr (sign_init p_signature)) with ⟨r, s1⟩
  rw [hr] at hb h
  cases r with
  | error e => rfl
  | ok a => exact absurd hb.out h

/-! ## Closing a context -/

/-- The function `sample_ecc256_close_context` returns `SAMPLE_SUCCESS` on every handle that
is not null, whatever its sizing queries report. -/
theorem close_context_status (env : Env) (h : ipp_ec_state_handles_t) :
    (sample_ecc256_close_context env (some h)).status = SAMPLE_SUCCESS := by
  unfold sample_ecc256_close_context
  refine (run_wp (fun R : Ret Unit => R.status = SAMPLE_SUCCESS) _ _ _ _).mpr ?_
  rcases h with ⟨addr, gfp, ec⟩
  cases gfp <;> cases ec <;>
    simp only [entry, wp_bind, wp_pure, wp_ipp, wp_ite, wp_emit, CLEAR_FREE_MEM, ret_of] <;>
    (repeat' (first | apply And.intro | intro _))
  all_goals trivial

/-! ## Failed allocations and failed calls -/

theorem Sound.alloc_refused {σ : Type} {s : Machine σ} (h : Sound s) {b : Buf} {sz : Int}
    (hm : Event.malloc b sz false ∈ s.trace) :
    s.ipp_ret = ippStsNoMemErr ∨ s.ipp_ret = ippStsMemAllocErr := by
  rcases h _ hm with h1 | h1
  · exact absurd h1 (by decide)
  · exact h1

theorem Sound.call_status {σ : Type} {s : Machine σ} (h : Sound s) {fn : IppFn}
    {args : List Val} {r : Resp} (hm : Event.call fn args r ∈ s.trace)
    (hr : r.status ≠ ippStsNoErr) : s.ipp_ret = r.status := by
  rcases h _ hm with h1 | h1
  · exact absurd h1 hr
  · exact h1.symm

theorem switch_ecc_of_alloc {st : IppStatus}
    (h : st = ippStsNoMemErr ∨ st = ippStsMemAllocErr) :
    switch_ecc st = SAMPLE_ERROR_OUT_OF_MEMORY := by
  rcases h with h | h <;> rw [h] <;> rfl

theorem switch_open_of_alloc {st : IppStatus}
    (h : st = ippStsNoMemErr ∨ st = ippStsMemAllocErr) :
    switch_open st = SAMPLE_ERROR_OUT_OF_MEMORY := by
  rcases h with h | h <;> rw [h] <;> rfl

theorem Mapped.alloc_oom {α : Type} {R : Ret α} (h : Mapped R) {b : Buf} {sz : Int}
    (hm : Event.malloc b sz false ∈ R.trace) : R.status = SAMPLE_ERROR_OUT_OF_MEMORY := by
  rcases h _ hm with h1 | h1
  · exact absurd h1 (by decide)
  · exact h1

theorem Mapped.call_mapped {α : Type} {R : Ret α} (h : Mapped R) {fn : IppFn}
    {args : List Val} {r : Resp} (hm : Event.call fn args r ∈ R.trace)
    (hr : r.status ≠ ippStsNoErr) : R.status = status_after fn r.status := by
  rcases h _ hm with h1 | h1
  · exact absurd h1 hr
  · exact h1

/-- An allocation is not among the events of releasing memory or of storing the
handle. -/
theorem malloc_of_append {t evs : List Event} {b : Buf} {sz : Int} {ok : Bool}
    (hevs : ∀ e ∈ evs, e.isCleanup = true ∨ e = Event.store .ecc_handle)
    (hm : Event.malloc b sz ok ∈ t ++ evs) : Event.malloc b sz ok ∈ t := by
  rcases List.mem_append.mp hm with h | h
  · exact h
  · rcases hevs _ h with h1 | h1
    · exact absurd h1 Bool.false_ne_true
    · exact absurd h1 (by simp only [reduceCtorEq, not_false_eq_true])

/-- A refused allocation in `sample_ecc256_open_context`. -/
theorem open_malloc_failed (env : Env) (ecc_handle : Option (Option ipp_ec_state_handles_t))
    (b : Buf) (sz : Int)
    (hm : Event.malloc b sz false ∈ (sample_ecc256_open_context env ecc_handle).trace) :
    (sample_ecc256_open_context env ecc_handle).status = SAMPLE_ERROR_OUT_OF_MEMORY := by
  cases ecc_handle with
  | none => exact absurd hm (List.not_mem_nil _)
  | some h =>
    obtain ⟨evs, hevs, hst, htr⟩ := open_decomp env h
    rw [htr] at hm
    rw [hst]
    exact switch_open_of_alloc ((open_block_sound env (some h)).alloc_refused
      (malloc_of_append hevs hm))

/-- A failed call in the block of `sample_ecc256_open_context`. -/
theorem open_call_failed (env : Env) (h : Option ipp_ec_state_handles_t)
    (fn : IppFn) (args : List Val) (r : Resp)
    (hm : Event.call fn args r ∈ (open_block_run env (some h)).trace)
    (hr : r.status ≠ ippStsNoErr) :
    (sample_ecc256_open_context env (some h)).status = switch_open r.status := by
  obtain ⟨evs, _, hst, _⟩ := open_decomp env h
  rw [hst, (open_block_sound env (some h)).call_status hm hr]

/-- A refused allocation in `sample_ecc256_create_key_pair`. -/
theorem keypair_malloc_failed (L : IppLib) (host : ByteOrder) (env : Env)
    (p_private : Option (List Nat)) (p_public : Option sample_ec256_public_t)
    (ecc_handle : Option ipp_ec_state_handles_t) (b : Buf) (sz : Int)
    (hm : Event.malloc b sz false ∈
      (sample_ecc256_create_key_pair L host env p_private p_public ecc_handle).trace) :
    (sample_ecc256_create_key_pair L host env p_private p_public ecc_handle).status
      = SAMPLE_ERROR_OUT_OF_MEMORY := by
  by_cases hnn : ecc_handle = none ∨ p_private = none ∨ p_public = none
  · rw [keypair_reject L host env p_private p_public ecc_handle hnn] at hm
    exact absurd hm (List.not_mem_nil _)
  · obtain ⟨evs, hevs, hR⟩ := keypair_decomp L host env p_private p_public ecc_handle hnn
    rw [hR] at hm ⊢
    exact switch_ecc_of_alloc ((keypair_block_summary L host env p_private p_public).1.alloc_refused
      (malloc_of_append (fun e he => Or.inl (hevs e he)) hm))

/-- A failed call in the block of `sample_ecc256_create_key_pair`. -/
theorem keypair_call_failed (L : IppLib) (host : ByteOrder) (env : Env)
    (p_private : Option (List Nat)) (p_public : Option sample_ec256_public_t)
    (ecc_handle : Option ipp_ec_state_handles_t)
    (hnn : ¬ (ecc_handle = none ∨ p_private = none ∨ p_public = none))
    (fn : IppFn) (args : List Val) (r : Resp)
    (hm : Event.call fn args r ∈ (keypair_block_run L host env p_private p_public).trace)
    (hr : r.status ≠ ippStsNoErr) :
    (sample_ecc256_create_key_pair L host env p_private p_public ecc_handle).status
      = switch_ecc r.status := by
  obtain ⟨evs, _, hR⟩ := keypair_decomp L host env p_private p_public ecc_handle hnn
  rw [hR]
  show switch_ecc _ = _
  rw [(keypair_block_summary L host env p_private p_public).1.call_status hm hr]

/-- A refused allocation in `sample_ecc256_compute_shared_dhkey`. -/
theorem dhkey_malloc_failed (L : IppLib) (env : Env) (p_private_b : Option (List Nat))
    (p_public_ga : Option sample_ec256_public_t) (p_shared_key : Option (List Nat))
    (ecc_handle : Option ipp_ec_state_handles_t) (b : Buf) (sz : Int)
    (hm : Event.malloc b sz false ∈ (sample_ecc256_compute_shared_dhkey L env p_private_b
      p_public_ga p_shared_key ecc_handle).trace) :
    (sample_ecc256_compute_shared_dhkey L env p_private_b p_public_ga p_shared_key
      ecc_handle).status = SAMPLE_ERROR_OUT_OF_MEMORY := by
  by_cases hnn : ecc_handle = none ∨ p_private_b = none ∨ p_public_ga = none
      ∨ p_shared_key = none
  · rw [dhkey_reject L env p_private_b p_public_ga p_shared_key ecc_handle hnn] at hm
    exact absurd hm (List.not_mem_nil _)
  · obtain ⟨evs, hevs, hR⟩ := dhkey_decomp L env p_private_b p_public_ga p_shared_key
      ecc_handle hnn
    obtain ⟨hsound, _, _, hinv⟩ := dhkey_block_summary L env p_private_b p_public_ga p_shared_key
    rw [hR] at hm ⊢
    have hin := malloc_of_append (fun e he => Or.inl (hevs e he)) hm
    have hres : ¬ (dhkey_block_run L env p_private_b p_public_ga p_shared_key).locals.ipp_result
        ≠ ippECValid := fun hne => absurd ((hinv hne).2 _ hin) Bool.false_ne_true
    show (if _ then _ else _) = _
    rw [if_neg hres]
    exact switch_ecc_of_alloc (hsound.alloc_refused hin)

/-- A failed call in the block of `sample_ecc256_compute_shared_dhkey`: the
verdict the point test left comes first, then the `switch` on the status. -/
theorem dhkey_call_failed (L : IppLib) (env : Env) (p_private_b : Option (List Nat))
    (p_public_ga : Option sample_ec256_public_t) (p_shared_key : Option (List Nat))
    (ecc_handle : Option ipp_ec_state_handles_t)
    (hnn : ¬ (ecc_handle = none ∨ p_private_b = none ∨ p_public_ga = none
      ∨ p_shared_key = none))
    (fn : IppFn) (args : List Val) (r : Resp)
    (hm : Event.call fn args r ∈
      (dhkey_block_run L env p_private_b p_public_ga p_shared_key).trace)
    (hr : r.status ≠ ippStsNoErr) :
    (sample_ecc256_compute_shared_dhkey L env p_private_b p_public_ga p_shared_key
      ecc_handle).status =
      if fn = .ippsGFpECTstPoint ∧ r.verdict ≠ ippECValid then SAMPLE_ERROR_INVALID_PARAMETER
      else switch_ecc r.status := by
  obtain ⟨evs, _, hR⟩ := dhkey_decomp L env p_private_b p_public_ga p_shared_key
    ecc_handle hnn
  obtain ⟨hsound, hgave, _, hinv⟩ :=
    dhkey_block_summary L env p_private_b p_public_ga p_shared_key
  rw [hR]
  show (if _ then _ else _) = _
  rw [hsound.call_status hm hr]
  by_cases hres : (dhkey_block_run L env p_private_b p_public_ga p_shared_key).locals.ipp_result
      ≠ ippECValid
  · rw [if_pos hres]
    rcases ((hinv hres).2 _ hm).2 with h1 | h1
    · rw [if_pos ⟨h1, by rw [hgave _ hm h1]; exact hres⟩]
    · exact absurd h1 hr
  · rw [if_neg hres, if_neg]
    rintro ⟨h1, h2⟩
    exact hres (by rw [← hgave _ hm h1]; exact h2)

/-- A refused allocation in `sample_ecdsa_sign`. -/
theorem sign_malloc_failed (L : IppLib) (host : ByteOrder) (env : Env) (fuel : Nat)
    (p_data : Option (List Nat)) (data_size : Nat) (p_private : Option (List Nat))
    (p_signature : Option sample_ec256_signature_t)
    (ecc_handle : Option ipp_ec_state_handles_t) (R : Ret (Option sample_ec256_signature_t))
    (hR : sample_ecdsa_sign L host env fuel p_data data_size p_private p_signature ecc_handle
      = some R) (b : Buf) (sz : Int) (hm : Event.malloc b sz false ∈ R.trace) :
    R.status = SAMPLE_ERROR_OUT_OF_MEMORY := by
  by_cases hnn : ecc_handle = none ∨ p_private = none ∨ p_signature = none ∨ p_data = none
      ∨ data_size < 1
  · unfold sample_ecdsa_sign at hR
    rw [if_pos hnn, Option.some.injEq] at hR
    rw [← hR] at hm
    exact absurd hm (List.not_mem_nil _)
  · obtain ⟨hnone, hsome⟩ := sign_decomp L host env fuel p_data data_size p_private
      p_signature ecc_handle hnn
    rcases hb : sign_block_run L host env fuel p_data data_size p_private p_signature
      with _ | s
    · rw [hnone hb] at hR
      exact absurd hR (by simp only [reduceCtorEq, not_false_eq_true])
    · obtain ⟨evs, hevs, hS⟩ := hsome s hb
      rw [hS, Option.some.injEq] at hR
      rw [← hR] at hm ⊢
      exact switch_ecc_of_alloc ((sign_block_sound L host env fuel p_data data_size p_private
        p_signature s hb).alloc_refused (malloc_of_append (fun e he => Or.inl (hevs e he)) hm))

/-- A failed call in the outer block of `sample_ecdsa_sign`. -/
theorem sign_call_failed (L : IppLib) (host : ByteOrder) (env : Env) (fuel : Nat)
    (p_data : Option (List Nat)) (data_size : Nat) (p_private : Option (List Nat))
    (p_signature : Option sample_ec256_signature_t)
    (ecc_handle : Option ipp_ec_state_handles_t)
    (hnn : ¬ (ecc_handle = none ∨ p_private = none ∨ p_signature = none ∨ p_data = none
      ∨ data_size < 1))
    (s : Machine sign_locals)
    (hb : sign_block_run L host env fuel p_data data_size p_private p_signature = some s)
    (fn : IppFn) (args : List Val) (r : Resp) (hm : Event.call fn args r ∈ s.trace)
    (hr : r.status ≠ ippStsNoErr) :
    ∃ R, sample_ecdsa_sign L host env fuel p_data data_size p_private p_signature ecc_handle
        = some R ∧ R.status = switch_ecc r.status := by
  obtain ⟨evs, _, hS⟩ := (sign_decomp L host env fuel p_data data_size p_private
      p_signature ecc_handle hnn).2 s hb
  refine ⟨_, hS, ?_⟩
  show switch_ecc _ = _
  rw [(sign_block_sound L host env fuel p_data data_size p_private p_signature s
    hb).call_status hm hr]

/-- When an allocation is refused before the inner loop of `sample_ecdsa_sign`,
the function returns, whatever the number of iterations allowed. -/
theorem sign_returns_of_early_malloc (L : IppLib) (host : ByteOrder) (env : Env) (fuel : Nat)
    (p_data : Option (List Nat)) (data_size : Nat) (p_private : Option (List Nat))
    (p_signature : Option sample_ec256_signature_t)
    (ecc_handle : Option ipp_ec_state_handles_t)
    (hnn : ¬ (ecc_handle = none ∨ p_private = none ∨ p_signature = none ∨ p_data = none
      ∨ data_size < 1))
    (e : Event) (he : e ∈ (sign_before_run L host env p_data data_size p_private
      p_signature).2.trace) (hfail : ¬ e.explainedBy ippStsNoErr) :
    ∃ R, sample_ecdsa_sign L host env fuel p_data data_size p_private p_signature ecc_handle
        = some R ∧ e ∈ R.trace := by
  have hb := sign_block_of_break L host env fuel p_data data_size p_private p_signature
    (fun hC => hfail (hC e he))
  obtain ⟨evs, _, hS⟩ := (sign_decomp L host env fuel p_data data_size p_private
      p_signature ecc_handle hnn).2 _ hb
  exact ⟨_, hS, List.mem_append_left _ he⟩

/-! ## C7: refused allocations -/

/-- C7: in each of the seven operations that allocate (AES-GCM encryption,
AES-CMAC, opening the ECC context, key-pair generation, ECDH, ECDSA signing,
SHA-256 init), a run in which an allocation is refused (`malloc` returns null)
returns `SAMPLE_ERROR_OUT_OF_MEMORY`.  For `sample_ecdsa_sign` this holds of
every run that returns, and a run in which an allocation before the inner loop
is refused does return. -/
theorem allocation_failure_out_of_memory :
    (∀ (L : IppLib) (env : Env) (p_key p_src p_dst p_iv p_aad p_out_mac : Option (List Nat))
        (src_len iv_len aad_len : Nat) (b : Buf) (sz : Int),
      Event.malloc b sz false ∈ (sample_rijndael128GCM_encrypt L env p_key p_src src_len p_dst
          p_iv iv_len p_aad aad_len p_out_mac).trace →
      (sample_rijndael128GCM_encrypt L env p_key p_src src_len p_dst p_iv iv_len p_aad aad_len
          p_out_mac).status = SAMPLE_ERROR_OUT_OF_MEMORY) ∧
    (∀ (L : IppLib) (env : Env) (p_key p_src p_mac : Option (List Nat)) (src_len : Nat)
        (b : Buf) (sz : Int),
      Event.malloc b sz false ∈ (sample_rijndael128_cmac_msg L env p_key p_src src_len
          p_mac).trace →
      (sample_rijndael128_cmac_msg L env p_key p_src src_len p_mac).status
        = SAMPLE_ERROR_OUT_OF_MEMORY) ∧
    (∀ (env : Env) (ecc_handle : Option (Option ipp_ec_state_handles_t)) (b : Buf) (sz : Int),
      Event.malloc b sz false ∈ (sample_ecc256_open_context env ecc_handle).trace →
      (sample_ecc256_open_context env ecc_handle).status = SAMPLE_ERROR_OUT_OF_MEMORY) ∧
    (∀ (L : IppLib) (host : ByteOrder) (env : Env) (p_private : Option (List Nat))
        (p_public : Option sample_ec256_public_t) (ecc_handle : Option ipp_ec_state_handles_t)
        (b : Buf) (sz : Int),
      Event.malloc b sz false ∈
        (sample_ecc256_create_key_pair L host env p_private p_public ecc_handle).trace →
      (sample_ecc256_create_key_pair L host env p_private p_public ecc_handle).status
        = SAMPLE_ERROR_OUT_OF_MEMORY) ∧
    (∀ (L : IppLib) (env : Env) (p_private_b : Option (List Nat))
        (p_public_ga : Option sample_ec256_public_t) (p_shared_key : Option (List Nat))
        (ecc_handle : Option ipp_ec_state_handles_t) (b : Buf) (sz : Int),
      Event.malloc b sz false ∈ (sample_ecc256_compute_shared_dhkey L env p_private_b
          p_public_ga p_shared_key ecc_handle).trace →
      (sample_ecc256_compute_shared_dhkey L env p_private_b p_public_ga p_shared_key
          ecc_handle).status = SAMPLE_ERROR_OUT_OF_MEMORY) ∧
    (∀ (L : IppLib) (host : ByteOrder) (env : Env) (fuel : Nat) (p_data : Option (List Nat))
        (data_size : Nat) (p_private : Option (List Nat))
        (p_signature : Option sample_ec256_signature_t)
        (ecc_handle : Option ipp_ec_state_handles_t)
        (R : Ret (Option sample_ec256_signature_t)) (b : Buf) (sz : Int),
      sample_ecdsa_sign L host env fuel p_data data_size p_private p_signature ecc_handle
        = some R →
      Event.malloc b sz false ∈ R.trace → R.status = SAMPLE_ERROR_OUT_OF_MEMORY) ∧
    (∀ (L : IppLib) (host : ByteOrder) (env : Env) (fuel : Nat) (p_data : Option (List Nat))
        (data_size : Nat) (p_private : Option (List Nat))
        (p_signature : Option sample_ec256_signature_t)
        (ecc_handle : Option ipp_ec_state_handles_t) (b : Buf) (sz : Int),
      ¬ (ecc_handle = none ∨ p_private = none ∨ p_signature = none ∨ p_data = none
        ∨ data_size < 1) →
      Event.malloc b sz false ∈
        (sign_before_run L host env p_data data_size p_private p_signature).2.trace →
      ∃ R, sample_ecdsa_sign L host env fuel p_data data_size p_private p_signature ecc_handle
          = some R ∧ R.status = SAMPLE_ERROR_OUT_OF_MEMORY) ∧
    (∀ (L : IppLib) (env : Env) (p_sha_handle : Option (Option sha_state)) (b : Buf) (sz : Int),
      Event.malloc b sz false ∈ (sample_sha256_init L env p_sha_handle).trace →
      (sample_sha256_init L env p_sha_handle).status = SAMPLE_ERROR_OUT_OF_MEMORY) := by
  refine ⟨?_, ?_, ?_, ?_, ?_, ?_, ?_, ?_⟩
  · intro L env p_key p_src p_dst p_iv p_aad p_out_mac src_len iv_len aad_len b sz hm
    exact (gcm_mapped L env p_key p_src p_dst p_iv p_aad p_out_mac src_len iv_len
      aad_len).alloc_oom hm
  · intro L env p_key p_src p_mac src_len b sz hm
    exact (cmac_mapped L env p_key p_src p_mac src_len).alloc_oom hm
  · intro env ecc_handle b sz hm
    exact open_malloc_failed env ecc_handle b sz hm
  · intro L host env p_private p_public ecc_handle b sz hm
    exact keypair_malloc_failed L host env p_private p_public ecc_handle b sz hm
  · intro L env p_private_b p_public_ga p_shared_key ecc_handle b sz hm
    exact dhkey_malloc_failed L env p_private_b p_public_ga p_shared_key ecc_handle b sz hm
  · intro L host env fuel p_data data_size p_private p_signature ecc_handle R b sz hR hm
    exact sign_malloc_failed L host env fuel p_data data_size p_private p_signature ecc_handle
      R hR b sz hm
  · intro L host env fuel p_data data_size p_private p_signature ecc_handle b sz hnn hm
    obtain ⟨R, hR, hin⟩ := sign_returns_of_early_malloc L host env fuel p_data data_size
      p_private p_signature ecc_handle hnn _ hm
      (fun h => by
        rcases h with h | h | h
        · exact absurd h Bool.false_ne_true
        · exact absurd h (by decide)
        · exact absurd h (by decide))
    exact ⟨R, hR, sign_malloc_failed L host env fuel p_data data_size p_private p_signature
      ecc_handle R hR b sz hin⟩
  · intro L env p_sha_handle b sz hm
    exact (sha256_init_mapped L env p_sha_handle).alloc_oom hm

/-- Witness of C7: the allocation of the state of AES-GCM is refused; the second
allocation of `sample_ecc256_open_context` is refused; the allocation of the
first big number of the key-pair, ECDH and signing functions is refused. -/
theorem allocation_failure_out_of_memory_witness :
    (sample_rijndael128GCM_encrypt sampleLib (env_at 1 ⟨ippStsNoErr, 64, ippECValid, false⟩)
        (some sample_key) (some [1, 2]) 2 (some [0, 0]) (some (List.replicate 12 7)) 12
        (some [5]) 1 (some (List.replicate 16 0))).status = SAMPLE_ERROR_OUT_OF_MEMORY ∧
    (sample_ecc256_open_context (env_at 4 ⟨ippStsNoErr, 64, ippECValid, false⟩)
        (some none)).status = SAMPLE_ERROR_OUT_OF_MEMORY ∧
    (sample_ecc256_create_key_pair sampleLib .little
        (env_at 1 ⟨ippStsNoErr, 64, ippECValid, false⟩) (some (sample_field 1))
        (some ⟨sample_field 2, sample_field 3⟩) (some sample_handle)).status
      = SAMPLE_ERROR_OUT_OF_MEMORY ∧
    (sample_ecc256_compute_shared_dhkey sampleLib
        (env_at 1 ⟨ippStsNoErr, 64, ippECValid, false⟩) (some (sample_field 1))
        (some ⟨sample_field 2, sample_field 3⟩) (some (sample_field 4))
        (some sample_handle)).status = SAMPLE_ERROR_OUT_OF_MEMORY ∧
    (∃ R, sample_ecdsa_sign sampleLib .little (env_at 1 ⟨ippStsNoErr, 64, ippECValid, false⟩)
        0 (some [1, 2, 3]) 3 (some (sample_field 1)) (some ⟨sample_field 0, sample_field 0⟩)
        (some sample_handle) = some R ∧ R.status = SAMPLE_ERROR_OUT_OF_MEMORY) :=
  ⟨allocation_failure_out_of_memory.1 _ _ _ _ _ _ _ _ _ _ _ .pState 64 (by decide),
    allocation_failure_out_of_memory.2.2.1 _ _ .ec_state 64 (by decide),
    allocation_failure_out_of_memory.2.2.2.1 _ _ _ _ _ _ .dh_priv_bn 64 (by decide),
    allocation_failure_out_of_memory.2.2.2.2.1 _ _ _ _ _ _ .bn_dh_priv_b 64 (by decide),
    allocation_failure_out_of_memory.2.2.2.2.2.2.1 _ _ _ _ _ _ _ _ _ .p_ecp_order 64
      (by decide) (by decide)⟩

/-! ## C8: failed sizing queries -/

/-- C8, as stated, fails: the sizing query `ippsAES_GCMGetSize` of AES-GCM
encryption reports `ippStsErr`, and the function returns
`SAMPLE_ERROR_UNEXPECTED`, not `SAMPLE_ERROR_OUT_OF_MEMORY`. -/
theorem sizing_failure_counterexample :
    Event.call .ippsAES_GCMGetSize [] ⟨ippStsErr, 0, ippECValid, true⟩ ∈
      (sample_rijndael128GCM_encrypt sampleLib (env_at 0 ⟨ippStsErr, 0, ippECValid, true⟩)
        (some sample_key) (some [1, 2]) 2 (some [0, 0]) (some (List.replicate 12 7)) 12
        (some [5]) 1 (some (List.replicate 16 0))).trace ∧
    (sample_rijndael128GCM_encrypt sampleLib (env_at 0 ⟨ippStsErr, 0, ippECValid, true⟩)
        (some sample_key) (some [1, 2]) 2 (some [0, 0]) (some (List.replicate 12 7)) 12
        (some [5]) 1 (some (List.replicate 16 0))).status = SAMPLE_ERROR_UNEXPECTED ∧
    SAMPLE_ERROR_UNEXPECTED ≠ SAMPLE_ERROR_OUT_OF_MEMORY := by
  decide

/-- C8 (amended): when a sizing query of the library reports a status `st` other
than `ippStsNoErr`: AES-GCM encryption (`ippsAES_GCMGetSize`), AES-CMAC
(`ippsAES_CMACGetSize`) and SHA-256 init (`ippsHashGetSize_rmf`) return
`SAMPLE_ERROR_UNEXPECTED`; `sample_ecc256_open_context`, for a query in its
`do { } while (0)` block, returns what its `switch` maps `st` to; key-pair
generation, ECDH and ECDSA signing, for a query in their block, return what
their `switch` maps `st` to; and `sample_ecc256_close_context` returns
`SAMPLE_SUCCESS`.  The two `switch` statements give
`SAMPLE_ERROR_OUT_OF_MEMORY` exactly for `ippStsNoMemErr` and
`ippStsMemAllocErr`. -/
theorem sizing_failure_status :
    (∀ (L : IppLib) (env : Env) (p_key p_src p_dst p_iv p_aad p_out_mac : Option (List Nat))
        (src_len iv_len aad_len : Nat) (args : List Val) (r : Resp),
      Event.call .ippsAES_GCMGetSize args r ∈ (sample_rijndael128GCM_encrypt L env p_key p_src
          src_len p_dst p_iv iv_len p_aad aad_len p_out_mac).trace →
      r.status ≠ ippStsNoErr →
      (sample_rijndael128GCM_encrypt L env p_key p_src src_len p_dst p_iv iv_len p_aad aad_len
          p_out_mac).status = SAMPLE_ERROR_UNEXPECTED) ∧
    (∀ (L : IppLib) (env : Env) (p_key p_src p_mac : Option (List Nat)) (src_len : Nat)
        (args : List Val) (r : Resp),
      Event.call .ippsAES_CMACGetSize args r ∈ (sample_rijndael128_cmac_msg L env p_key p_src
          src_len p_mac).trace →
      r.status ≠ ippStsNoErr →
      (sample_rijndael128_cmac_msg L env p_key p_src src_len p_mac).status
        = SAMPLE_ERROR_UNEXPECTED) ∧
    (∀ (L : IppLib) (env : Env) (p_sha_handle : Option (Option sha_state))
        (args : List Val) (r : Resp),
      Event.call .ippsHashGetSize_rmf args r ∈ (sample_sha256_init L env p_sha_handle).trace →
      r.status ≠ ippStsNoErr →
      (sample_sha256_init L env p_sha_handle).status = SAMPLE_ERROR_UNEXPECTED) ∧
    (∀ (env : Env) (h : Option ipp_ec_state_handles_t) (fn : IppFn) (args : List Val)
        (r : Resp),
      Event.call fn args r ∈ (open_block_run env (some h)).trace → fn.isSizing = true →
      r.status ≠ ippStsNoErr →
      (sample_ecc256_open_context env (some h)).status = switch_open r.status) ∧
    (∀ (L : IppLib) (host : ByteOrder) (env : Env) (p_private : List Nat)
        (p_public : sample_ec256_public_t) (ecc_handle : ipp_ec_state_handles_t)
        (fn : IppFn) (args : List Val) (r : Resp),
      Event.call fn args r ∈
        (keypair_block_run L host env (some p_private) (some p_public)).trace →
      fn.isSizing = true → r.status ≠ ippStsNoErr →
      (sample_ecc256_create_key_pair L host env (some p_private) (some p_public)
        (some ecc_handle)).status = switch_ecc r.status) ∧
    (∀ (L : IppLib) (env : Env) (p_private_b : List Nat) (p_public_ga : sample_ec256_public_t)
        (p_shared_key : List Nat) (ecc_handle : ipp_ec_state_handles_t)
        (fn : IppFn) (args : List Val) (r : Resp),
      Event.call fn args r ∈
        (dhkey_block_run L env (some p_private_b) (some p_public_ga) (some p_shared_key)).trace →
      fn.isSizing = true → r.status ≠ ippStsNoErr →
      (sample_ecc256_compute_shared_dhkey L env (some p_private_b) (some p_public_ga)
        (some p_shared_key) (some ecc_handle)).status = switch_ecc r.status) ∧
    (∀ (L : IppLib) (host : ByteOrder) (env : Env) (fuel : Nat) (p_data : List Nat)
        (data_size : Nat) (p_private : List Nat) (p_signature : sample_ec256_signature_t)
        (ecc_handle : ipp_ec_state_handles_t) (s : Machine sign_locals)
        (fn : IppFn) (args : List Val) (r : Resp),
      ¬ data_size < 1 →
      sign_block_run L host env fuel (some p_data) data_size (some p_private)
        (some p_signature) = some s →
      Event.call fn args r ∈ s.trace → fn.isSizing = true → r.status ≠ ippStsNoErr →
      ∃ R, sample_ecdsa_sign L host env fuel (some p_data) data_size (some p_private)
          (some p_signature) (some ecc_handle) = some R ∧ R.status = switch_ecc r.status) ∧
    (∀ (env : Env) (h : ipp_ec_state_handles_t),
      (sample_ecc256_close_context env (some h)).status = SAMPLE_SUCCESS) ∧
    (∀ st, switch_open st = SAMPLE_ERROR_OUT_OF_MEMORY ↔
      st = ippStsNoMemErr ∨ st = ippStsMemAllocErr) ∧
    (∀ st, switch_ecc st = SAMPLE_ERROR_OUT_OF_MEMORY ↔
      st = ippStsNoMemErr ∨ st = ippStsMemAllocErr) := by
  refine ⟨?_, ?_, ?_, ?_, ?_, ?_, ?_, close_context_status, ?_, ?_⟩
  · intro L env p_key p_src p_dst p_iv p_aad p_out_mac src_len iv_len aad_len args r hm hr
    exact (gcm_mapped L env p_key p_src p_dst p_iv p_aad p_out_mac src_len iv_len
      aad_len).call_mapped hm hr
  · intro L env p_key p_src p_mac src_len args r hm hr
    exact (cmac_mapped L env p_key p_src p_mac src_len).call_mapped hm hr
  · intro L env p_sha_handle args r hm hr
    exact (sha256_init_mapped L env p_sha_handle).call_mapped hm hr
  · intro env h fn args r hm _ hr
    exact open_call_failed env h fn args r hm hr
  · intro L host env p_private p_public ecc_handle fn args r hm _ hr
    exact keypair_call_failed L host env _ _ (some ecc_handle)
      (by simp only [reduceCtorEq, or_self, not_false_eq_true]) fn args r hm hr
  · intro L env p_private_b p_public_ga p_shared_key ecc_handle fn args r hm hs hr
    rw [dhkey_call_failed L env _ _ _ (some ecc_handle)
      (by simp only [reduceCtorEq, or_self, not_false_eq_true]) fn args r hm hr]
    refine if_neg fun h => ?_
    rw [h.1] at hs
    exact absurd hs (by decide)
  · intro L host env fuel p_data data_size p_private p_signature ecc_handle s fn args r hd hb
      hm _ hr
    exact sign_call_failed L host env fuel _ data_size _ _ (some ecc_handle)
      (by simp only [reduceCtorEq, false_or, hd, not_false_eq_true]) s hb fn args r hm hr
  · intro st
    cases st <;> simp [switch_open]
  · intro st
    cases st <;> simp [switch_ecc]

/-- Witness of C8 (amended): the sizing query of AES-GCM encryption reports
`ippStsErr`; the first sizing query of key-pair generation reports
`ippStsNoMemErr`. -/
theorem sizing_failure_status_witness :
    (sample_rijndael128GCM_encrypt sampleLib (env_at 0 ⟨ippStsErr, 0, ippECValid, true⟩)
        (some sample_key) (some [1, 2]) 2 (some [0, 0]) (some (List.replicate 12 7)) 12
        (some [5]) 1 (some (List.replicate 16 0))).status = SAMPLE_ERROR_UNEXPECTED ∧
    (sample_ecc256_create_key_pair sampleLib .little
        (env_at 0 ⟨ippStsNoMemErr, 0, ippECValid, true⟩) (some (sample_field 1))
        (some ⟨sample_field 2, sample_field 3⟩) (some sample_handle)).status
      = switch_ecc ippStsNoMemErr :=
  ⟨sizing_failure_status.1 _ _ _ _ _ _ _ _ _ _ _ [] ⟨ippStsErr, 0, ippECValid, true⟩
      (by decide) (by decide),
    sizing_failure_status.2.2.2.2.1 sampleLib .little
      (env_at 0 ⟨ippStsNoMemErr, 0, ippECValid, true⟩) (sample_field 1)
      ⟨sample_field 2, sample_field 3⟩ sample_handle .ippsBigNumGetSize [.int 8]
      ⟨ippStsNoMemErr, 0, ippECValid, true⟩ (by decide) (by decide) (by decide)⟩

/-! ## C9: failed calls other than sizing queries -/

/-- C9, as stated, fails: in `sample_ecc256_open_context` the call of
`ippsGFpInit` reports `ippStsNullPtrErr`, and the function returns
`SAMPLE_ERROR_UNEXPECTED`, not `SAMPLE_ERROR_INVALID_PARAMETER`. -/
theorem call_failure_counterexample :
    Event.call .ippsGFpInit [.int ECC_FIELD_SIZE] ⟨ippStsNullPtrErr, 0, ippECValid, true⟩ ∈
      (sample_ecc256_open_context (env_at 2 ⟨ippStsNullPtrErr, 0, ippECValid, true⟩)
        (some none)).trace ∧
    (sample_ecc256_open_context (env_at 2 ⟨ippStsNullPtrErr, 0, ippECValid, true⟩)
        (some none)).status = SAMPLE_ERROR_UNEXPECTED ∧
    SAMPLE_ERROR_UNEXPECTED ≠ SAMPLE_ERROR_INVALID_PARAMETER := by
  decide

/-- C9 (amended): when a library call other than a sizing query reports a status
`st` other than `ippStsNoErr`, the operation returns what the `switch` that
follows the call maps `st` to, and the `switch` statements differ: AES-GCM
encryption, AES-CMAC and SHA-256 init return `status_after fn st`
(`switch_init` after the two init calls, `switch_null` after
`ippsAES_GCMEncrypt`, `switch_null_length` after the other calls); SHA-256
update and get-hash return `switch_sha st`; `sample_ecc256_open_context`
returns `switch_open st`, which is never `SAMPLE_ERROR_INVALID_PARAMETER`;
key-pair generation and ECDSA signing return `switch_ecc st`; ECDH returns
`switch_ecc st`, except that it returns `SAMPLE_ERROR_INVALID_PARAMETER` when
the failing call is the point test and it left a verdict other than
`ippECValid`. -/
theorem call_failure_status :
    (∀ (L : IppLib) (env : Env) (p_key p_src p_dst p_iv p_aad p_out_mac : Option (List Nat))
        (src_len iv_len aad_len : Nat) (fn : IppFn) (args : List Val) (r : Resp),
      Event.call fn args r ∈ (sample_rijndael128GCM_encrypt L env p_key p_src
          src_len p_dst p_iv iv_len p_aad aad_len p_out_mac).trace →
      fn.isSizing = false → r.status ≠ ippStsNoErr →
      (sample_rijndael128GCM_encrypt L env p_key p_src src_len p_dst p_iv iv_len p_aad aad_len
          p_out_mac).status = status_after fn r.status) ∧
    (∀ (L : IppLib) (env : Env) (p_key p_src p_mac : Option (List Nat)) (src_len : Nat)
        (fn : IppFn) (args : List Val) (r : Resp),
      Event.call fn args r ∈ (sample_rijndael128_cmac_msg L env p_key p_src
          src_len p_mac).trace →
      fn.isSizing = false → r.status ≠ ippStsNoErr →
      (sample_rijndael128_cmac_msg L env p_key p_src src_len p_mac).status
        = status_after fn r.status) ∧
    (∀ (L : IppLib) (env : Env) (p_sha_handle : Option (Option sha_state))
        (fn : IppFn) (args : List Val) (r : Resp),
      Event.call fn args r ∈ (sample_sha256_init L env p_sha_handle).trace →
      fn.isSizing = false → r.status ≠ ippStsNoErr →
      (sample_sha256_init L env p_sha_handle).status = status_after fn r.status) ∧
    (∀ (L : IppLib) (env : Env) (p_src : Option (List Nat)) (src_len : Nat)
        (sha_handle : Option sha_state) (fn : IppFn) (args : List Val) (r : Resp),
      Event.call fn args r ∈ (sample_sha256_update L env p_src src_len sha_handle).trace →
      (sample_sha256_update L env p_src src_len sha_handle).status = switch_sha r.status) ∧
    (∀ (L : IppLib) (env : Env) (sha_handle : Option sha_state) (p_hash : Option (List Nat))
        (fn : IppFn) (args : List Val) (r : Resp),
      Event.call fn args r ∈ (sample_sha256_get_hash L env sha_handle p_hash).trace →
      (sample_sha256_get_hash L env sha_handle p_hash).status = switch_sha r.status) ∧
    (∀ (env : Env) (h : Option ipp_ec_state_handles_t) (fn : IppFn) (args : List Val)
        (r : Resp),
      Event.call fn args r ∈ (open_block_run env (some h)).trace → fn.isSizing = false →
      r.status ≠ ippStsNoErr →
      (sample_ecc256_open_context env (some h)).status = switch_open r.status) ∧
    (∀ (L : IppLib) (host : ByteOrder) (env : Env) (p_private : List Nat)
        (p_public : sample_ec256_public_t) (ecc_handle : ipp_ec_state_handles_t)
        (fn : IppFn) (args : List Val) (r : Resp),
      Event.call fn args r ∈
        (keypair_block_run L host env (some p_private) (some p_public)).trace →
      fn.isSizing = false → r.status ≠ ippStsNoErr →
      (sample_ecc256_create_key_pair L host env (some p_private) (some p_public)
        (some ecc_handle)).status = switch_ecc r.status) ∧
    (∀ (L : IppLib) (env : Env) (p_private_b : List Nat) (p_public_ga : sample_ec256_public_t)
        (p_shared_key : List Nat) (ecc_handle : ipp_ec_state_handles_t)
        (fn : IppFn) (args : List Val) (r : Resp),
      Event.call fn args r ∈
        (dhkey_block_run L env (some p_private_b) (some p_public_ga) (some p_shared_key)).trace →
      fn.isSizing = false → r.status ≠ ippStsNoErr →
      (sample_ecc256_compute_shared_dhkey L env (some p_private_b) (some p_public_ga)
        (some p_shared_key) (some ecc_handle)).status =
        if fn = .ippsGFpECTstPoint ∧ r.verdict ≠ ippECValid then SAMPLE_ERROR_INVALID_PARAMETER
        else switch_ecc r.status) ∧
    (∀ (L : IppLib) (host : ByteOrder) (env : Env) (fuel : Nat) (p_data : List Nat)
        (data_size : Nat) (p_private : List Nat) (p_signature : sample_ec256_signature_t)
        (ecc_handle : ipp_ec_state_handles_t) (s : Machine sign_locals)
        (fn : IppFn) (args : List Val) (r : Resp),
      ¬ data_size < 1 →
      sign_block_run L host env fuel (some p_data) data_size (some p_private)
        (some p_signature) = some s →
      Event.call fn args r ∈ s.trace → fn.isSizing = false → r.status ≠ ippStsNoErr →
      ∃ R, sample_ecdsa_sign L host env fuel (some p_data) data_size (some p_private)
          (some p_signature) (some ecc_handle) = some R ∧ R.status = switch_ecc r.status) ∧
    (∀ st, switch_open st ≠ SAMPLE_ERROR_INVALID_PARAMETER) := by
  refine ⟨?_, ?_, ?_, ?_, ?_, ?_, ?_, ?_, ?_, ?_⟩
  · intro L env p_key p_src p_dst p_iv p_aad p_out_mac src_len iv_len aad_len fn args r hm _ hr
    exact (gcm_mapped L env p_key p_src p_dst p_iv p_aad p_out_mac src_len iv_len
      aad_len).call_mapped hm hr
  · intro L env p_key p_src p_mac src_len fn args r hm _ hr
    exact (cmac_mapped L env p_key p_src p_mac src_len).call_mapped hm hr
  · intro L env p_sha_handle fn args r hm _ hr
    exact (sha256_init_mapped L env p_sha_handle).call_mapped hm hr
  · intro L env p_src src_len sha_handle fn args r hm
    by_cases hnn : p_src = none ∨ sha_handle = none
    · unfold sample_sha256_update at hm
      rw [run_reject _ _ _ _ _ _ hnn] at hm
      exact absurd hm (List.not_mem_nil _)
    · obtain ⟨src, rfl⟩ := Option.ne_none_iff_exists'.mp (fun h => hnn (Or.inl h))
      obtain ⟨h, rfl⟩ := Option.ne_none_iff_exists'.mp (fun h => hnn (Or.inr h))
      obtain ⟨h1, h2⟩ := sha256_update_run L env src src_len h
      rw [h2, List.mem_singleton] at hm
      rw [h1]
      cases hm
      rfl
  · intro L env sha_handle p_hash fn args r hm
    by_cases hnn : sha_handle = none ∨ p_hash = none
    · unfold sample_sha256_get_hash at hm
      rw [run_reject _ _ _ _ _ _ hnn] at hm
      exact absurd hm (List.not_mem_nil _)
    · obtain ⟨h, rfl⟩ := Option.ne_none_iff_exists'.mp (fun h => hnn (Or.inl h))
      obtain ⟨hash, rfl⟩ := Option.ne_none_iff_exists'.mp (fun h => hnn (Or.inr h))
      obtain ⟨h1, h2⟩ := sha256_get_hash_run L env h hash
      rw [h2, List.mem_singleton] at hm
      rw [h1]
      cases hm
      rfl
  · intro env h fn args r hm _ hr
    exact open_call_failed env h fn args r hm hr
  · intro L host env p_private p_public ecc_handle fn args r hm _ hr
    exact keypair_call_failed L host env _ _ (some ecc_handle)
      (by simp only [reduceCtorEq, or_self, not_false_eq_true]) fn args r hm hr
  · intro L env p_private_b p_public_ga p_shared_key ecc_handle fn args r hm _ hr
    exact dhkey_call_failed L env _ _ _ (some ecc_handle)
      (by simp only [reduceCtorEq, or_self, not_false_eq_true]) fn args r hm hr
  · intro L host env fuel p_data data_size p_private p_signature ecc_handle s fn args r hd hb
      hm _ hr
    exact sign_call_failed L host env fuel _ data_size _ _ (some ecc_handle)
      (by simp only [reduceCtorEq, false_or, hd, not_false_eq_true]) s hb fn args r hm hr
  · intro st
    cases st <;> simp [switch_open]

/-- Witness of C9 (amended): `ippsGFpInit` reports `ippStsNullPtrErr` in
`sample_ecc256_open_context`; `ippsAES_GCMStart` reports `ippStsLengthErr` in
AES-GCM encryption. -/
theorem call_failure_status_witness :
    (sample_ecc256_open_context (env_at 2 ⟨ippStsNullPtrErr, 0, ippECValid, true⟩)
        (some none)).status = switch_open ippStsNullPtrErr ∧
    (sample_rijndael128GCM_encrypt sampleLib
        (env_at 3 ⟨ippStsLengthErr, 0, ippECValid, true⟩)
        (some sample_key) (some [1, 2]) 2 (some [0, 0]) (some (List.replicate 12 7)) 12
        (some [5]) 1 (some (List.replicate 16 0))).status
      = status_after .ippsAES_GCMStart ippStsLengthErr :=
  ⟨call_failure_status.2.2.2.2.2.1 (env_at 2 ⟨ippStsNullPtrErr, 0, ippECValid, true⟩) none
      .ippsGFpInit [.int ECC_FIELD_SIZE] ⟨ippStsNullPtrErr, 0, ippECValid, true⟩
      (by decide) (by decide) (by decide),
    call_failure_status.1 sampleLib (env_at 3 ⟨ippStsLengthErr, 0, ippECValid, true⟩)
      (some sample_key) (some [1, 2]) (some [0, 0]) (some (List.replicate 12 7))
      (some [5]) (some (List.replicate 16 0)) 2 12 1 .ippsAES_GCMStart
      [.bytes (List.replicate 12 7), .bytes [5]] ⟨ippStsLengthErr, 0, ippECValid, true⟩
      (by decide) (by decide) (by decide)⟩

/-! ## C10: zeroing before release -/

/-- C10, as stated, fails: `sample_sha256_close` on a handle that is not null
returns `SAMPLE_SUCCESS` after a single event, the `free` of the state; nothing
is written to the buffer before it is released. -/
theorem close_zeroes_counterexample :
    (sample_sha256_close (some ⟨.caller 0, [1, 2, 3]⟩)).status = SAMPLE_SUCCESS ∧
    (sample_sha256_close (some ⟨.caller 0, [1, 2, 3]⟩)).trace = [Event.free (.caller 0)] := by
  decide

/-- C10 (amended): `sample_ecc256_close_context`, on a handle whose two state
pointers are not null, returns `SAMPLE_SUCCESS` after these events, in this
order: the sizing query `ippsGFpECGetSize`; a `memset_s` with zeros over the
reported size of the curve state, only when the query reported `ippStsNoErr`
and a positive size; the `free` of the curve state; the same for the field
state with `ippsGFpGetSize`; and the `free` of the handle structure, which is
not zeroed.  With both state pointers null only the handle structure is freed.
`sample_sha256_close` frees the hash state without zeroing it and returns
`SAMPLE_SUCCESS`. -/
theorem close_zeroing :
    (∀ (env : Env) (addr gfp ec : Buf),
      sample_ecc256_close_context env (some ⟨addr, some gfp, some ec⟩) =
        ⟨SAMPLE_SUCCESS, (),
          [Event.call .ippsGFpECGetSize [] (env 0)] ++
          (if (env 0).status = ippStsNoErr ∧ (env 0).size > 0 then
            [Event.memset_s ec (to_size_t (env 0).size) 0 (to_size_t (env 0).size)]
           else []) ++
          [Event.free ec, Event.call .ippsGFpGetSize [.int ECC_FIELD_SIZE] (env 1)] ++
          (if (env 1).status = ippStsNoErr ∧ (env 1).size > 0 then
            [Event.memset_s gfp (to_size_t (env 1).size) 0 (to_size_t (env 1).size)]
           else []) ++
          [Event.free gfp, Event.free addr]⟩) ∧
    (∀ (env : Env) (addr : Buf),
      sample_ecc256_close_context env (some ⟨addr, none, none⟩) =
        ⟨SAMPLE_SUCCESS, (), [Event.free addr]⟩) ∧
    (∀ st : sha_state,
      sample_sha256_close (some st) = ⟨SAMPLE_SUCCESS, (), [Event.free st.addr]⟩) := by
  refine ⟨fun env addr gfp ec => ?_, fun env addr => rfl, fun st => rfl⟩
  unfold sample_ecc256_close_context
  refine (run_wp (fun R : Ret Unit => R = _) _ _ _ _).mpr ?_
  simp only [entry, wp_bind, wp_pure, wp_ipp, wp_ite, wp_emit, CLEAR_FREE_MEM, zero_add]
  by_cases h0 : (env 0).status = ippStsNoErr <;> by_cases h1 : (env 1).status = ippStsNoErr <;>
    by_cases z0 : (env 0).size > 0 <;> by_cases z1 : (env 1).size > 0 <;>
    simp [h0, h1, z0, z1, wp_bind, wp_pure, wp_emit, ret_of]

/-! ## `ROUND_TO(length, 8) / 8` -/

/-- Masking a 32-bit value with `~7` rounds it down to a multiple of 8. -/
theorem land_mask8 (n : Nat) (hn : n < 2 ^ 32) : n &&& (2 ^ 32 - 8) = n / 8 * 8 := by
  apply Nat.eq_of_testBit_eq
  intro i
  have h1 : (2 : Nat) ^ 32 - 8 = 2 ^ 3 * (2 ^ 29 - 1) := by norm_num
  have h2 : n / 8 * 8 = 2 ^ 3 * (n >>> 3) := by
    rw [Nat.shiftRight_eq_div_pow]
    norm_num [Nat.mul_comm]
  rw [Nat.testBit_and, h1, h2, Nat.testBit_mul_pow_two, Nat.testBit_mul_pow_two,
    Nat.testBit_two_pow_sub_one, Nat.testBit_shiftRight]
  by_cases h3 : i ≥ 3
  · have h4 : 3 + (i - 3) = i := by omega
    rw [h4]
    by_cases h5 : i < 32
    · have h6 : i - 3 < 29 := by omega
      simp [h3, h6]
    · have h7 : n.testBit i = false :=
        Nat.testBit_lt_two_pow (lt_of_lt_of_le hn (Nat.pow_le_pow_right (by decide) (by omega)))
      simp [h7]
  · simp [h3]

/-- For a bit length in the range where `length + 7` does not overflow an `int`,
`ROUND_TO(length, 8) / 8` is the number of bytes that hold `length` bits. -/
theorem copy_len_eq (length : Int) (h0 : 0 ≤ length) (h1 : length ≤ 2 ^ 31 - 8) :
    (copy_len length : Int) = (length + 7) / 8 := by
  obtain ⟨n, rfl⟩ := Int.eq_ofNat_of_zero_le h0
  have hn : n + 7 < 2 ^ 31 := by omega
  have hw : wrap_int ((n : Int) + (8 - 1)) = ((n + 7 : Nat) : Int) := by
    unfold wrap_int
    push_cast
    omega
  have hu : to_uint32 ((n + 7 : Nat) : Int) = n + 7 := by
    unfold to_uint32
    have : (((n + 7 : Nat) : Int) % 2 ^ 32) = ((n + 7 : Nat) : Int) := by
      push_cast
      omega
    rw [this, Int.toNat_natCast]
  have hm : to_uint32 (int_not (8 - 1)) = 2 ^ 32 - 8 := by
    unfold to_uint32 int_not
    norm_num
    rfl
  have hl : (n + 7) / 8 * 8 < 2 ^ 31 := by omega
  unfold copy_len ROUND_TO int_and
  rw [hw, hu, hm, land_mask8 _ (by omega)]
  unfold of_uint32
  rw [if_pos hl]
  have hd : Int.tdiv (((n + 7) / 8 * 8 : Nat) : Int) 8 = (((n + 7) / 8 : Nat) : Int) := by
    rw [Int.tdiv_eq_ediv (Int.natCast_nonneg _) (by norm_num)]
    push_cast
    omega
  rw [hd]
  unfold to_size_t
  have : ((((n + 7) / 8 : Nat) : Int) % 2 ^ 64) = (((n + 7) / 8 : Nat) : Int) := by
    push_cast
    omega
  rw [this, Int.toNat_natCast]
  push_cast
  omega

/-! ## C16: the parameter check of AES-GCM encryption -/

/-- C16, as stated, fails: with an empty plaintext and empty additional data,
`p_src` and `p_aad` null and every other argument valid, the function returns
`SAMPLE_ERROR_INVALID_PARAMETER` without any event, and `p_out_mac` is left as
it was: no tag is produced. -/
theorem gcm_rejects_counterexample :
    (sample_rijndael128GCM_encrypt sampleLib env_ok (some sample_key) none 0 (some [])
        (some (List.replicate 12 7)) 12 none 0 (some (List.replicate 16 0))).status
      = SAMPLE_ERROR_INVALID_PARAMETER ∧
    (sample_rijndael128GCM_encrypt sampleLib env_ok (some sample_key) none 0 (some [])
        (some (List.replicate 12 7)) 12 none 0 (some (List.replicate 16 0))).trace = [] ∧
    (sample_rijndael128GCM_encrypt sampleLib env_ok (some sample_key) none 0 (some [])
        (some (List.replicate 12 7)) 12 none 0 (some (List.replicate 16 0))).out.p_out_mac
      = some (List.replicate 16 0) := by
  decide

/-- C16 (amended): `sample_rijndael128GCM_encrypt` returns
`SAMPLE_ERROR_INVALID_PARAMETER` before any event exactly when `p_key`,
`p_out_mac` or `p_iv` is null, or `iv_len` is not 12, or `src_len > 0` with
`p_src` or `p_dst` null, or `aad_len > 0` with `p_aad` null, or `p_src` and
`p_aad` are both null; in every other case its first event is the call of
`ippsAES_GCMGetSize`. -/
theorem gcm_rejects_iff (L : IppLib) (env : Env)
    (p_key p_src p_dst p_iv p_aad p_out_mac : Option (List Nat)) (src_len iv_len aad_len : Nat) :
    (((sample_rijndael128GCM_encrypt L env p_key p_src src_len p_dst p_iv iv_len p_aad aad_len
          p_out_mac).status = SAMPLE_ERROR_INVALID_PARAMETER ∧
      (sample_rijndael128GCM_encrypt L env p_key p_src src_len p_dst p_iv iv_len p_aad aad_len
          p_out_mac).trace = []) ↔
      (p_key = none ∨ p_out_mac = none ∨ p_iv = none ∨ iv_len ≠ 12 ∨
        (src_len > 0 ∧ (p_src = none ∨ p_dst = none)) ∨ (aad_len > 0 ∧ p_aad = none) ∨
        (p_src = none ∧ p_aad = none))) ∧
    (¬ (p_key = none ∨ p_out_mac = none ∨ p_iv = none ∨ iv_len ≠ 12 ∨
        (src_len > 0 ∧ (p_src = none ∨ p_dst = none)) ∨ (aad_len > 0 ∧ p_aad = none) ∨
        (p_src = none ∧ p_aad = none)) →
      (sample_rijndael128GCM_encrypt L env p_key p_src src_len p_dst p_iv iv_len p_aad aad_len
          p_out_mac).trace.head? = some (Event.call .ippsAES_GCMGetSize [] (env 0))) := by
  have hc : (p_key = none ∨ p_out_mac = none ∨ p_iv = none ∨ iv_len ≠ 12 ∨
        (src_len > 0 ∧ (p_src = none ∨ p_dst = none)) ∨ (aad_len > 0 ∧ p_aad = none) ∨
        (p_src = none ∧ p_aad = none)) ↔
      ((p_key = none) ∨ ((src_len > 0) ∧ (p_dst = none)) ∨ ((src_len > 0) ∧ (p_src = none))
        ∨ (p_out_mac = none) ∨ (iv_len ≠ SAMPLE_AESGCM_IV_SIZE)
        ∨ ((aad_len > 0) ∧ (p_aad = none))
        ∨ (p_iv = none) ∨ ((p_src = none) ∧ (p_aad = none))) := by
    unfold SAMPLE_AESGCM_IV_SIZE
    tauto
  have hfirst : ¬ ((p_key = none) ∨ ((src_len > 0) ∧ (p_dst = none))
        ∨ ((src_len > 0) ∧ (p_src = none))
        ∨ (p_out_mac = none) ∨ (iv_len ≠ SAMPLE_AESGCM_IV_SIZE)
        ∨ ((aad_len > 0) ∧ (p_aad = none))
        ∨ (p_iv = none) ∨ ((p_src = none) ∧ (p_aad = none))) →
      (sample_rijndael128GCM_encrypt L env p_key p_src src_len p_dst p_iv iv_len p_aad aad_len
          p_out_mac).trace.head? = some (Event.call .ippsAES_GCMGetSize [] (env 0)) := by
    intro hn
    unfold sample_rijndael128GCM_encrypt
    refine Leaf.out ((run_wp (fun R : Ret gcm_out => Leaf (R.trace.head?
      = some (Event.call .ippsAES_GCMGetSize [] (env 0)))) _ _ _ _).mpr ?_)
    rw [wp_ite]
    refine ⟨fun h => absurd h hn, fun _ => ?_⟩
    simp only [entry, wp_bind, wp_pure, wp_leave, wp_ite, wp_setLocals, wp_ipp_assign,
      wp_malloc_or, wp_fail_clear, wp_clear_temp_state, ne_eq, not_not]
    repeat' (first | apply And.intro | intro _)
    all_goals exact ⟨rfl⟩
  rw [hc]
  refine ⟨⟨fun h => ?_, fun h => ?_⟩, hfirst⟩
  · by_contra hn
    have h1 := hfirst hn
    rw [h.2] at h1
    exact absurd h1 (by simp)
  · unfold sample_rijndael128GCM_encrypt
    rw [run_reject _ _ _ _ _ _ h]
    exact ⟨rfl, rfl⟩

/-- Witness of C16 (amended): an empty plaintext with `p_src` null and an empty
additional data with `p_aad` not null is not rejected. -/
theorem gcm_rejects_iff_witness :
    (sample_rijndael128GCM_encrypt sampleLib env_ok (some sample_key) none 0 (some [])
        (some (List.replicate 12 7)) 12 (some []) 0 (some (List.replicate 16 0))).trace.head?
      = some (Event.call .ippsAES_GCMGetSize [] (env_ok 0)) :=
  (gcm_rejects_iff sampleLib env_ok (some sample_key) none (some [])
    (some (List.replicate 12 7)) (some []) (some (List.replicate 16 0)) 0 12 0).2 (by decide)

/-! ## C17: the bit supplier -/

/-- C17: for a bit count `nBits` of type `int` (below `2^31`), `sample_ipp_DRNGen`
returns `ippStsSizeErr` and writes nothing when `nBits` is not a multiple of 8,
whether `pRandBNU` is null or not; otherwise `ippStsNullPtrErr` when `pRandBNU`
is null; otherwise, when `nBits` is positive, `ippStsNoErr` after writing exactly
`nBits / 8` bytes, byte `i` being byte `i mod 4` of `seed` as `sample_read_rand`
writes it; and `ippStsErr`, with nothing written, when `nBits` is 0. -/
theorem DRNGen_byte_aligned (host : ByteOrder) (nBits : Int) (hhi : nBits < 2 ^ 31) :
    (¬ 8 ∣ nBits → ∀ p, sample_ipp_DRNGen host p nBits = (ippStsSizeErr, p)) ∧
    (8 ∣ nBits → sample_ipp_DRNGen host none nBits = (ippStsNullPtrErr, none)) ∧
    (8 ∣ nBits → 0 < nBits → ∀ mem, ∃ out,
      sample_ipp_DRNGen host (some mem) nBits = (ippStsNoErr, some out) ∧
      (∀ i : Nat, (i : Int) < nBits / 8 → out i = (bytes_of_uint32 host seed).getD (i % 4) 0) ∧
      (∀ i : Nat, nBits / 8 ≤ (i : Int) → out i = mem i)) ∧
    (nBits = 0 → ∀ mem, sample_ipp_DRNGen host (some mem) nBits = (ippStsErr, some mem)) := by
  have hmod : ∀ n : Int, Int.tmod n 8 = 0 ↔ 8 ∣ n := by
    intro n
    constructor
    · intro h
      exact Int.dvd_of_tmod_eq_zero h
    · intro h
      exact Int.tmod_eq_zero_of_dvd h
  refine ⟨fun h p => ?_, fun h => ?_, fun h hpos mem => ?_, fun h mem => ?_⟩
  · unfold sample_ipp_DRNGen
    rw [if_pos (fun h0 => h ((hmod nBits).mp h0.symm))]
  · unfold sample_ipp_DRNGen
    rw [if_neg (fun h0 => h0 ((hmod nBits).mpr h).symm)]
  · obtain ⟨k, rfl⟩ := h
    have hk : 0 < k := by omega
    obtain ⟨n, rfl⟩ := Int.eq_ofNat_of_zero_le (le_of_lt hk)
    have hu : to_uint32 (8 * (n : Int)) / 8 = n := by
      unfold to_uint32
      have : (8 * (n : Int)) % 2 ^ 32 = ((8 * n : Nat) : Int) := by
        push_cast
        omega
      rw [this, Int.toNat_natCast]
      omega
    have hn0 : n ≠ 0 := by omega
    obtain ⟨hs, hm⟩ := sample_read_rand_loop_spec host n mem 0
    refine ⟨(sample_read_rand_loop host mem 0 n).2, ?_, fun i hi => ?_, fun i hi => ?_⟩
    · unfold sample_ipp_DRNGen
      rw [if_neg (fun h0 => h0 ((hmod _).mpr ⟨n, rfl⟩).symm)]
      simp only [hu, sample_read_rand, hn0, if_false, hs, ne_eq, not_true_eq_false]
    · rw [hm i, if_pos (by omega)]
      rfl
    · rw [hm i, if_neg (by omega)]
  · subst h
    rfl

/-- Witness of C17: 40 bits asked for, in a memory holding `0xAA` everywhere. -/
theorem DRNGen_byte_aligned_witness :
    ∃ out, sample_ipp_DRNGen .little (some fun _ => 0xAA) 40 = (ippStsNoErr, some out) ∧
      (∀ i : Nat, (i : Int) < 40 / 8 → out i = (bytes_of_uint32 .little seed).getD (i % 4) 0) ∧
      (∀ i : Nat, (40 : Int) / 8 ≤ (i : Int) → out i = 0xAA) :=
  (DRNGen_byte_aligned .little 40 (by decide)).2.2.1 (by decide) (by decide)
    (fun _ => 0xAA)

/-! ## C18: `memset_s` -/

/-- C18: `memset_s(s, smax, c, n)` with `s` null returns `EINVAL` and writes
nothing; with `s` not null it returns 0 when `n ≤ smax` and `EOVERFLOW`
otherwise, and the buffer keeps its size, with every byte at an index below
`min n smax` equal to `(unsigned char)c` and every other byte unchanged; so it
returns 0 exactly when `s` is not null and `n ≤ smax`. -/
theorem memset_s_spec (smax n : Nat) (c : Int) :
    memset_s none smax c n = (EINVAL, none) ∧
    (∀ buf : List Nat, ∃ out,
      memset_s (some buf) smax c n = (if n ≤ smax then 0 else EOVERFLOW, some out) ∧
      out.length = buf.length ∧
      (∀ i, i < buf.length → i < min n smax → out.getD i 0 = (c % 256).toNat) ∧
      (∀ i, min n smax ≤ i → out.getD i 0 = buf.getD i 0)) ∧
    (∀ s : Option (List Nat), (memset_s s smax c n).1 = 0 ↔ s ≠ none ∧ n ≤ smax) := by
  have hset : ∀ (buf : List Nat) (k : Nat),
      (memset buf c k).length = buf.length ∧
      (∀ i, i < buf.length → i < k → (memset buf c k).getD i 0 = (c % 256).toNat) ∧
      (∀ i, k ≤ i → (memset buf c k).getD i 0 = buf.getD i 0) := by
    intro buf k
    unfold memset
    refine ⟨?_, fun i hi hk => ?_, fun i hk => ?_⟩
    · simp only [List.length_append, List.length_replicate, List.length_drop]
      omega
    · rw [List.getD_append _ _ _ _ (by simp only [List.length_replicate]; omega)]
      simp only [List.getD_eq_getElem?_getD, List.getElem?_replicate]
      rw [if_pos (by omega)]
      rfl
    · by_cases hb : k ≤ buf.length
      · rw [List.getD_append_right _ _ _ _ (by simp only [List.length_replicate]; omega)]
        simp only [List.length_replicate, List.getD_eq_getElem?_getD, List.getElem?_drop]
        rw [Nat.min_eq_left hb, Nat.add_sub_cancel' hk]
      · have h1 : buf.drop k = [] := List.drop_eq_nil_of_le (by omega)
        rw [h1, List.append_nil]
        simp only [List.getD_eq_getElem?_getD]
        rw [List.getElem?_eq_none (by simp only [List.length_replicate]; omega),
          List.getElem?_eq_none (by omega)]
  refine ⟨rfl, fun buf => ?_, fun s => ?_⟩
  · by_cases h : n ≤ smax
    · have h1 : ¬ n > smax := by omega
      refine ⟨memset buf c n, ?_, ?_⟩
      · simp only [memset_s, h1, if_false, if_true, h]
      · rw [Nat.min_eq_left h]
        exact hset buf n
    · have h1 : n > smax := by omega
      refine ⟨memset buf c smax, ?_, ?_⟩
      · simp only [memset_s, h1, if_true, h, if_false, EOVERFLOW]
        rfl
      · rw [Nat.min_eq_right (by omega)]
        exact hset buf smax
  · cases s with
    | none => simp [memset_s, EINVAL]
    | some buf =>
      by_cases h : n ≤ smax
      · have h1 : ¬ n > smax := by omega
        simp [memset_s, h1, h]
      · have h1 : n > smax := by omega
        simp [memset_s, h1, h, EOVERFLOW]

/-! ## The heap along a trace -/

theorem foldl_heap_step_none (t : List Event) : t.foldl Event.heap_step none = none := by
  induction t with
  | nil => rfl
  | cons e t ih =>
    rw [List.foldl_cons]
    cases e <;> exact ih

theorem live_after_append (live : List Buf) (t u : List Event) :
    live_after live (t ++ u) = (live_after live t).bind fun live1 => live_after live1 u := by
  unfold live_after
  rw [List.foldl_append]
  cases h : t.foldl Event.heap_step (some live) with
  | none => exact foldl_heap_step_none u
  | some live1 => rfl

theorem releases_SAFE_FREE {σ ε : Type} (address : Option Buf) :
    Releases (SAFE_FREE address : Op σ ε Unit) address := by
  intro s
  cases address with
  | none => exact ⟨s.pos, [], by simp [SampleLibcrypto.SAFE_FREE, Pure.pure], fun _ => rfl⟩
  | some b => exact ⟨s.pos, [Event.free b], rfl, fun _ => rfl⟩

theorem releases_CLEAR_FREE_MEM {σ ε : Type} (address : Option Buf) (size : Int) :
    Releases (CLEAR_FREE_MEM address size : Op σ ε Unit) address := by
  intro s
  cases address with
  | none => exact ⟨s.pos, [], by simp [SampleLibcrypto.CLEAR_FREE_MEM, Pure.pure], fun _ => rfl⟩
  | some b =>
    by_cases h : size > 0
    · refine ⟨s.pos, [Event.memset_s b (to_size_t size) 0 (to_size_t size), Event.free b],
        ?_, fun _ => rfl⟩
      show Op.bind _ _ s = _
      simp [Op.bind, h, SampleLibcrypto.emit]
    · refine ⟨s.pos, [Event.free b], ?_, fun _ => rfl⟩
      show Op.bind _ _ s = _
      simp [Op.bind, h, SampleLibcrypto.emit, Pure.pure]

theorem releases_secure_free_BN {σ ε : Type} (env : Env) (var : Buf)
    (pBN : Option BigNum) (size_in_bytes : Int) :
    Releases (sample_ipp_secure_free_BN env var pBN size_in_bytes : Op σ ε Unit)
      (ptr var pBN) := by
  intro s
  unfold SampleLibcrypto.sample_ipp_secure_free_BN
  cases pBN with
  | none =>
    refine ⟨s.pos, [], ?_, fun _ => rfl⟩
    simp [Pure.pure]
  | some bn =>
    by_cases hc : (some bn).isNone = true ∨ size_in_bytes ≤ 0 ∨ to_size_t size_in_bytes / 4 ≤ 0
    · refine ⟨s.pos, [Event.free var], ?_, fun _ => rfl⟩
      rw [if_pos hc]
      rfl
    · rw [if_neg hc]
      by_cases h : (env s.pos).size ≤ 0
      · refine ⟨s.pos + 1, [Event.call .ippsBigNumGetSize
          [.int (Int.tdiv size_in_bytes sizeof_Ipp32u)] (env s.pos), Event.free var], ?_,
          fun _ => rfl⟩
        show Op.bind _ _ s = _
        simp [Op.bind, ipp, h, SampleLibcrypto.emit]
      · refine ⟨s.pos + 1, [Event.call .ippsBigNumGetSize
          [.int (Int.tdiv size_in_bytes sizeof_Ipp32u)] (env s.pos),
          Event.memset_s var (to_size_t (env s.pos).size) 0 (to_size_t (env s.pos).size),
          Event.free var], ?_, fun _ => rfl⟩
        show Op.bind _ _ s = _
        simp only [Op.bind, ipp, h, if_false]
        show Op.bind _ _ _ = _
        simp [Op.bind, SampleLibcrypto.emit]

/-- Releasing the first of the pointers that hold the live buffers leaves the
buffers the other pointers hold. -/
theorem release_perm {live rest : List Buf} (address : Option Buf)
    (h : live.Perm (address.toList ++ rest)) :
    ∃ live1, release live address = some live1 ∧ live1.Perm rest := by
  cases address with
  | none => exact ⟨live, rfl, h⟩
  | some b =>
    have hb : b ∈ live := h.symm.subset (List.mem_cons_self _ _)
    refine ⟨live.erase b, if_pos hb, ?_⟩
    have h1 := h.erase b
    rwa [show (some b).toList ++ rest = b :: rest from rfl, List.erase_cons_head] at h1

/-- After a statement that releases a pointer, the rest of the body runs from a
machine whose trace is extended by events that free what the pointer holds. -/
theorem wp_releases {σ ε α : Type} {m : Op σ ε Unit} {address : Option Buf}
    (hm : Releases m address) (f : Unit → Op σ ε α)
    (Q : α → Machine σ → Prop) (E : ε → Machine σ → Prop) (s : Machine σ)
    (h : ∀ p evs, (∀ live, live_after live evs = release live address) →
      wp (f ()) Q E ⟨p, s.trace ++ evs, s.ipp_ret, s.locals⟩) :
    wp (m >>= f) Q E s := by
  obtain ⟨p, evs, h1, c1⟩ := hm s
  rw [wp_bind]
  unfold wp at h ⊢
  rw [h1]
  exact h p evs c1

/-- Events that release, one after the other, the pointers holding the live
buffers leave no buffer. -/
theorem live_after_release (live rest : List Buf) {evs : List Event} (address : Option Buf)
    (h : live.Perm (address.toList ++ rest))
    (hevs : ∀ l, live_after l evs = release l address) (more : List Event) :
    ∃ live1, live1.Perm rest ∧ live_after live (evs ++ more) = live_after live1 more := by
  obtain ⟨live1, h1, h2⟩ := release_perm address h
  refine ⟨live1, h2, ?_⟩
  rw [live_after_append, hevs, h1]
  rfl

/-! ## Key-pair generation: memory -/

set_option maxHeartbeats 1600000 in
/-- The block of the key-pair function establishes `keypair_post2`. -/
theorem keypair_block_memory (L : IppLib) (host : ByteOrder) (env : Env)
    (p_private : Option (List Nat)) (p_public : Option sample_ec256_public_t) :
    keypair_post2 L host (keypair_block_run L host env p_private p_public) := by
  unfold keypair_block_run
  apply wp_elim _ (keypair_post2 L host)
  simp only [sample_ecc256_create_key_pair_block, keypair_init, entry, wp_bind, wp_pure,
    wp_leave, wp_ite, wp_setLocals, wp_getLocals, wp_ipp_assign, wp_malloc_or, wp_ERROR_BREAK,
    wp_break_with, wp_newBN_or_break _ _ _ _ _ _ _ _ size_key_ok, wp_ref_BN_copy]
  repeat' (first | apply And.intro | intro _)
  all_goals constructor
  all_goals refine ⟨?_, ?_⟩
  all_goals first
    | (simp only [Owns, live_after, List.foldl_append, List.foldl_cons, List.foldl_nil,
        Event.heap_step, Option.map_some', Option.some_bind, if_true, if_false,
        Bool.false_eq_true, keypair_owned, ptr, Option.map_none', Option.toList,
        List.nil_append, List.cons_append, List.append_nil, Option.some.injEq, exists_eq_left',
        List.mem_cons, true_or, List.erase_cons_head]
       decide)
    | (simp only [List.nil_append, List.append_assoc, List.cons_append,
        List.forall_mem_cons, List.not_mem_nil, false_imp_iff, implies_true, and_true,
        Event.copyFits, Event.refChecked, keypair_source, reduceCtorEq, true_and,
        List.cons.injEq, Val.bn.injEq, forall_eq', and_self, ← not_lt, true_imp_iff,
        forall_const, not_false_eq_true, *])

/-- When `sample_ecc256_create_key_pair` returns, no buffer allocated during the
call is left, and nothing was freed that was not allocated. -/
theorem keypair_no_leak (L : IppLib) (host : ByteOrder) (env : Env)
    (p_private : Option (List Nat)) (p_public : Option sample_ec256_public_t)
    (ecc_handle : Option ipp_ec_state_handles_t) :
    live_after [] (sample_ecc256_create_key_pair L host env p_private p_public
      ecc_handle).trace = some [] := by
  by_cases hnn : ecc_handle = none ∨ p_private = none ∨ p_public = none
  · rw [keypair_reject L host env p_private p_public ecc_handle hnn]
    rfl
  · obtain ⟨⟨live, hl, hperm⟩, _⟩ := keypair_block_memory L host env p_private p_public
    unfold sample_ecc256_create_key_pair
    rw [if_neg hnn]
    generalize hs : keypair_block_run L host env p_private p_public = s at hl hperm
    refine (run_wp (fun R : Ret keypair_out => live_after [] R.trace = some []) _ _ _ _).mpr ?_
    rw [wp_bind]
    unfold wp
    rw [do_while_0_apply]
    show wp _ _ _ (keypair_block_run L host env p_private p_public)
    rw [hs]
    rcases s with ⟨p, t, st, l⟩
    rw [wp_bind, wp_getLocals]
    refine wp_releases (releases_CLEAR_FREE_MEM _ _) _ _ _ _ fun p1 e1 h1 => ?_
    refine wp_releases (releases_SAFE_FREE _) _ _ _ _ fun p2 e2 h2 => ?_
    refine wp_releases (releases_secure_free_BN _ _ _ _) _ _ _ _ fun p3 e3 h3 => ?_
    refine wp_releases (releases_secure_free_BN _ _ _ _) _ _ _ _ fun p4 e4 h4 => ?_
    refine wp_releases (releases_secure_free_BN _ _ _ _) _ _ _ _ fun p5 e5 h5 => ?_
    rw [wp_bind, wp_get_ret, wp_pure]
    show live_after [] (((((t ++ e1) ++ e2) ++ e3) ++ e4) ++ e5) = some []
    simp only [keypair_owned, List.append_assoc] at hperm
    simp only [List.append_assoc]
    rw [live_after_append, hl, Option.some_bind]
    obtain ⟨l1, q1, r1⟩ := live_after_release _ _ _ hperm h1 (e2 ++ (e3 ++ (e4 ++ e5)))
    obtain ⟨l2, q2, r2⟩ := live_after_release _ _ _ q1 h2 (e3 ++ (e4 ++ e5))
    obtain ⟨l3, q3, r3⟩ := live_after_release _ _ _ q2 h3 (e4 ++ e5)
    obtain ⟨l4, q4, r4⟩ := live_after_release _ _ _ q3 h4 e5
    obtain ⟨l5, q5, r5⟩ := live_after_release l4 [] _
      (by rw [List.append_nil]; exact q4) h5 []
    rw [List.append_nil] at r5
    rw [r1, r2, r3, r4, r5, List.Perm.eq_nil q5]
    rfl

/-! ## ECDH: memory -/

set_option maxHeartbeats 3200000 in
/-- The block of the shared-key function establishes `dhkey_post2`. -/
theorem dhkey_block_memory (L : IppLib) (env : Env) (p_private_b : Option (List Nat))
    (p_public_ga : Option sample_ec256_public_t) (p_shared_key : Option (List Nat)) :
    dhkey_post2 (dh_share L (p_private_b.getD []) ((p_public_ga.map fun p => p.gx).getD [])
        ((p_public_ga.map fun p => p.gy).getD [])) p_shared_key
      (dhkey_block_run L env p_private_b p_public_ga p_shared_key) := by
  unfold dhkey_block_run
  apply wp_elim _ (dhkey_post2 _ p_shared_key)
  simp only [sample_ecc256_compute_shared_dhkey_block, dhkey_init, entry, wp_bind, wp_pure,
    wp_leave, wp_ite, wp_setLocals, wp_getLocals, wp_ipp_assign, wp_malloc_or, wp_ERROR_BREAK,
    wp_break_with, wp_newBN_or_break _ _ _ _ _ _ _ _ size_32_ok, wp_ref_BN_copy, ne_eq, not_not,
    bn_at, Option.getD_some]
  repeat' (first | apply And.intro | intro _)
  all_goals constructor
  all_goals refine ⟨?_, ?_⟩
  all_goals first
    | (simp only [Owns, live_after, List.foldl_append, List.foldl_cons, List.foldl_nil,
        Event.heap_step, Option.map_some', Option.some_bind, if_true, if_false,
        Bool.false_eq_true, dhkey_owned, ptr, Option.map_none', Option.toList,
        List.nil_append, List.cons_append, List.append_nil, Option.some.injEq, exists_eq_left',
        List.mem_cons, true_or, List.erase_cons_head]
       decide)
    | (simp only [List.nil_append, List.append_assoc, List.cons_append,
        List.forall_mem_cons, List.not_mem_nil, false_imp_iff, implies_true, and_true,
        Event.copyFits, Event.refChecked, dh_share, bn_at, Option.getD_some, reduceCtorEq,
        true_and, List.cons.injEq, Val.bn.injEq, forall_eq', and_self, ← not_lt, true_imp_iff,
        forall_const, not_false_eq_true, Option.map_map, Function.comp_def, *])

/-- When `sample_ecc256_compute_shared_dhkey` returns, no buffer allocated
during the call is left, and nothing was freed that was not allocated. -/
theorem dhkey_no_leak (L : IppLib) (env : Env) (p_private_b : Option (List Nat))
    (p_public_ga : Option sample_ec256_public_t) (p_shared_key : Option (List Nat))
    (ecc_handle : Option ipp_ec_state_handles_t) :
    live_after [] (sample_ecc256_compute_shared_dhkey L env p_private_b p_public_ga
      p_shared_key ecc_handle).trace = some [] := by
  by_cases hnn : ecc_handle = none ∨ p_private_b = none ∨ p_public_ga = none
      ∨ p_shared_key = none
  · rw [dhkey_reject L env p_private_b p_public_ga p_shared_key ecc_handle hnn]
    rfl
  · obtain ⟨⟨live, hl, hperm⟩, _⟩ :=
      dhkey_block_memory L env p_private_b p_public_ga p_shared_key
    unfold sample_ecc256_compute_shared_dhkey
    rw [if_neg hnn]
    generalize hs : dhkey_block_run L env p_private_b p_public_ga p_shared_key = s at hl hperm
    refine (run_wp (fun R : Ret (Option (List Nat)) => live_after [] R.trace = some [])
      _ _ _ _).mpr ?_
    rw [wp_bind]
    unfold wp
    rw [do_while_0_apply]
    show wp _ _ _ (dhkey_block_run L env p_private_b p_public_ga p_shared_key)
    rw [hs]
    rcases s with ⟨p, t, st, l⟩
    rw [wp_bind, wp_getLocals]
    refine wp_releases (releases_CLEAR_FREE_MEM _ _) _ _ _ _ fun p1 e1 h1 => ?_
    refine wp_releases (releases_SAFE_FREE _) _ _ _ _ fun p2 e2 h2 => ?_
    refine wp_releases (releases_secure_free_BN _ _ _ _) _ _ _ _ fun p3 e3 h3 => ?_
    refine wp_releases (releases_secure_free_BN _ _ _ _) _ _ _ _ fun p4 e4 h4 => ?_
    refine wp_releases (releases_secure_free_BN _ _ _ _) _ _ _ _ fun p5 e5 h5 => ?_
    refine wp_releases (releases_secure_free_BN _ _ _ _) _ _ _ _ fun p6 e6 h6 => ?_
    have hgoal : live_after [] ((((((t ++ e1) ++ e2) ++ e3) ++ e4) ++ e5) ++ e6) = some [] := by
      simp only [dhkey_owned, List.append_assoc] at hperm
      simp only [List.append_assoc]
      rw [live_after_append, hl, Option.some_bind]
      obtain ⟨l1, q1, r1⟩ := live_after_release _ _ _ hperm h1 (e2 ++ (e3 ++ (e4 ++ (e5 ++ e6))))
      obtain ⟨l2, q2, r2⟩ := live_after_release _ _ _ q1 h2 (e3 ++ (e4 ++ (e5 ++ e6)))
      obtain ⟨l3, q3, r3⟩ := live_after_release _ _ _ q2 h3 (e4 ++ (e5 ++ e6))
      obtain ⟨l4, q4, r4⟩ := live_after_release _ _ _ q3 h4 (e5 ++ e6)
      obtain ⟨l5, q5, r5⟩ := live_after_release _ _ _ q4 h5 e6
      obtain ⟨l6, q6, r6⟩ := live_after_release l5 [] _
        (by rw [List.append_nil]; exact q5) h6 []
      rw [List.append_nil] at r6
      rw [r1, r2, r3, r4, r5, r6, List.Perm.eq_nil q6]
      rfl
    rw [wp_bind, wp_get_ret, wp_ite, wp_leave, wp_pure]
    exact ⟨fun _ => hgoal, fun _ => hgoal⟩

/-! ## C11: the functions that return from inside their body, and the context -/

/-- When AES-GCM encryption returns, the state it allocated has been freed. -/
theorem gcm_no_leak (L : IppLib) (env : Env)
    (p_key p_src p_dst p_iv p_aad p_out_mac : Option (List Nat)) (src_len iv_len aad_len : Nat) :
    live_after [] (sample_rijndael128GCM_encrypt L env p_key p_src src_len p_dst p_iv iv_len
      p_aad aad_len p_out_mac).trace = some [] := by
  unfold sample_rijndael128GCM_encrypt
  refine Leaf.out ((run_wp (fun R : Ret gcm_out => Leaf (live_after [] R.trace = some []))
    _ _ _ _).mpr ?_)
  simp only [entry, wp_bind, wp_pure, wp_leave, wp_ite, wp_setLocals, wp_ipp_assign,
    wp_malloc_or, wp_fail_clear, wp_clear_temp_state, ne_eq, not_not]
  repeat' (first | apply And.intro | intro _)
  all_goals constructor
  all_goals simp only [ret_of, live_after, List.foldl_append, List.foldl_cons, List.foldl_nil,
    Event.heap_step, Option.map_some', Option.some_bind, if_true, if_false,
    Bool.false_eq_true, List.mem_cons, true_or, List.erase_cons_head]

/-- When AES-CMAC returns, the state it allocated has been freed. -/
theorem cmac_no_leak (L : IppLib) (env : Env) (p_key p_src p_mac : Option (List Nat))
    (src_len : Nat) :
    live_after [] (sample_rijndael128_cmac_msg L env p_key p_src src_len p_mac).trace
      = some [] := by
  unfold sample_rijndael128_cmac_msg
  refine Leaf.out ((run_wp (fun R : Ret (Option (List Nat)) =>
    Leaf (live_after [] R.trace = some [])) _ _ _ _).mpr ?_)
  simp only [entry, wp_bind, wp_pure, wp_leave, wp_ite, wp_setLocals, wp_ipp_assign,
    wp_malloc_or, wp_fail_clear, wp_clear_temp_state, ne_eq, not_not]
  repeat' (first | apply And.intro | intro _)
  all_goals constructor
  all_goals simp only [ret_of, live_after, List.foldl_append, List.foldl_cons, List.foldl_nil,
    Event.heap_step, Option.map_some', Option.some_bind, if_true, if_false,
    Bool.false_eq_true, List.mem_cons, true_or, List.erase_cons_head]

theorem switch_null_length_ne_success (st : IppStatus) :
    switch_null_length st ≠ SAMPLE_SUCCESS := by
  cases st <;> simp [switch_null_length]

/-- When `sample_sha256_init` fails, the state it allocated has been freed and
the handle variable is as it was or null; when it succeeds, the state is the
one buffer left and the handle designates it. -/
theorem sha256_init_heap (L : IppLib) (env : Env) (p_sha_handle : Option (Option sha_state)) :
    ((sample_sha256_init L env p_sha_handle).status ≠ SAMPLE_SUCCESS →
      live_after [] (sample_sha256_init L env p_sha_handle).trace = some [] ∧
      ((sample_sha256_init L env p_sha_handle).out = p_sha_handle ∨
        (sample_sha256_init L env p_sha_handle).out = some none)) ∧
    ((sample_sha256_init L env p_sha_handle).status = SAMPLE_SUCCESS →
      live_after [] (sample_sha256_init L env p_sha_handle).trace = some [.p_temp_state] ∧
      (sample_sha256_init L env p_sha_handle).out
        = some (some ⟨.p_temp_state, L.ippsHashInit_rmf⟩)) := by
  unfold sample_sha256_init
  refine Leaf.out ((run_wp (fun R : Ret (Option (Option sha_state)) => Leaf (
    (R.status ≠ SAMPLE_SUCCESS → live_after [] R.trace = some [] ∧
      (R.out = p_sha_handle ∨ R.out = some none)) ∧
    (R.status = SAMPLE_SUCCESS → live_after [] R.trace = some [.p_temp_state] ∧
      R.out = some (some ⟨.p_temp_state, L.ippsHashInit_rmf⟩)))) _ _ _ _).mpr ?_)
  simp only [entry, wp_bind, wp_pure, wp_leave, wp_ite, wp_setLocals, wp_ipp_assign,
    wp_malloc_or, wp_emit, SAFE_FREE, ne_eq, not_not]
  repeat' (first | apply And.intro | intro _)
  all_goals constructor
  all_goals simp only [ret_of, live_after, List.foldl_append, List.foldl_cons, List.foldl_nil,
    Event.heap_step, Option.map_some', Option.some_bind, if_true, if_false,
    Bool.false_eq_true, List.mem_cons, true_or, List.erase_cons_head, id, reduceCtorEq,
    not_false_eq_true, true_and, and_true, or_true, true_or, not_true_eq_false, false_imp_iff,
    true_imp_iff, forall_const, imp_self, and_self, switch_null_length_ne_success,
    implies_true]

theorem switch_open_success (st : IppStatus) :
    switch_open st = SAMPLE_SUCCESS ↔ st = ippStsNoErr := by
  cases st <;> simp [switch_open]

/-- When `sample_ecc256_open_context` fails, every buffer it allocated has
been freed and the handle variable is as it was; when it succeeds, the three
buffers of the context are the ones left and the handle designates them. -/
theorem open_context_heap (env : Env) (h : Option ipp_ec_state_handles_t) :
    ((sample_ecc256_open_context env (some h)).status ≠ SAMPLE_SUCCESS →
      live_after [] (sample_ecc256_open_context env (some h)).trace = some [] ∧
      (sample_ecc256_open_context env (some h)).out = some h) ∧
    ((sample_ecc256_open_context env (some h)).status = SAMPLE_SUCCESS →
      live_after [] (sample_ecc256_open_context env (some h)).trace
        = some [.ipp_state_handle, .ec_state, .gfp_ctx] ∧
      (sample_ecc256_open_context env (some h)).out
        = some (some ⟨.ipp_state_handle, some .gfp_ctx, some .ec_state⟩)) := by
  unfold sample_ecc256_open_context
  refine Leaf.out ((run_wp (fun R : Ret (Option (Option ipp_ec_state_handles_t)) => Leaf (
    (R.status ≠ SAMPLE_SUCCESS → live_after [] R.trace = some [] ∧ R.out = some h) ∧
    (R.status = SAMPLE_SUCCESS →
      live_after [] R.trace = some [.ipp_state_handle, .ec_state, .gfp_ctx] ∧
      R.out = some (some ⟨.ipp_state_handle, some .gfp_ctx, some .ec_state⟩)))) _ _ _ _).mpr ?_)
  simp only [sample_ecc256_open_context_block, open_init, entry, wp_bind, wp_pure, wp_leave,
    wp_ite, wp_setLocals, wp_getLocals, wp_get_ret, wp_ipp_assign, wp_malloc_or,
    wp_ERROR_BREAK, wp_break_with, wp_do_while_0, wp_emit, CLEAR_FREE_MEM, SAFE_FREE, ptr,
    Option.map_some', Option.map_none', ne_eq, not_not, reduceCtorEq, false_imp_iff, true_and,
    not_false_eq_true, true_imp_iff, forall_const, not_true_eq_false]
  repeat' (first | apply And.intro | intro _)
  all_goals first
    | contradiction
    | (constructor <;>
       simp only [ret_of, live_after, List.foldl_append, List.foldl_cons, List.foldl_nil,
        Event.heap_step, Option.map_some', Option.some_bind, if_true, if_false,
        Bool.false_eq_true, List.mem_cons, true_or, or_true, List.erase_cons_head,
        List.erase_cons_tail, reduceCtorEq, not_false_eq_true, true_and, and_true,
        not_true_eq_false, false_imp_iff, true_imp_iff, forall_const, imp_self, and_self,
        switch_open_success, implies_true, beq_iff_eq, List.erase_nil,
        List.nil_append, *])

/-! ## ECDSA signature: memory and arguments -/

theorem Event.signPrep.step {L : IppLib} {host : ByteOrder} {data : List Nat} {e : Event}
    (h : e.signPrep L host data) (r : List Nat) (st : IppStatus) :
    e.signStep L host data r ∧ e.refChecked st ∧ e.isCallOf .ippsGFpECSignDSA = false := by
  cases e with
  | call fn args rs =>
    obtain ⟨h1, h2, h3⟩ := h
    exact ⟨⟨h3, fun hf => absurd hf h1⟩, fun hf => absurd hf h2, by simp [Event.isCallOf, h1]⟩
  | memcpy dst n => exact h.elim
  | malloc b sz ok => exact ⟨trivial, trivial, rfl⟩
  | memset_s b sm c n => exact ⟨trivial, trivial, rfl⟩
  | free b => exact ⟨trivial, trivial, rfl⟩
  | memset d c n => exact ⟨trivial, trivial, rfl⟩
  | store d => exact ⟨trivial, trivial, rfl⟩

theorem chain_retry_quiet (L : IppLib) (evs : List Event)
    (h : ∀ e ∈ evs, ¬ e.foundEqual L) : evs.Chain' (retry L) := by
  induction evs with
  | nil => exact List.chain'_nil
  | cons a rest ih =>
    cases rest with
    | nil => exact List.chain'_singleton a
    | cons b rest =>
      rw [List.chain'_cons]
      exact ⟨fun ha => absurd ha (h a (List.mem_cons_self _ _)),
        ih fun e he => h e (List.mem_cons_of_mem _ he)⟩

theorem getLast_quiet (L : IppLib) (evs : List Event)
    (h : ∀ e ∈ evs, ¬ e.foundEqual L) : ∀ e ∈ evs.getLast?, ¬ e.foundEqual L :=
  fun e he => h e (List.mem_of_getLast?_eq_some he)

/-- Events none of which is a comparison that found the keys equal, added to a
trace whose last event is no such comparison either. -/
theorem chain_retry_append (L : IppLib) (t evs : List Event)
    (hc : t.Chain' (retry L)) (hl : ∀ e ∈ t.getLast?, ¬ e.foundEqual L)
    (h : ∀ e ∈ evs, ¬ e.foundEqual L) :
    (t ++ evs).Chain' (retry L) ∧ ∀ e ∈ (t ++ evs).getLast?, ¬ e.foundEqual L := by
  refine ⟨List.chain'_append.mpr ⟨hc, chain_retry_quiet L evs h,
    fun x hx y _ hxe => absurd hxe (hl x hx)⟩, fun e he => ?_⟩
  cases evs with
  | nil =>
    rw [List.append_nil] at he
    exact hl e he
  | cons a rest =>
    rw [List.getLast?_append_of_ne_nil _ (List.cons_ne_nil a rest)] at he
    exact getLast_quiet L _ h e he

theorem split_in_left {α : Type} {t evs pre post : List α} {e : α}
    (h : t ++ evs = pre ++ e :: post) (he : e ∉ evs) : ∃ rest, t = pre ++ e :: rest := by
  rcases List.append_eq_append_iff.mp h with ⟨a, _, h2⟩ | ⟨c, h1, h2⟩
  · exact absurd (h2 ▸ List.mem_append_right a (List.mem_cons_self e post)) he
  · cases c with
    | nil =>
      rw [List.nil_append] at h2
      exact absurd (h2 ▸ List.mem_cons_self e post) he
    | cons b c =>
      rw [List.cons_append, List.cons.injEq] at h2
      exact ⟨c, by rw [h1, h2.1]⟩

theorem split_in_right {α : Type} {t evs pre post : List α} {e : α}
    (h : t ++ evs = pre ++ e :: post) (he : e ∉ t) : ∃ front, pre = t ++ front := by
  rcases List.append_eq_append_iff.mp h with ⟨a, h1, _⟩ | ⟨c, h1, h2⟩
  · exact ⟨a, h1⟩
  · cases c with
    | nil => exact ⟨[], by rw [h1, List.append_nil, List.append_nil]⟩
    | cons b c =>
      rw [List.cons_append, List.cons.injEq] at h2
      exact absurd (h1 ▸ List.mem_append_right pre (h2.1 ▸ List.mem_cons_self b c)) he

theorem Tested.append {L : IppLib} {host : ByteOrder} {r : List Nat} {t : List Event}
    (h : Tested L host r t) (u : List Event) : Tested L host r (t ++ u) := by
  obtain ⟨rt, rc, h1, h2, h3, h4, h5⟩ := h
  exact ⟨rt, rc, List.mem_append_left _ h1, h2, h3, List.mem_append_left _ h4, h5⟩

set_option maxHeartbeats 3200000 in
/-- The statements of `sample_ecdsa_sign` before the inner loop: when they
complete, the machine is as at the head of the loop; when they leave the block,
the status variable is not `ippStsNoErr`; either way the pointer variables hold
the buffers allocated and not freed. -/
theorem sign_before_memory (L : IppLib) (host : ByteOrder) (env : Env) (data r : List Nat)
    (sig : Option sample_ec256_signature_t) :
    wp (sample_ecdsa_sign_before_loop L host env data r)
      (fun _ s1 => Leaf (Owns sign_owned s1 ∧
        ((∀ e ∈ s1.trace, e.signPrep L host data ∧ ¬ e.foundEqual L) ∧
        s1.locals.p_eph_priv_bn.isSome = true ∧ s1.locals.p_eph_pub.isSome = true ∧
        s1.locals.p_msg_bn = some (sign_msg L host data) ∧
        s1.locals.p_reg_priv_bn = some (sign_reg L r) ∧
        s1.locals.p_signx_bn = none ∧ s1.locals.p_signy_bn = none ∧
        s1.locals.p_signature = sig)))
      (fun _ s1 => Leaf (Owns sign_owned s1 ∧
        ((∀ e ∈ s1.trace, e.signPrep L host data ∧ ¬ e.foundEqual L) ∧
        s1.ipp_ret ≠ ippStsNoErr ∧ s1.locals.p_signature = sig)))
      (entry ippStsErr (sign_init sig)) := by
  simp only [sample_ecdsa_sign_before_loop, sign_init, entry, wp_bind, wp_pure,
    wp_leave, wp_ite, wp_setLocals, wp_getLocals, wp_ipp_assign, wp_malloc_or, wp_ERROR_BREAK,
    wp_break_with, wp_newBN_or_break _ _ _ _ _ _ _ _ size_32_ok,
    wp_newBN_or_break _ _ _ _ _ _ _ _ size_order_ok, bn_at, Option.getD_some]
  repeat' (first | apply And.intro | intro _)
  all_goals constructor
  all_goals refine ⟨?_, ?_⟩
  all_goals first
    | (simp only [Owns, live_after, List.foldl_append, List.foldl_cons, List.foldl_nil,
        Event.heap_step, Option.map_some', Option.some_bind, if_true, if_false,
        Bool.false_eq_true, sign_owned, sign_kept, sign_result, ptr, Option.map_none',
        Option.toList, List.nil_append, List.cons_append, List.append_nil, Option.some.injEq,
        exists_eq_left', List.mem_cons, true_or, List.erase_cons_head]
       decide)
    | (simp only [List.nil_append, List.append_assoc, List.cons_append,
        List.forall_mem_cons, List.not_mem_nil, false_imp_iff, implies_true, and_true,
        Event.signPrep, Event.foundEqual, sign_msg, sign_reg, sign_hash, sign_order,
        reduceCtorEq, true_and, false_and, not_false_eq_true, ne_eq, and_self,
        Option.isSome_some, true_imp_iff, forall_const, not_true_eq_false, *])

/-- Events that allocate the buffers `added`, which the pointers to the
components of the signature then hold, keep the pointer variables of
`sample_ecdsa_sign` in step with the heap. -/
theorem Owns.sign_extend {p p1 : Nat} {st st1 : IppStatus} {t evs : List Event}
    {l l1 : sign_locals} (added : List Buf) (h : Owns sign_owned ⟨p, t, st, l⟩)
    (hr0 : sign_result l = []) (hk : sign_kept l1 = sign_kept l)
    (hheap : ∀ live, live_after live evs = some (added ++ live))
    (hr : added.Perm (sign_result l1)) : Owns sign_owned ⟨p1, t ++ evs, st1, l1⟩ := by
  obtain ⟨live0, h1, h2⟩ := h
  refine ⟨added ++ live0, ?_, ?_⟩
  · show live_after [] (t ++ evs) = _
    rw [live_after_append]
    simp only at h1
    rw [h1]
    exact hheap live0
  · show (added ++ live0).Perm (sign_kept l1 ++ sign_result l1)
    have h3 : live0.Perm (sign_kept l) := by
      have h4 : sign_owned l = sign_kept l := by
        unfold sign_owned
        rw [hr0, List.append_nil]
      rw [← h4]
      exact h2
    rw [hk]
    exact List.perm_append_comm.trans (h3.append hr)

/-- A run of the body of the inner loop of `sample_ecdsa_sign` that leaves the
loop by `break`. -/
theorem sign_failed_extend {L : IppLib} {host : ByteOrder} {data r : List Nat}
    {sig : Option sample_ec256_signature_t} {p p1 : Nat} {st st1 : IppStatus}
    {t : List Event} {l l1 : sign_locals} (evs : List Event)
    (h : sign_at_loop L host data r sig ⟨p, t, st, l⟩)
    (hst : st1 ≠ ippStsNoErr)
    (hevs : ∀ e ∈ evs, e.signPrep L host data ∧ ¬ e.foundEqual L)
    (hhead : ∀ e ∈ evs.head?, e.drawsKey) (hne : evs ≠ [])
    (hheap : ∀ live, live_after live evs = some ([] ++ live))
    (hk : sign_kept l1 = sign_kept l) (hr : sign_result l1 = sign_result l)
    (hsig : l1.p_signature = l.p_signature) :
    sign_failed L host data sig ⟨p1, t ++ evs, st1, l1⟩ := by
  obtain ⟨hO, hP, hC, _, _, _, _, hx, hy, hs⟩ := h
  have hr0 : sign_result l = [] := by
    simp only at hx hy
    simp only [sign_result, hx, hy, ptr, Option.map_none', Option.toList, List.append_nil]
  refine ⟨Owns.sign_extend [] hO hr0 hk hheap (by rw [hr, hr0]), ?_, ?_, ?_, hst, ?_⟩
  · intro e he
    rcases List.mem_append.mp he with he | he
    · exact hP e he
    · exact (hevs e he).1
  · exact List.chain'_append.mpr ⟨hC, chain_retry_quiet L evs fun e he => (hevs e he).2,
      fun x _ y hy _ => hhead y hy⟩
  · intro e he
    simp only at he
    rw [List.getLast?_append_of_ne_nil _ hne] at he
    exact (hevs e (List.mem_of_getLast?_eq_some he)).2
  · exact hsig.trans hs

/-- A run of the body of the inner loop of `sample_ecdsa_sign` that completes:
the ephemeral key is drawn, its public point computed, the pair tested and the
key compared with the private key. -/
theorem sign_chosen_extend {L : IppLib} {host : ByteOrder} {data r : List Nat}
    {sig : Option sample_ec256_signature_t} {p p1 : Nat} {st st1 : IppStatus}
    {t : List Event} {l : sign_locals} (e0 : BigNum) (r1 r2 r3 r4 : Resp)
    (h : sign_at_loop L host data r sig ⟨p, t, st, l⟩)
    (h3 : r3.status = ippStsNoErr) (hv : r3.verdict = ippECValid)
    (h4 : r4.status = ippStsNoErr) (hst : st1 = ippStsNoErr) :
    sign_chosen L host data r sig ⟨p1,
      t ++ [Event.call .ippsGFpECPrivateKey [.bn e0] r1,
        Event.call .ippsGFpECPublicKey [.bn (L.ippsGFpECPrivateKey (sample_ipp_DRNGen host))] r2,
        Event.call .ippsGFpECTstKeyPair [.bn (L.ippsGFpECPrivateKey (sample_ipp_DRNGen host)),
          .pt (L.ippsGFpECPublicKey (L.ippsGFpECPrivateKey (sample_ipp_DRNGen host)))] r3,
        Event.call .ippsCmp_BN [.bn (L.ippsGFpECPrivateKey (sample_ipp_DRNGen host)),
          .bn (bn_at l.p_reg_priv_bn)] r4],
      st1,
      { l with
        p_eph_priv_bn := some (L.ippsGFpECPrivateKey (sample_ipp_DRNGen host)),
        p_eph_pub := some (L.ippsGFpECPublicKey (L.ippsGFpECPrivateKey (sample_ipp_DRNGen host))),
        ec_result := r3.verdict,
        bn_result := L.ippsCmp_BN (L.ippsGFpECPrivateKey (sample_ipp_DRNGen host))
          (bn_at l.p_reg_priv_bn) }⟩ := by
  obtain ⟨hO, hP, hC, he, hq, hm, hreg, hx, hy, hs⟩ := h
  simp only at he hq hm hreg hx hy hs
  obtain ⟨e1, he1⟩ := Option.isSome_iff_exists.mp he
  obtain ⟨q1, hq1⟩ := Option.isSome_iff_exists.mp hq
  have hr0 : sign_result l = [] := by
    simp only [sign_result, hx, hy, ptr, Option.map_none', Option.toList, List.append_nil]
  have hbn : bn_at l.p_reg_priv_bn = sign_reg L r := by rw [hreg]; rfl
  rw [hbn]
  refine ⟨⟨Owns.sign_extend [] hO hr0 ?_ (fun _ => rfl) (by show [].Perm (sign_result l); rw [hr0]), ?_, ?_, rfl, rfl, hm, hreg, hx, hy, hs⟩, hst, rfl, rfl, ?_, ?_⟩
  · simp only [sign_kept, he1, hq1, ptr, Option.map_some']
  · intro e he
    rcases List.mem_append.mp he with he | he
    · exact hP e he
    · simp only [List.mem_cons, List.mem_singleton, List.not_mem_nil, or_false] at he
      rcases he with he | he | he | he <;> subst he <;>
        simp [Event.signPrep]
  · refine List.chain'_append.mpr ⟨hC, ?_, fun x _ y hy _ => ?_⟩
    · simp [List.chain'_cons, retry, Event.foundEqual]
    · simp only [List.head?_cons, Option.mem_def, Option.some.injEq] at hy
      subst hy
      rfl
  · exact ⟨r3, r4, by simp [sign_eph], h3, hv, by simp [sign_eph], h4⟩
  · intro hne e he
    simp only [List.getLast?_append_of_ne_nil _ (List.cons_ne_nil _ _)] at he
    simp only [List.getLast?_cons_cons, List.getLast?_singleton, Option.mem_def,
      Option.some.injEq] at he
    subst he
    rintro ⟨_, _, a, b, hab, hcmp⟩
    simp only [List.cons.injEq, Val.bn.injEq, and_true] at hab
    obtain ⟨ha, hb⟩ := hab
    subst ha hb
    exact hne hcmp

/-- From the head of the inner loop of `sample_ecdsa_sign`, the body completes
with the ephemeral key drawn, tested and compared, or leaves the loop with a
status other than `ippStsNoErr`. -/
theorem sign_body_memory (L : IppLib) (host : ByteOrder) (env : Env) (data r : List Nat)
    (sig : Option sample_ec256_signature_t) (p : Nat) (t : List Event) (st : IppStatus)
    (l : sign_locals) (h : sign_at_loop L host data r sig ⟨p, t, st, l⟩) :
    wp (sample_ecdsa_sign_loop_body L host env)
      (fun _ s1 => Leaf (sign_chosen L host data r sig s1))
      (fun _ s1 => Leaf (sign_failed L host data sig s1)) ⟨p, t, st, l⟩ := by
  obtain ⟨e1, he1⟩ := Option.isSome_iff_exists.mp h.2.2.2.1
  obtain ⟨q1, hq1⟩ := Option.isSome_iff_exists.mp h.2.2.2.2.1
  simp only at he1 hq1
  simp only [sample_ecdsa_sign_loop_body, wp_bind, wp_pure,
    wp_leave, wp_ite, wp_setLocals, wp_getLocals, wp_ipp_assign, wp_ERROR_BREAK,
    wp_break_with]
  repeat' (first | apply And.intro | intro _)
  all_goals constructor
  all_goals simp only [List.append_assoc, List.cons_append, List.nil_append, ne_eq, not_not] at *
  all_goals first
    | (refine sign_chosen_extend _ _ _ _ _ h ?_ ?_ ?_ ?_ <;> first | assumption | rfl)
    | (refine sign_failed_extend _ h ?_ ?_ ?_ ?_ ?_ ?_ ?_ ?_
       all_goals first
         | assumption
         | exact fun _ => rfl
         | rfl
         | (simp only [sign_kept, he1, hq1, ptr, Option.map_some']; done)
         | (simp [Event.signPrep, Event.foundEqual, Event.drawsKey, *]))

/-- The statements of `sample_ecdsa_sign` after the inner loop, from a machine
where the ephemeral key was found different from the private key. -/
theorem sign_post_extend {L : IppLib} {host : ByteOrder} {data r : List Nat}
    {sig : Option sample_ec256_signature_t} {p p1 : Nat} {st st1 : IppStatus}
    {t : List Event} {l l1 : sign_locals} (evs : List Event) (added : List Buf)
    (h : sign_chosen L host data r sig ⟨p, t, st, l⟩) (hne : l.bn_result ≠ 0)
    (hevs : ∀ e ∈ evs, e.signStep L host data r ∧ e.refChecked st1 ∧ ¬ e.foundEqual L)
    (hheap : ∀ live, live_after live evs = some (added ++ live))
    (hk : sign_kept l1 = sign_kept l) (hr : added.Perm (sign_result l1))
    (hfin : st1 = ippStsNoErr →
      copy_len (sign_sig L host data r).1.length ≤ 32 ∧
      copy_len (sign_sig L host data r).2.length ≤ 32 ∧
      (∃ e ∈ evs, e.isCallOf .ippsGFpECSignDSA = true) ∧
      l1.p_signature = l.p_signature.map fun f =>
        ⟨memcpy (memset f.x 0 32) (sign_sig L host data r).1.data
            (copy_len (sign_sig L host data r).1.length),
          memcpy (memset f.y 0 32) (sign_sig L host data r).2.data
            (copy_len (sign_sig L host data r).2.length)⟩) :
    sign_post L host data r sig ⟨p1, t ++ evs, st1, l1⟩ := by
  obtain ⟨⟨hO, hP, hC, _, _, _, _, hx, hy, hs⟩, _, _, _, hT, hlast⟩ := h
  simp only at hx hy hs hlast hP hC hT
  have hr0 : sign_result l = [] := by
    simp only [sign_result, hx, hy, ptr, Option.map_none', Option.toList, List.append_nil]
  obtain ⟨hc1, hc2⟩ := chain_retry_append L t evs hC (hlast hne) fun e he => (hevs e he).2.2
  refine ⟨Owns.sign_extend added hO hr0 hk hheap hr, ?_, ?_, hc1, hc2, ?_, ?_⟩
  · intro e he
    rcases List.mem_append.mp he with he | he
    · exact ((hP e he).step r st1).1
    · exact (hevs e he).1
  · intro e he
    rcases List.mem_append.mp he with he | he
    · exact ((hP e he).step r st1).2.1
    · exact (hevs e he).2.1
  · intro pre post args rs hsplit
    obtain ⟨front, hfront⟩ := split_in_right hsplit fun hmem =>
      absurd ((hP _ hmem).step r st1).2.2 (by simp [Event.isCallOf])
    rw [hfront]
    exact hT.append front
  · intro h1
    obtain ⟨a, b, ⟨e, he, hcall⟩, d⟩ := hfin h1
    exact ⟨a, b, ⟨e, List.mem_append_right _ he, hcall⟩, by rw [d, hs]⟩

/-- A machine of `sample_ecdsa_sign` that left the block before the signing
primitive was called is as the block leaves it. -/
theorem sign_failed.post {L : IppLib} {host : ByteOrder} {data : List Nat}
    {sig : Option sample_ec256_signature_t} {s : Machine sign_locals}
    (h : sign_failed L host data sig s) (r : List Nat) : sign_post L host data r sig s := by
  obtain ⟨hO, hP, hC, hl, hst, _⟩ := h
  refine ⟨hO, fun e he => ((hP e he).step r s.ipp_ret).1,
    fun e he => ((hP e he).step r s.ipp_ret).2.1, hC, hl, ?_, fun h1 => absurd h1 hst⟩
  intro pre post args rs hsplit
  have hmem : Event.call .ippsGFpECSignDSA args rs ∈ s.trace := by
    rw [hsplit]
    exact List.mem_append_right _ (List.mem_cons_self _ _)
  exact absurd ((hP _ hmem).step r s.ipp_ret).2.2 (by simp [Event.isCallOf])

set_option maxHeartbeats 1600000 in
/-- The statements of `sample_ecdsa_sign` after the inner loop, from a machine
where the ephemeral key was found different from the private key, end in a
machine as the block leaves it. -/
theorem sign_after_memory (L : IppLib) (host : ByteOrder) (env : Env) (data r : List Nat)
    (sig : Option sample_ec256_signature_t) (p : Nat) (t : List Event) (l : sign_locals)
    (h : sign_chosen L host data r sig ⟨p, t, ippStsNoErr, l⟩) (hne : l.bn_result ≠ 0) :
    sign_post L host data r sig (sample_ecdsa_sign_after_loop L env ⟨p, t, ippStsNoErr, l⟩).2 := by
  have hm : l.p_msg_bn = some (sign_msg L host data) := h.1.2.2.2.2.2.1
  have hreg : l.p_reg_priv_bn = some (sign_reg L r) := h.1.2.2.2.2.2.2.1
  have hx : l.p_signx_bn = none := h.1.2.2.2.2.2.2.2.1
  have hy : l.p_signy_bn = none := h.1.2.2.2.2.2.2.2.2.1
  have he : l.p_eph_priv_bn = some (sign_eph L host) := h.2.2.1
  have hcmp : ¬ L.ippsCmp_BN (sign_eph L host) (sign_reg L r) = 0 := by
    have h1 : l.bn_result = _ := h.2.2.2.1
    rw [← h1]
    exact hne
  apply wp_elim _ (sign_post L host data r sig)
  simp only [sample_ecdsa_sign_after_loop, wp_bind, wp_pure, wp_emit,
      wp_leave, wp_ite, wp_setLocals, wp_getLocals, wp_ipp_assign, wp_ERROR_BREAK,
      wp_break_with, wp_newBN_or_break _ _ _ _ _ _ _ _ size_order_ok, wp_ref_BN_copy,
      hm, he, hreg, hx, hy, bn_at, Option.getD_some]
  repeat' (first | apply And.intro | intro _)
  all_goals constructor
  all_goals simp only [List.append_assoc, List.cons_append, List.nil_append, ne_eq, not_not] at *
  · exact absurd trivial ‹¬ True›
  iterate 3
    (refine sign_post_extend _ [] h hne ?_ ?_ ?_ ?_ ?_
     · simp [Event.signStep, Event.refChecked, Event.foundEqual, sign_source, sign_sig, *]
     · exact fun _ => rfl
     · simp only [sign_kept, hm, he, hreg, ptr, Option.map_some']
     · simp only [sign_result, ptr, Option.map_some', Option.map_none', Option.toList,
         List.nil_append, List.append_nil, List.cons_append]
       decide
     · simp [*])
  iterate 3
    (refine sign_post_extend _ [.p_signx_bn] h hne ?_ ?_ ?_ ?_ ?_
     · simp [Event.signStep, Event.refChecked, Event.foundEqual, sign_source, sign_sig, *]
     · exact fun _ => rfl
     · simp only [sign_kept, hm, he, hreg, ptr, Option.map_some']
     · simp only [sign_result, ptr, Option.map_some', Option.map_none', Option.toList,
         List.nil_append, List.append_nil, List.cons_append]
       decide
     · simp [*])
  iterate 5
    (refine sign_post_extend _ [.p_signy_bn, .p_signx_bn] h hne ?_ ?_ ?_ ?_ ?_
     · simp [Event.signStep, Event.refChecked, Event.foundEqual, sign_source, sign_sig, *] <;> omega
     · exact fun _ => rfl
     · simp only [sign_kept, hm, he, hreg, ptr, Option.map_some']
     · simp only [sign_result, ptr, Option.map_some', Option.map_none', Option.toList,
         List.nil_append, List.append_nil, List.cons_append]
       decide
     · simp [*])
  ·
    (refine sign_post_extend _ [.p_signy_bn, .p_signx_bn] h hne ?_ ?_ ?_ ?_ ?_
     · simp [Event.signStep, Event.refChecked, Event.foundEqual, sign_source, sign_sig, *]
       omega
     · exact fun _ => rfl
     · simp only [sign_kept, hm, he, hreg, ptr, Option.map_some']
     · simp only [sign_result, ptr, Option.map_some', Option.map_none', Option.toList,
         List.nil_append, List.append_nil, List.cons_append]
       decide
     · intro _
       refine ⟨?_, ?_, ?_, ?_⟩
       · simp [sign_sig, *]
         omega
       · simp [sign_sig, *]
         omega
       · simp [Event.isCallOf]
       · cases l.p_signature <;> rfl)

/-- When the inner loop of `sample_ecdsa_sign` is left, either the ephemeral key
was drawn, tested and found different from the private key, or the status
variable is not `ippStsNoErr`. -/
theorem sign_loop_memory (L : IppLib) (host : ByteOrder) (env : Env) (data r : List Nat)
    (sig : Option sample_ec256_signature_t) (fuel : Nat) :
    ∀ s s2 : Machine sign_locals, sign_at_loop L host data r sig s →
      sample_ecdsa_sign_loop L host env fuel s = some s2 →
      (sign_chosen L host data r sig s2 ∧ s2.locals.bn_result ≠ 0) ∨
        sign_failed L host data sig s2 := by
  induction fuel with
  | zero =>
    intro s s2 _ h
    exact absurd h (by simp [sample_ecdsa_sign_loop])
  | succ n ih =>
    intro s s2 hA h
    rcases s with ⟨p, t, st, l⟩
    have hb := sign_body_memory L host env data r sig p t st l hA
    unfold wp at hb
    unfold sample_ecdsa_sign_loop at h
    rcases hr : sample_ecdsa_sign_loop_body L host env ⟨p, t, st, l⟩ with ⟨res, s1⟩
    rw [hr] at hb h
    cases res with
    | error e =>
      simp only [Option.some.injEq] at h
      exact Or.inr (h ▸ hb.out)
    | ok a =>
      simp only at h hb
      split at h
      · exact ih s1 s2 hb.out.1 h
      · rename_i hne
        simp only [Option.some.injEq] at h
        exact Or.inl (h ▸ ⟨hb.out, hne⟩)

/-- When `sample_ecdsa_sign` leaves its outer block, the machine is as
`sign_post` says. -/
theorem sign_block_memory (L : IppLib) (host : ByteOrder) (env : Env) (fuel : Nat)
    (p_data : Option (List Nat)) (data_size : Nat) (p_private : Option (List Nat))
    (p_signature : Option sample_ec256_signature_t) (s : Machine sign_locals)
    (h : sign_block_run L host env fuel p_data data_size p_private p_signature = some s) :
    sign_post L host ((p_data.getD []).take data_size) (p_private.getD []) p_signature s := by
  unfold sign_block_run sample_ecdsa_sign_block at h
  have hb := sign_before_memory L host env ((p_data.getD []).take data_size)
    (p_private.getD []) p_signature
  unfold wp at hb
  rcases hr : sample_ecdsa_sign_before_loop L host env ((p_data.getD []).take data_size)
    (p_private.getD []) (entry ippStsErr (sign_init p_signature)) with ⟨res, s1⟩
  rw [hr] at hb h
  cases res with
  | error e =>
    simp only [Option.some.injEq] at h
    obtain ⟨hO, hP, hst, hs⟩ := hb.out
    have hq : ∀ e ∈ s1.trace, ¬ e.foundEqual L := fun e he => (hP e he).2
    subst h
    exact sign_failed.post ⟨hO, fun e he => (hP e he).1, chain_retry_quiet L _ hq,
      getLast_quiet L _ hq, hst, hs⟩ _
  | ok a =>
    simp only at h hb
    obtain ⟨hO, hP, h1, h2, h3, h4, h5, h6, h7⟩ := hb.out
    have hq : ∀ e ∈ s1.trace, ¬ e.foundEqual L := fun e he => (hP e he).2
    have hA : sign_at_loop L host ((p_data.getD []).take data_size) (p_private.getD [])
        p_signature s1 :=
      ⟨hO, fun e he => (hP e he).1, chain_retry_quiet L _ hq, h1, h2, h3, h4, h5, h6, h7⟩
    rcases hl : sample_ecdsa_sign_loop L host env fuel s1 with _ | s2
    · rw [hl] at h
      exact absurd h (by simp)
    · rw [hl] at h
      simp only [Option.some.injEq] at h
      subst h
      rcases sign_loop_memory L host env _ _ p_signature fuel s1 s2 hA hl with ⟨hc, hne⟩ | hf
      · rcases s2 with ⟨p2, t2, st2, l2⟩
        have hst : st2 = ippStsNoErr := hc.2.1
        subst hst
        exact sign_after_memory L host env _ _ p_signature p2 t2 l2 hc hne
      · have hst : s2.ipp_ret ≠ ippStsNoErr := hf.2.2.2.2.1
        have hsame : (sample_ecdsa_sign_after_loop L env s2).2 = s2 := by
          rcases s2 with ⟨p2, t2, st2, l2⟩
          apply wp_elim _ (fun s => s = (⟨p2, t2, st2, l2⟩ : Machine sign_locals))
          unfold sample_ecdsa_sign_after_loop
          rw [wp_bind, wp_ERROR_BREAK]
          exact ⟨fun _ => ⟨rfl⟩, fun h => absurd h hst⟩
        rw [hsame]
        exact hf.post _

/-- From a machine whose pointer variables hold the buffers allocated and not
freed, the last statements of `sample_ecdsa_sign` leave no buffer. -/
theorem sign_cleanup_heap (env : Env) (s : Machine sign_locals) (hO : Owns sign_owned s) :
    live_after [] (sample_ecdsa_sign_cleanup env s).2.trace = some [] := by
  have hw : wp (sample_ecdsa_sign_cleanup env)
      (fun _ s1 => live_after [] s1.trace = some []) (fun _ s1 => live_after [] s1.trace = some [])
      s := by
    rcases s with ⟨p, t, st, l⟩
    obtain ⟨live, hl, hperm⟩ := hO
    unfold sample_ecdsa_sign_cleanup
    rw [wp_bind, wp_getLocals]
    refine wp_releases (releases_CLEAR_FREE_MEM _ _) _ _ _ _ fun p1 e1 h1 => ?_
    refine wp_releases (releases_SAFE_FREE _) _ _ _ _ fun p2 e2 h2 => ?_
    refine wp_releases (releases_secure_free_BN _ _ _ _) _ _ _ _ fun p3 e3 h3 => ?_
    refine wp_releases (releases_secure_free_BN _ _ _ _) _ _ _ _ fun p4 e4 h4 => ?_
    refine wp_releases (releases_secure_free_BN _ _ _ _) _ _ _ _ fun p5 e5 h5 => ?_
    refine wp_releases (releases_secure_free_BN _ _ _ _) _ _ _ _ fun p6 e6 h6 => ?_
    refine wp_releases (releases_secure_free_BN _ _ _ _) _ _ _ _ fun p7 e7 h7 => ?_
    refine wp_releases (releases_secure_free_BN _ _ _ _) _ _ _ _ fun p8 e8 h8 => ?_
    refine wp_releases (releases_secure_free_BN _ _ _ _) _ _ _ _ fun p9 e9 h9 => ?_
    rw [wp_bind, wp_get_ret, wp_pure]
    show live_after [] (((((((((t ++ e1) ++ e2) ++ e3) ++ e4) ++ e5) ++ e6) ++ e7) ++ e8) ++ e9)
      = some []
    simp only [sign_owned, sign_kept, sign_result, List.append_assoc] at hperm
    simp only [List.append_assoc]
    simp only at hl
    rw [live_after_append, hl, Option.some_bind]
    obtain ⟨l1, q1, r1⟩ := live_after_release _ _ _ hperm h1
      (e2 ++ (e3 ++ (e4 ++ (e5 ++ (e6 ++ (e7 ++ (e8 ++ e9)))))))
    obtain ⟨l2, q2, r2⟩ := live_after_release _ _ _ q1 h2
      (e3 ++ (e4 ++ (e5 ++ (e6 ++ (e7 ++ (e8 ++ e9))))))
    obtain ⟨l3, q3, r3⟩ := live_after_release _ _ _ q2 h3 (e4 ++ (e5 ++ (e6 ++ (e7 ++ (e8 ++ e9)))))
    obtain ⟨l4, q4, r4⟩ := live_after_release _ _ _ q3 h4 (e5 ++ (e6 ++ (e7 ++ (e8 ++ e9))))
    obtain ⟨l5, q5, r5⟩ := live_after_release _ _ _ q4 h5 (e6 ++ (e7 ++ (e8 ++ e9)))
    obtain ⟨l6, q6, r6⟩ := live_after_release _ _ _ q5 h6 (e7 ++ (e8 ++ e9))
    obtain ⟨l7, q7, r7⟩ := live_after_release _ _ _ q6 h7 (e8 ++ e9)
    obtain ⟨l8, q8, r8⟩ := live_after_release _ _ _ q7 h8 e9
    obtain ⟨l9, q9, r9⟩ := live_after_release l8 [] _
      (by rw [List.append_nil]; exact q8) h9 []
    rw [List.append_nil] at r9
    rw [r1, r2, r3, r4, r5, r6, r7, r8, r9, List.Perm.eq_nil q9]
    rfl
  unfold wp at hw
  rcases hr : sample_ecdsa_sign_cleanup env s with ⟨res, s1⟩
  rw [hr] at hw
  cases res <;> exact hw

/-- When `sample_ecdsa_sign` returns, no buffer allocated during the call is
left, and nothing was freed that was not allocated. -/
theorem sign_no_leak (L : IppLib) (host : ByteOrder) (env : Env) (fuel : Nat)
    (p_data : Option (List Nat)) (data_size : Nat) (p_private : Option (List Nat))
    (p_signature : Option sample_ec256_signature_t)
    (ecc_handle : Option ipp_ec_state_handles_t) (R : Ret (Option sample_ec256_signature_t))
    (h : sample_ecdsa_sign L host env fuel p_data data_size p_private p_signature ecc_handle
      = some R) :
    live_after [] R.trace = some [] := by
  by_cases hnn : ecc_handle = none ∨ p_private = none ∨ p_signature = none ∨ p_data = none
      ∨ data_size < 1
  · unfold sample_ecdsa_sign at h
    rw [if_pos hnn, Option.some.injEq] at h
    subst h
    rfl
  · unfold sample_ecdsa_sign at h
    rw [if_neg hnn] at h
    rcases hb : sample_ecdsa_sign_block L host env fuel ((p_data.getD []).take data_size)
        (p_private.getD []) (entry ippStsErr (sign_init p_signature)) with _ | s
    · rw [hb] at h
      exact absurd h (by simp)
    · rw [hb] at h
      simp only at h
      have hc := sign_cleanup_heap env s
        (sign_block_memory L host env fuel p_data data_size p_private p_signature s hb).1
      rcases hcl : sample_ecdsa_sign_cleanup env s with ⟨res, s1⟩
      rw [hcl] at h hc
      cases res <;>
      · simp only [Option.some.injEq] at h
        subst h
        exact hc

/-- An event of releasing memory is no copy, no call of `ippsRef_BN`, no
comparison and no call of the signing primitive. -/
theorem cleanup_event_facts {e : Event} (h : e.isCleanup = true) (src : Out → BigNum)
    (st : IppStatus) (L : IppLib) (host : ByteOrder) (data r : List Nat) :
    e.copyFits src ∧ e.refChecked st ∧ e.signStep L host data r ∧ ¬ e.foundEqual L ∧
      e.isCallOf .ippsGFpECSignDSA = false := by
  cases e with
  | call fn args rs =>
    have hfn : fn = .ippsBigNumGetSize := by
      cases fn <;> first | rfl | exact absurd h Bool.false_ne_true
    subst hfn
    exact ⟨trivial, fun hf => absurd hf (by decide),
      ⟨fun hf => absurd hf (by decide), fun hf => absurd hf (by decide)⟩,
      fun hf => absurd hf.1 (by decide), rfl⟩
  | memcpy dst n => exact absurd h Bool.false_ne_true
  | malloc b sz ok => exact absurd h Bool.false_ne_true
  | memset_s b sm c n => exact ⟨trivial, trivial, trivial, fun hf => hf, rfl⟩
  | free b => exact ⟨trivial, trivial, trivial, fun hf => hf, rfl⟩
  | memset d c n => exact absurd h Bool.false_ne_true
  | store d => exact absurd h Bool.false_ne_true

/-- When `sample_ecdsa_sign` returns with its arguments accepted, it returns
what the `switch` maps the status variable to and the signature as the outer
block left it, after events of releasing memory. -/
theorem sign_returned (L : IppLib) (host : ByteOrder) (env : Env) (fuel : Nat)
    (p_data : Option (List Nat)) (data_size : Nat) (p_private : Option (List Nat))
    (p_signature : Option sample_ec256_signature_t)
    (ecc_handle : Option ipp_ec_state_handles_t) (R : Ret (Option sample_ec256_signature_t))
    (hnn : ¬ (ecc_handle = none ∨ p_private = none ∨ p_signature = none ∨ p_data = none
      ∨ data_size < 1))
    (h : sample_ecdsa_sign L host env fuel p_data data_size p_private p_signature ecc_handle
      = some R) :
    ∃ (s : Machine sign_locals) (evs : List Event),
      sign_post L host ((p_data.getD []).take data_size) (p_private.getD []) p_signature s ∧
      (∀ e ∈ evs, e.isCleanup = true) ∧
      R = ⟨switch_ecc s.ipp_ret, s.locals.p_signature, s.trace ++ evs⟩ := by
  obtain ⟨h1, h2⟩ := sign_decomp L host env fuel p_data data_size p_private p_signature
    ecc_handle hnn
  rcases hb : sign_block_run L host env fuel p_data data_size p_private p_signature with _ | s
  · rw [h1 hb] at h
    exact absurd h (by simp)
  · obtain ⟨evs, hevs, hR⟩ := h2 s hb
    rw [hR, Option.some.injEq] at h
    exact ⟨s, evs, sign_block_memory L host env fuel p_data data_size p_private p_signature s hb,
      hevs, h.symm⟩

/-! ## C11: no buffer is leaked -/

/-- C11: for every outcome of the library calls and allocations, when AES-GCM
encrypt, CMAC, key-pair generation, ECDH or ECDSA sign returns, every buffer it
allocated during the call has been freed exactly once (the buffers allocated and
not freed after its trace are none, and no `free` was of a buffer not allocated
at that point); and when `sample_ecc256_open_context` or `sample_sha256_init`
returns a status other than `SAMPLE_SUCCESS`, every buffer it allocated has been
freed, and the handle variable is as the caller left it or, for
`sample_sha256_init`, null. -/
theorem no_leak (L : IppLib) (host : ByteOrder) (env : Env) :
    (∀ (p_key p_src p_dst p_iv p_aad p_out_mac : Option (List Nat)) (src_len iv_len aad_len : Nat),
      live_after [] (sample_rijndael128GCM_encrypt L env p_key p_src src_len p_dst p_iv iv_len
        p_aad aad_len p_out_mac).trace = some []) ∧
    (∀ (p_key p_src p_mac : Option (List Nat)) (src_len : Nat),
      live_after [] (sample_rijndael128_cmac_msg L env p_key p_src src_len p_mac).trace
        = some []) ∧
    (∀ (p_private : Option (List Nat)) (p_public : Option sample_ec256_public_t)
        (ecc_handle : Option ipp_ec_state_handles_t),
      live_after [] (sample_ecc256_create_key_pair L host env p_private p_public
        ecc_handle).trace = some []) ∧
    (∀ (p_private_b : Option (List Nat)) (p_public_ga : Option sample_ec256_public_t)
        (p_shared_key : Option (List Nat)) (ecc_handle : Option ipp_ec_state_handles_t),
      live_after [] (sample_ecc256_compute_shared_dhkey L env p_private_b p_public_ga
        p_shared_key ecc_handle).trace = some []) ∧
    (∀ (fuel : Nat) (p_data : Option (List Nat)) (data_size : Nat)
        (p_private : Option (List Nat)) (p_signature : Option sample_ec256_signature_t)
        (ecc_handle : Option ipp_ec_state_handles_t)
        (R : Ret (Option sample_ec256_signature_t)),
      sample_ecdsa_sign L host env fuel p_data data_size p_private p_signature ecc_handle
        = some R → live_after [] R.trace = some []) ∧
    (∀ ecc_handle : Option (Option ipp_ec_state_handles_t),
      (sample_ecc256_open_context env ecc_handle).status ≠ SAMPLE_SUCCESS →
      live_after [] (sample_ecc256_open_context env ecc_handle).trace = some [] ∧
      (sample_ecc256_open_context env ecc_handle).out = ecc_handle) ∧
    (∀ p_sha_handle : Option (Option sha_state),
      (sample_sha256_init L env p_sha_handle).status ≠ SAMPLE_SUCCESS →
      live_after [] (sample_sha256_init L env p_sha_handle).trace = some [] ∧
      ((sample_sha256_init L env p_sha_handle).out = p_sha_handle ∨
        (sample_sha256_init L env p_sha_handle).out = some none)) := by
  refine ⟨gcm_no_leak L env, cmac_no_leak L env, keypair_no_leak L host env,
    dhkey_no_leak L env, sign_no_leak L host env, fun ecc_handle => ?_,
    fun p_sha_handle => (sha256_init_heap L env p_sha_handle).1⟩
  cases ecc_handle with
  | none => exact fun _ => ⟨rfl, rfl⟩
  | some h => exact (open_context_heap env h).1

/-- Witness of C11: a signature made with every call and allocation succeeding,
and a context whose second allocation is refused. -/
theorem no_leak_witness :
    (∃ R, sample_ecdsa_sign sampleLib .little env_ok 1 (some [1, 2, 3]) 3
        (some (sample_field 3)) (some ⟨sample_field 0, sample_field 0⟩) (some sample_handle)
        = some R ∧ live_after [] R.trace = some []) ∧
    (sample_ecc256_open_context (env_at 4 ⟨ippStsNoErr, 0, ippECValid, false⟩)
        (some none)).status ≠ SAMPLE_SUCCESS ∧
    live_after [] (sample_ecc256_open_context (env_at 4 ⟨ippStsNoErr, 0, ippECValid, false⟩)
      (some none)).trace = some [] ∧
    (sample_ecc256_open_context (env_at 4 ⟨ippStsNoErr, 0, ippECValid, false⟩)
      (some none)).out = some none :=
  ⟨(Option.isSome_iff_exists.mp (by decide : (sample_ecdsa_sign sampleLib .little env_ok 1
      (some [1, 2, 3]) 3 (some (sample_field 3)) (some ⟨sample_field 0, sample_field 0⟩)
      (some sample_handle)).isSome = true)).imp fun R h =>
      ⟨h, (no_leak sampleLib .little env_ok).2.2.2.2.1 _ _ _ _ _ _ R h⟩,
    by decide,
    (no_leak sampleLib .little (env_at 4 ⟨ippStsNoErr, 0, ippECValid, false⟩)).2.2.2.2.2.1
      (some none) (by decide)⟩

/-! ## C13: the ephemeral key handed to the signing primitive -/

/-- C13: in a run of `sample_ecdsa_sign` that returns, whenever
`ippsGFpECSignDSA` is called it is called on the reduced hash, the signing
private key and the ephemeral private key; the ephemeral key compares different
from the signing key (`ippsCmp_BN` gives a result other than 0); and before that
call the ephemeral key and its public point passed `ippsGFpECTstKeyPair` with
the verdict `ippECValid` and the comparison itself reported `ippStsNoErr`.  An
ephemeral key equal to the signing key is never used: a comparison that finds
the two equal is followed at once by a new call of `ippsGFpECPrivateKey`, and
is never the last event. -/
theorem sign_ephemeral_key_checked (L : IppLib) (host : ByteOrder) (env : Env) (fuel : Nat)
    (p_data : Option (List Nat)) (data_size : Nat) (p_private : Option (List Nat))
    (p_signature : Option sample_ec256_signature_t)
    (ecc_handle : Option ipp_ec_state_handles_t) (R : Ret (Option sample_ec256_signature_t))
    (h : sample_ecdsa_sign L host env fuel p_data data_size p_private p_signature ecc_handle
      = some R) :
    (∀ pre post args rs, R.trace = pre ++ Event.call .ippsGFpECSignDSA args rs :: post →
      args = [.bn (sign_msg L host ((p_data.getD []).take data_size)),
        .bn (sign_reg L (p_private.getD [])), .bn (sign_eph L host)] ∧
      L.ippsCmp_BN (sign_eph L host) (sign_reg L (p_private.getD [])) ≠ 0 ∧
      ∃ rt rc : Resp,
        Event.call .ippsGFpECTstKeyPair
          [.bn (sign_eph L host), .pt (L.ippsGFpECPublicKey (sign_eph L host))] rt ∈ pre ∧
        rt.status = ippStsNoErr ∧ rt.verdict = ippECValid ∧
        Event.call .ippsCmp_BN [.bn (sign_eph L host), .bn (sign_reg L (p_private.getD []))] rc
          ∈ pre ∧
        rc.status = ippStsNoErr) ∧
    R.trace.Chain' (fun e1 e2 => e1.foundEqual L → e2.drawsKey) ∧
    (∀ e ∈ R.trace.getLast?, ¬ e.foundEqual L) := by
  by_cases hnn : ecc_handle = none ∨ p_private = none ∨ p_signature = none ∨ p_data = none
      ∨ data_size < 1
  · unfold sample_ecdsa_sign at h
    rw [if_pos hnn, Option.some.injEq] at h
    subst h
    refine ⟨fun pre post args rs hsplit => ?_, List.chain'_nil, fun e he => ?_⟩
    · exact absurd hsplit (by simp)
    · exact absurd he (by simp)
  · obtain ⟨s, evs, ⟨_, hstep, _, hchain, hlast, htested, _⟩, hevs, hR⟩ :=
      sign_returned L host env fuel p_data data_size p_private p_signature ecc_handle R hnn h
    subst hR
    have hquiet : ∀ e ∈ evs, ¬ e.foundEqual L := fun e he =>
      (cleanup_event_facts (hevs e he) (fun _ => ⟨0, []⟩) ippStsNoErr L host [] []).2.2.2.1
    obtain ⟨hc1, hc2⟩ := chain_retry_append L s.trace evs hchain hlast hquiet
    refine ⟨fun pre post args rs hsplit => ?_, hc1, hc2⟩
    obtain ⟨rest, hrest⟩ := split_in_left hsplit fun hmem =>
      absurd (cleanup_event_facts (hevs _ hmem) (fun _ => ⟨0, []⟩) ippStsNoErr L host [] []).2.2.2.2
        (by simp [Event.isCallOf])
    have hmem : Event.call .ippsGFpECSignDSA args rs ∈ s.trace := by
      rw [hrest]
      exact List.mem_append_right _ (List.mem_cons_self _ _)
    obtain ⟨h1, h2⟩ := (hstep _ hmem).2 rfl
    exact ⟨h1, h2, htested pre rest args rs hrest⟩

/-- Witness of C13: a signature made with every call and allocation succeeding;
its trace holds a call of the signing primitive. -/
theorem sign_ephemeral_key_checked_witness :
    ∃ R pre post args rs,
      sample_ecdsa_sign sampleLib .little env_ok 1 (some [1, 2, 3]) 3
        (some (sample_field 3)) (some ⟨sample_field 0, sample_field 0⟩) (some sample_handle)
        = some R ∧
      R.trace = pre ++ Event.call .ippsGFpECSignDSA args rs :: post ∧
      sampleLib.ippsCmp_BN (sign_eph sampleLib .little) (sign_reg sampleLib (sample_field 3)) ≠ 0 ∧
      R.trace.Chain' (fun e1 e2 => e1.foundEqual sampleLib → e2.drawsKey) := by
  obtain ⟨R, hR⟩ := Option.isSome_iff_exists.mp (by decide : (sample_ecdsa_sign sampleLib
    .little env_ok 1 (some [1, 2, 3]) 3 (some (sample_field 3))
    (some ⟨sample_field 0, sample_field 0⟩) (some sample_handle)).isSome = true)
  have hany : ((sample_ecdsa_sign sampleLib .little env_ok 1 (some [1, 2, 3]) 3
      (some (sample_field 3)) (some ⟨sample_field 0, sample_field 0⟩)
      (some sample_handle)).map fun R => R.trace.any (Event.isCallOf .ippsGFpECSignDSA))
      = some true := by decide
  have hmem : ∃ args rs, Event.call .ippsGFpECSignDSA args rs ∈ R.trace := by
    rw [hR, Option.map_some', Option.some.injEq, List.any_eq_true] at hany
    obtain ⟨e, he, hcall⟩ := hany
    cases e with
    | call fn args rs =>
      have hfn : fn = .ippsGFpECSignDSA := of_decide_eq_true hcall
      exact ⟨args, rs, hfn ▸ he⟩
    | _ => exact absurd hcall Bool.false_ne_true
  obtain ⟨args, rs, hmem⟩ := hmem
  obtain ⟨pre, post, hsplit⟩ := List.append_of_mem hmem
  have key := sign_ephemeral_key_checked sampleLib .little env_ok 1 (some [1, 2, 3]) 3
    (some (sample_field 3)) (some ⟨sample_field 0, sample_field 0⟩) (some sample_handle) R hR
  exact ⟨R, pre, post, args, rs, hR, hsplit, (key.1 pre post args rs hsplit).2.1, key.2.1⟩

/-! ## C14: the inner loop of the signature -/

/-- With every call and allocation succeeding, the statements of
`sample_ecdsa_sign` before the inner loop complete, with `p_reg_priv_bn` set
from the private key. -/
theorem sign_before_ok (L : IppLib) (host : ByteOrder) (env : Env) (data r : List Nat)
    (sig : Option sample_ec256_signature_t) (henv : env.allOk) :
    ∃ s1, sample_ecdsa_sign_before_loop L host env data r (entry ippStsErr (sign_init sig))
        = (.ok (), s1) ∧ s1.locals.p_reg_priv_bn = some (sign_reg L r) := by
  have hst : ∀ k, (env k).status = ippStsNoErr := fun k => (henv k).1
  have hok : ∀ k, (env k).ok = true := fun k => (henv k).2.1
  have hw : wp (sample_ecdsa_sign_before_loop L host env data r)
      (fun _ s1 => s1.locals.p_reg_priv_bn = some (sign_reg L r)) (fun _ _ => False)
      (entry ippStsErr (sign_init sig)) := by
    simp only [sample_ecdsa_sign_before_loop, sign_init, entry, wp_bind, wp_pure,
      wp_leave, wp_ite, wp_setLocals, wp_getLocals, wp_ipp_assign, wp_malloc_or, wp_ERROR_BREAK,
      wp_break_with, wp_newBN_or_break _ _ _ _ _ _ _ _ size_32_ok,
      wp_newBN_or_break _ _ _ _ _ _ _ _ size_order_ok, hst, hok, ne_eq, not_true_eq_false,
      false_imp_iff, true_and, forall_const, reduceCtorEq, not_false_eq_true, and_true,
      sign_reg]
  unfold wp at hw
  rcases hr : sample_ecdsa_sign_before_loop L host env data r (entry ippStsErr (sign_init sig))
    with ⟨res, s1⟩
  rw [hr] at hw
  cases res with
  | error e => exact hw.elim
  | ok a => exact ⟨s1, rfl, hw⟩

/-- With every call succeeding and every test giving `ippECValid`, the body of
the inner loop of `sample_ecdsa_sign` completes with `bn_result` the comparison
of the ephemeral key and the private key, which it leaves alone. -/
theorem sign_body_ok (L : IppLib) (host : ByteOrder) (env : Env) (reg : BigNum)
    (henv : env.allOk) (s : Machine sign_locals) (hreg : s.locals.p_reg_priv_bn = some reg) :
    ∃ s1, sample_ecdsa_sign_loop_body L host env s = (.ok (), s1) ∧
      s1.locals.p_reg_priv_bn = some reg ∧
      s1.locals.bn_result = L.ippsCmp_BN (sign_eph L host) reg := by
  have hst : ∀ k, (env k).status = ippStsNoErr := fun k => (henv k).1
  have hv : ∀ k, (env k).verdict = ippECValid := fun k => (henv k).2.2
  rcases s with ⟨p, t, st, l⟩
  simp only at hreg
  have hw : wp (sample_ecdsa_sign_loop_body L host env)
      (fun _ s1 => s1.locals.p_reg_priv_bn = some reg ∧
        s1.locals.bn_result = L.ippsCmp_BN (sign_eph L host) reg) (fun _ _ => False)
      ⟨p, t, st, l⟩ := by
    simp only [sample_ecdsa_sign_loop_body, wp_bind, wp_pure,
      wp_leave, wp_ite, wp_setLocals, wp_getLocals, wp_ipp_assign, wp_ERROR_BREAK,
      wp_break_with, hst, hv, hreg, ne_eq, not_true_eq_false, false_imp_iff, true_and,
      forall_const, reduceCtorEq, not_false_eq_true, and_true, sign_eph, bn_at,
      Option.getD_some, and_self]
  unfold wp at hw
  rcases hr : sample_ecdsa_sign_loop_body L host env ⟨p, t, st, l⟩ with ⟨res, s1⟩
  rw [hr] at hw
  cases res with
  | error e => exact hw.elim
  | ok a => exact ⟨s1, rfl, hw⟩

/-- With every call succeeding and an ephemeral key that compares equal to the
private key, the inner loop of `sample_ecdsa_sign` is still running after any
number of iterations. -/
theorem sign_loop_runs_on (L : IppLib) (host : ByteOrder) (env : Env) (reg : BigNum)
    (henv : env.allOk) (heq : L.ippsCmp_BN (sign_eph L host) reg = 0) (fuel : Nat) :
    ∀ s : Machine sign_locals, s.locals.p_reg_priv_bn = some reg →
      sample_ecdsa_sign_loop L host env fuel s = none := by
  induction fuel with
  | zero => intro s _; rfl
  | succ n ih =>
    intro s hreg
    obtain ⟨s1, h1, h2, h3⟩ := sign_body_ok L host env reg henv s hreg
    unfold sample_ecdsa_sign_loop
    rw [h1]
    simp only
    rw [if_pos (h3.trans heq)]
    exact ih s1 h2

/-- With every call and allocation succeeding, `sample_ecdsa_sign` does not
return when the ephemeral key the library draws from `sample_ipp_DRNGen`
compares equal to the private key: the inner loop is still running after any
number of iterations. -/
theorem sign_never_returns (L : IppLib) (host : ByteOrder) (env : Env)
    (data r : List Nat) (data_size : Nat) (sig : sample_ec256_signature_t)
    (ecc_handle : ipp_ec_state_handles_t) (hsize : 1 ≤ data_size) (henv : env.allOk)
    (heq : L.ippsCmp_BN (sign_eph L host) (sign_reg L r) = 0) (fuel : Nat) :
    sample_ecdsa_sign L host env fuel (some data) data_size (some r) (some sig)
      (some ecc_handle) = none := by
  unfold sample_ecdsa_sign
  rw [if_neg (by simp only [reduceCtorEq, false_or]; omega)]
  obtain ⟨s1, h1, h2⟩ := sign_before_ok L host env (((some data).getD []).take data_size)
    ((some r).getD []) (some sig) henv
  unfold sample_ecdsa_sign_block
  rw [h1]
  simp only
  rw [sign_loop_runs_on L host env (sign_reg L r) henv heq fuel s1 h2]

theorem env_ok_allOk : env_ok.allOk := fun _ => ⟨rfl, rfl, rfl⟩

/-- C14 (the code at the failing input): with the library `valueLib` and every
call and allocation succeeding, `sample_ecc256_create_key_pair` succeeds, and
`sample_ecdsa_sign` called with the private key it wrote does not return: for
every number of iterations allowed to the inner loop, the loop is still
running. -/
theorem sign_diverges_on_generated_key :
    (sample_ecc256_create_key_pair valueLib .little env_ok (some (sample_field 0))
      (some ⟨sample_field 0, sample_field 0⟩) (some sample_handle)).status = SAMPLE_SUCCESS ∧
    (sample_ecc256_create_key_pair valueLib .little env_ok (some (sample_field 0))
      (some ⟨sample_field 0, sample_field 0⟩) (some sample_handle)).out.p_private
      = some (7 :: List.replicate 31 0) ∧
    ∀ fuel : Nat,
      sample_ecdsa_sign valueLib .little env_ok fuel (some [1, 2, 3]) 3
        (some (7 :: List.replicate 31 0)) (some ⟨sample_field 0, sample_field 0⟩)
        (some sample_handle) = none :=
  ⟨by decide, by decide, fun fuel => sign_never_returns valueLib .little env_ok [1, 2, 3]
    (7 :: List.replicate 31 0) 3 ⟨sample_field 0, sample_field 0⟩ sample_handle (by decide)
    env_ok_allOk (by decide) fuel⟩

/-! ## C15: the modulus of the reduction -/

/-- C15: the eight 32-bit words of `sample_nistp256_r`, read least-significant
word first (the sum of `w[i] * 2^(32*i)`), are the order of the NIST P-256
group, `0xFFFFFFFF00000000FFFFFFFFFFFFFFFFBCE6FAADA7179E84F3B9CAC2FC632551`;
`order_size` is 32 bytes; and in a run of `sample_ecdsa_sign` that returns,
every call of `ippsMod_BN` reduces the big number made of the SHA-256 hash of
the data by the big number `p_ecp_order` that `ippsSet_BN` made of these 8
words, and the message handed to `ippsGFpECSignDSA` is the result of that
reduction. -/
theorem sign_modulus_is_order :
    sample_nistp256_r.length = 8 ∧
    ((List.range 8).map fun i => sample_nistp256_r.getD i 0 * 2 ^ (32 * i)).sum
      = 0xFFFFFFFF00000000FFFFFFFFFFFFFFFFBCE6FAADA7179E84F3B9CAC2FC632551 ∧
    nat_of_words sample_nistp256_r = nistp256_order ∧
    nat_of_bytes (bytes_of_words .little sample_nistp256_r) = nistp256_order ∧
    order_size = 32 ∧
    ∀ (L : IppLib) (host : ByteOrder) (env : Env) (fuel : Nat)
      (p_data : Option (List Nat)) (data_size : Nat) (p_private : Option (List Nat))
      (p_signature : Option sample_ec256_signature_t)
      (ecc_handle : Option ipp_ec_state_handles_t) (R : Ret (Option sample_ec256_signature_t)),
      sample_ecdsa_sign L host env fuel p_data data_size p_private p_signature ecc_handle
        = some R →
      (∀ args rs, Event.call .ippsMod_BN args rs ∈ R.trace →
        args = [.bn (L.ippsSetOctString_BN
            (L.ippsHashMessage_rmf ((p_data.getD []).take data_size))),
          .bn (L.ippsSet_BN 8 (bytes_of_words host sample_nistp256_r))]) ∧
      (∀ args rs, Event.call .ippsGFpECSignDSA args rs ∈ R.trace →
        args.head? = some (.bn (L.ippsMod_BN
          (L.ippsSetOctString_BN (L.ippsHashMessage_rmf ((p_data.getD []).take data_size)))
          (L.ippsSet_BN 8 (bytes_of_words host sample_nistp256_r))))) := by
  refine ⟨rfl, by decide, by decide, by decide, by decide, ?_⟩
  intro L host env fuel p_data data_size p_private p_signature ecc_handle R h
  by_cases hnn : ecc_handle = none ∨ p_private = none ∨ p_signature = none ∨ p_data = none
      ∨ data_size < 1
  · unfold sample_ecdsa_sign at h
    rw [if_pos hnn, Option.some.injEq] at h
    subst h
    exact ⟨fun _ _ hmem => absurd hmem (List.not_mem_nil _),
      fun _ _ hmem => absurd hmem (List.not_mem_nil _)⟩
  · obtain ⟨s, evs, ⟨_, hstep, _⟩, hevs, hR⟩ :=
      sign_returned L host env fuel p_data data_size p_private p_signature ecc_handle R hnn h
    subst hR
    have hall : ∀ e ∈ s.trace ++ evs,
        e.signStep L host ((p_data.getD []).take data_size) (p_private.getD []) := by
      intro e he
      rcases List.mem_append.mp he with he | he
      · exact hstep e he
      · exact (cleanup_event_facts (hevs e he) (fun _ => ⟨0, []⟩) ippStsNoErr L host _ _).2.2.1
    refine ⟨fun args rs hmem => (hall _ hmem).1 rfl, fun args rs hmem => ?_⟩
    rw [((hall _ hmem).2 rfl).1]
    rfl

/-- Witness of C15: a signature made with every call and allocation succeeding;
its trace holds a call of `ippsMod_BN`. -/
theorem sign_modulus_is_order_witness :
    ∃ R args rs,
      sample_ecdsa_sign sampleLib .little env_ok 1 (some [1, 2, 3]) 3
        (some (sample_field 3)) (some ⟨sample_field 0, sample_field 0⟩) (some sample_handle)
        = some R ∧
      Event.call .ippsMod_BN args rs ∈ R.trace ∧
      args = [.bn (sampleLib.ippsSetOctString_BN (sampleLib.ippsHashMessage_rmf [1, 2, 3])),
        .bn (sampleLib.ippsSet_BN 8 (bytes_of_words .little sample_nistp256_r))] := by
  obtain ⟨R, hR⟩ := Option.isSome_iff_exists.mp (by decide : (sample_ecdsa_sign sampleLib
    .little env_ok 1 (some [1, 2, 3]) 3 (some (sample_field 3))
    (some ⟨sample_field 0, sample_field 0⟩) (some sample_handle)).isSome = true)
  have hany : ((sample_ecdsa_sign sampleLib .little env_ok 1 (some [1, 2, 3]) 3
      (some (sample_field 3)) (some ⟨sample_field 0, sample_field 0⟩)
      (some sample_handle)).map fun R => R.trace.any (Event.isCallOf .ippsMod_BN))
      = some true := by decide
  rw [hR, Option.map_some', Option.some.injEq, List.any_eq_true] at hany
  obtain ⟨e, he, hcall⟩ := hany
  cases e with
  | call fn args rs =>
    have hfn : fn = .ippsMod_BN := of_decide_eq_true hcall
    subst hfn
    exact ⟨R, args, rs, hR, he, (sign_modulus_is_order.2.2.2.2.2 sampleLib .little env_ok 1
      (some [1, 2, 3]) 3 (some (sample_field 3)) (some ⟨sample_field 0, sample_field 0⟩)
      (some sample_handle) R hR).1 args rs he⟩
  | _ => exact absurd hcall Bool.false_ne_true

/-! ## C19: the copies into the output fields -/

theorem copy_len_ceil (length : Int) (h0 : 0 ≤ length) (h1 : length ≤ 2 ^ 31 - 8) :
    (copy_len length : Int) = ⌈(length : ℚ) / 8⌉ := by
  rw [copy_len_eq length h0 h1]
  symm
  rw [Int.ceil_eq_iff]
  have h2 : 8 * ((length + 7) / 8) ≤ length + 7 := Int.mul_ediv_self_le (by norm_num)
  have h3 : length + 7 < 8 * ((length + 7) / 8) + 8 := Int.lt_mul_ediv_self_add (by norm_num)
  constructor
  · rw [lt_div_iff₀ (by norm_num)]
    have h4 : ((length + 7) / 8 - 1) * 8 < length := by omega
    exact_mod_cast h4
  · rw [div_le_iff₀ (by norm_num)]
    have h4 : length ≤ (length + 7) / 8 * 8 := by omega
    exact_mod_cast h4

/-- A trace whose copies fit and whose calls of `ippsRef_BN` are checked, in a
function that returns `SAMPLE_ERROR_INVALID_PARAMETER` for `ippStsSizeErr`. -/
theorem CopiesFit.intro {src : Out → BigNum} {t : List Event} {st : IppStatus}
    {status : sample_status_t} (hc : ∀ e ∈ t, e.copyFits src) (hr : ∀ e ∈ t, e.refChecked st)
    (hs : st = ippStsSizeErr → status = SAMPLE_ERROR_INVALID_PARAMETER) :
    CopiesFit src t status := by
  refine ⟨fun dst n hmem => hc _ hmem, fun bn rs hmem hst hbig => ⟨?_, fun dst hcopy => ?_⟩⟩
  · exact hs (hr _ hmem rfl hst bn rfl hbig)
  · have h1 := (hc _ hcopy).2
    omega

/-- The events of a function whose block is followed by events of releasing
memory: the copies fit when those of the block do. -/
theorem CopiesFit.of_block {src : Out → BigNum} {t evs : List Event} {st : IppStatus}
    {status : sample_status_t} (hc : ∀ e ∈ t, e.copyFits src) (hr : ∀ e ∈ t, e.refChecked st)
    (hevs : ∀ e ∈ evs, e.isCleanup = true)
    (hs : st = ippStsSizeErr → status = SAMPLE_ERROR_INVALID_PARAMETER) :
    CopiesFit src (t ++ evs) status := by
  refine CopiesFit.intro (fun e he => ?_) (fun e he => ?_) hs
  · rcases List.mem_append.mp he with he | he
    · exact hc e he
    · exact (cleanup_event_facts (hevs e he) src st sampleLib .little [] []).1
  · rcases List.mem_append.mp he with he | he
    · exact hr e he
    · exact (cleanup_event_facts (hevs e he) src st sampleLib .little [] []).2.1

/-- C19: output copies never overrun the fixed 32-byte fields.  The number of
bytes copied, `ROUND_TO(length, 8) / 8`, equals `ceil(length / 8)` for
`0 <= length <= 2^31 - 8`; and in `sample_ecc256_create_key_pair`,
`sample_ecc256_compute_shared_dhkey` and `sample_ecdsa_sign`, every `memcpy`
into an output field copies that byte count for the bit length of its big
number and the count is at most 32, while a big number for which the count
exceeds 32 is not copied and the operation returns
`SAMPLE_ERROR_INVALID_PARAMETER`. -/
theorem output_copies_fit :
    (∀ length : Int, 0 ≤ length → length ≤ 2 ^ 31 - 8 →
      (copy_len length : Int) = ⌈(length : ℚ) / 8⌉) ∧
    (∀ (L : IppLib) (host : ByteOrder) (env : Env) (p_private : Option (List Nat))
        (p_public : Option sample_ec256_public_t) (ecc_handle : Option ipp_ec_state_handles_t),
      CopiesFit (keypair_source L host)
        (sample_ecc256_create_key_pair L host env p_private p_public ecc_handle).trace
        (sample_ecc256_create_key_pair L host env p_private p_public ecc_handle).status) ∧
    (∀ (L : IppLib) (env : Env) (p_private_b : Option (List Nat))
        (p_public_ga : Option sample_ec256_public_t) (p_shared_key : Option (List Nat))
        (ecc_handle : Option ipp_ec_state_handles_t),
      CopiesFit
        (fun _ => dh_share L (p_private_b.getD []) ((p_public_ga.map fun p => p.gx).getD [])
          ((p_public_ga.map fun p => p.gy).getD []))
        (sample_ecc256_compute_shared_dhkey L env p_private_b p_public_ga p_shared_key
          ecc_handle).trace
        (sample_ecc256_compute_shared_dhkey L env p_private_b p_public_ga p_shared_key
          ecc_handle).status) ∧
    (∀ (L : IppLib) (host : ByteOrder) (env : Env) (fuel : Nat)
        (p_data : Option (List Nat)) (data_size : Nat) (p_private : Option (List Nat))
        (p_signature : Option sample_ec256_signature_t)
        (ecc_handle : Option ipp_ec_state_handles_t)
        (R : Ret (Option sample_ec256_signature_t)),
      sample_ecdsa_sign L host env fuel p_data data_size p_private p_signature ecc_handle
        = some R →
      CopiesFit (sign_source L host ((p_data.getD []).take data_size) (p_private.getD []))
        R.trace R.status) := by
  refine ⟨copy_len_ceil, ?_, ?_, ?_⟩
  · intro L host env p_private p_public ecc_handle
    by_cases hnn : ecc_handle = none ∨ p_private = none ∨ p_public = none
    · rw [keypair_reject L host env p_private p_public ecc_handle hnn]
      exact ⟨fun _ _ h => absurd h (List.not_mem_nil _),
        fun _ _ h => absurd h (List.not_mem_nil _)⟩
    · obtain ⟨evs, hevs, hR⟩ := keypair_decomp L host env p_private p_public ecc_handle hnn
      obtain ⟨_, hc, hr, _⟩ := keypair_block_memory L host env p_private p_public
      rw [hR]
      exact CopiesFit.of_block hc hr hevs fun h => by rw [h]; rfl
  · intro L env p_private_b p_public_ga p_shared_key ecc_handle
    by_cases hnn : ecc_handle = none ∨ p_private_b = none ∨ p_public_ga = none
        ∨ p_shared_key = none
    · rw [dhkey_reject L env p_private_b p_public_ga p_shared_key ecc_handle hnn]
      exact ⟨fun _ _ h => absurd h (List.not_mem_nil _),
        fun _ _ h => absurd h (List.not_mem_nil _)⟩
    · obtain ⟨evs, hevs, hR⟩ := dhkey_decomp L env p_private_b p_public_ga p_shared_key
        ecc_handle hnn
      obtain ⟨_, hc, hr, _⟩ := dhkey_block_memory L env p_private_b p_public_ga p_shared_key
      rw [hR]
      refine CopiesFit.of_block hc hr hevs fun h => ?_
      rw [h]
      split <;> rfl
  · intro L host env fuel p_data data_size p_private p_signature ecc_handle R h
    by_cases hnn : ecc_handle = none ∨ p_private = none ∨ p_signature = none ∨ p_data = none
        ∨ data_size < 1
    · unfold sample_ecdsa_sign at h
      rw [if_pos hnn, Option.some.injEq] at h
      subst h
      exact ⟨fun _ _ h => absurd h (List.not_mem_nil _),
        fun _ _ h => absurd h (List.not_mem_nil _)⟩
    · obtain ⟨s, evs, ⟨_, hstep, hr, _⟩, hevs, hR⟩ :=
        sign_returned L host env fuel p_data data_size p_private p_signature ecc_handle R hnn h
      subst hR
      refine CopiesFit.of_block (fun e he => ?_) hr hevs fun h => by rw [h]; rfl
      have h1 := hstep e he
      cases e with
      | memcpy dst n => exact h1
      | _ => trivial

/-- Witness of C19: a bit length of 256; and a key pair whose private key is
reported as 264 bits long, which is not copied. -/
theorem output_copies_fit_witness :
    (copy_len 256 : Int) = ⌈((256 : Int) : ℚ) / 8⌉ ∧
    (sample_ecc256_create_key_pair longLib .little env_ok (some (sample_field 1))
      (some ⟨sample_field 2, sample_field 3⟩) (some sample_handle)).status
      = SAMPLE_ERROR_INVALID_PARAMETER ∧
    ∀ dst, Event.memcpy dst (copy_len 264) ∉
      (sample_ecc256_create_key_pair longLib .little env_ok (some (sample_field 1))
        (some ⟨sample_field 2, sample_field 3⟩) (some sample_handle)).trace :=
  ⟨output_copies_fit.1 256 (by decide) (by decide),
    (output_copies_fit.2.1 longLib .little env_ok (some (sample_field 1))
      (some ⟨sample_field 2, sample_field 3⟩) (some sample_handle)).2 ⟨264, [7]⟩
      ⟨ippStsNoErr, 64, ippECValid, true⟩ (by decide) (by decide) (by decide)⟩

/-! ## C20: the output fields are zero-padded -/

/-- The field a big number is handed out in has 32 bytes when the byte count of
the number is at most 32: its data bytes first, then zeros. -/
theorem padded_bytes (bn : BigNum) (hn : copy_len bn.length ≤ 32) :
    (padded bn).length = 32 ∧
    ∀ i, i < 32 → (padded bn).getD i 0 = if i < copy_len bn.length then bn.data.getD i 0 else 0 := by
  unfold padded
  refine ⟨?_, fun i hi => ?_⟩
  · rw [List.length_append, List.length_map, List.length_range, List.length_replicate]
    omega
  · by_cases hlt : i < copy_len bn.length
    · rw [if_pos hlt, List.getD_eq_getElem?_getD, List.getElem?_append_left (by simpa using hlt)]
      simp [List.getElem?_map, List.getElem?_range hlt]
    · rw [if_neg hlt, List.getD_eq_getElem?_getD,
        List.getElem?_append_right (by simpa using hlt)]
      simp only [List.length_map, List.length_range]
      rw [List.getElem?_replicate]
      split <;> rfl

/-- C20: the fixed-size outputs are zero-padded.  Whenever
`sample_ecc256_create_key_pair` returns `SAMPLE_SUCCESS` on 32-byte fields, each
of `p_public->gx`, `p_public->gy` and `p_private->r` is a 32-byte value whose
first `ROUND_TO(length, 8) / 8` bytes (`ceil(length / 8)` of them, for a bit
length from 0 to `2^31 - 8`) are the data bytes of the big number, least
significant first, and whose remaining bytes are zero, whatever the fields held
before; and the same holds of `p_shared_key->s` after a successful
`sample_ecc256_compute_shared_dhkey`. -/
theorem outputs_zero_padded :
    (∀ bn : BigNum, copy_len bn.length ≤ 32 →
      (padded bn).length = 32 ∧
      (∀ i, i < 32 →
        (padded bn).getD i 0 = if i < copy_len bn.length then bn.data.getD i 0 else 0) ∧
      (0 ≤ bn.length → bn.length ≤ 2 ^ 31 - 8 →
        (copy_len bn.length : Int) = ⌈(bn.length : ℚ) / 8⌉)) ∧
    (∀ (L : IppLib) (host : ByteOrder) (env : Env) (r0 : List Nat) (A0 : sample_ec256_public_t)
        (ecc_handle : ipp_ec_state_handles_t),
      r0.length = 32 → A0.gx.length = 32 → A0.gy.length = 32 →
      (sample_ecc256_create_key_pair L host env (some r0) (some A0) (some ecc_handle)).status
        = SAMPLE_SUCCESS →
      copy_len (keypair_source L host .r).length ≤ 32 ∧
      copy_len (keypair_source L host .gx).length ≤ 32 ∧
      copy_len (keypair_source L host .gy).length ≤ 32 ∧
      (sample_ecc256_create_key_pair L host env (some r0) (some A0) (some ecc_handle)).out
        = ⟨some (padded (keypair_source L host .r)),
          some ⟨padded (keypair_source L host .gx), padded (keypair_source L host .gy)⟩⟩) ∧
    (∀ (L : IppLib) (env : Env) (r : List Nat) (A : sample_ec256_public_t) (s0 : List Nat)
        (ecc_handle : ipp_ec_state_handles_t),
      s0.length = 32 →
      (sample_ecc256_compute_shared_dhkey L env (some r) (some A) (some s0)
        (some ecc_handle)).status = SAMPLE_SUCCESS →
      copy_len (dh_share L r A.gx A.gy).length ≤ 32 ∧
      (sample_ecc256_compute_shared_dhkey L env (some r) (some A) (some s0)
        (some ecc_handle)).out = some (padded (dh_share L r A.gx A.gy))) := by
  refine ⟨fun bn hn => ⟨(padded_bytes bn hn).1, (padded_bytes bn hn).2,
    copy_len_ceil bn.length⟩, ?_, ?_⟩
  · intro L host env r0 A0 ecc_handle hr hgx hgy hst
    obtain ⟨evs, _, hR⟩ := keypair_decomp L host env (some r0) (some A0) (some ecc_handle)
      (by simp only [reduceCtorEq, or_self, not_false_eq_true])
    rw [hR] at hst ⊢
    have hret := (switch_ecc_success _).mp hst
    obtain ⟨_, _, hout⟩ := keypair_block_summary L host env (some r0) (some A0)
    obtain ⟨_, hp1, hp2⟩ := hout hret
    obtain ⟨_, _, _, hfit⟩ := keypair_block_memory L host env (some r0) (some A0)
    obtain ⟨f1, f2, f3⟩ := hfit hret
    refine ⟨f1, f2, f3, ?_⟩
    show keypair_out.mk _ _ = _
    rw [hp1, hp2]
    simp only [Option.map_some', keypair_source] at f1 f2 f3 ⊢
    rw [padded_field r0 _ hr f1, padded_field A0.gx _ hgx f2, padded_field A0.gy _ hgy f3]
  · intro L env r A s0 ecc_handle hs hst
    obtain ⟨evs, _, hR⟩ := dhkey_decomp L env (some r) (some A) (some s0) (some ecc_handle)
      (by simp only [reduceCtorEq, or_self, not_false_eq_true])
    rw [hR] at hst ⊢
    obtain ⟨_, _, _, hfin⟩ := dhkey_block_memory L env (some r) (some A) (some s0)
    have hret : (dhkey_block_run L env (some r) (some A) (some s0)).ipp_ret = ippStsNoErr := by
      simp only at hst
      split at hst
      · exact absurd hst (by decide)
      · exact (switch_ecc_success _).mp hst
    obtain ⟨_, hfit, hout⟩ := hfin hret
    refine ⟨hfit, ?_⟩
    show _ = some _
    rw [hout]
    exact congrArg some (padded_field s0 _ hs hfit)

/-- Witness of C20: a key pair and a shared key made with every call and
allocation succeeding, in fields that held other bytes. -/
theorem outputs_zero_padded_witness :
    (sample_ecc256_create_key_pair sampleLib .little env_ok (some (sample_field 1))
        (some ⟨sample_field 2, sample_field 3⟩) (some sample_handle)).out
      = ⟨some (padded (keypair_source sampleLib .little .r)),
        some ⟨padded (keypair_source sampleLib .little .gx),
          padded (keypair_source sampleLib .little .gy)⟩⟩ ∧
    (sample_ecc256_compute_shared_dhkey sampleLib env_ok (some (sample_field 5))
        (some ⟨sample_field 2, sample_field 3⟩) (some (sample_field 9))
        (some sample_handle)).out
      = some (padded (dh_share sampleLib (sample_field 5) (sample_field 2) (sample_field 3))) ∧
    (padded (keypair_source sampleLib .little .r)).length = 32 :=
  ⟨(outputs_zero_padded.2.1 sampleLib .little env_ok (sample_field 1)
      ⟨sample_field 2, sample_field 3⟩ sample_handle (by decide) (by decide) (by decide)
      (by decide)).2.2.2,
    (outputs_zero_padded.2.2 sampleLib env_ok (sample_field 5) ⟨sample_field 2, sample_field 3⟩
      (sample_field 9) sample_handle (by decide) (by decide)).2,
    (outputs_zero_padded.1 (keypair_source sampleLib .little .r) (by decide)).1⟩

/-! ## C12: a signature made by `sample_ecdsa_sign` verifies -/

/-- Multiples of the base point by numbers that agree modulo the order are
the same point. -/
theorem EcdsaModel.smul_congr {L : IppLib} (M : EcdsaModel L) (a b : Nat)
    (h : (a : ZMod nistp256_order) = (b : ZMod nistp256_order)) : a • M.base = b • M.base := by
  have hn : nistp256_order • M.base = 0 := (M.order_exact _).mpr dvd_rfl
  have key : ∀ c : Nat, c • M.base = (c % nistp256_order) • M.base := by
    intro c
    conv_lhs => rw [← Nat.mod_add_div' c nistp256_order]
    rw [add_smul, mul_smul, hn, smul_zero, add_zero]
  rw [key a, key b, (ZMod.natCast_eq_natCast_iff' a b _).mp h]

/-- The point ECDSA verification computes from a signature `(r, s)` with
`s k = e + r d (mod n)` and `s` invertible, under the public point `d G`, is
`k G`. -/
theorem EcdsaModel.verify_point_eq {L : IppLib} (M : EcdsaModel L) (e r s k d : Nat)
    (hs : s.Coprime nistp256_order)
    (hsk : (s * k) % nistp256_order = (e % nistp256_order + r * d) % nistp256_order) :
    (e * ecdsa_w s % nistp256_order) • M.base
      + (r * ecdsa_w s % nistp256_order) • (d • M.base) = k • M.base := by
  haveI : NeZero nistp256_order := ⟨by decide⟩
  rw [smul_smul, ← add_smul]
  apply M.smul_congr
  have hw : (ecdsa_w s : ZMod nistp256_order) = (s : ZMod nistp256_order)⁻¹ :=
    ZMod.natCast_zmod_val _
  have h1 : ((s * k : Nat) : ZMod nistp256_order)
      = ((e % nistp256_order + r * d : Nat) : ZMod nistp256_order) :=
    (ZMod.natCast_eq_natCast_iff' _ _ _).mpr hsk
  push_cast at h1 ⊢
  rw [ZMod.natCast_mod] at h1
  rw [ZMod.natCast_mod, ZMod.natCast_mod]
  push_cast
  rw [hw]
  have hinv : (s : ZMod nistp256_order) * (s : ZMod nistp256_order)⁻¹ = 1 :=
    ZMod.coe_mul_inv_eq_one s hs
  calc (e : ZMod nistp256_order) * (s : ZMod nistp256_order)⁻¹
        + r * (s : ZMod nistp256_order)⁻¹ * d
      = (s : ZMod nistp256_order)⁻¹ * (e + r * d) := by ring
    _ = (s : ZMod nistp256_order)⁻¹ * (s * k) := by rw [h1]
    _ = (s * (s : ZMod nistp256_order)⁻¹) * k := by ring
    _ = k := by rw [hinv, one_mul]

/-- In the model, the big number `p_ecp_order` of `sample_ecdsa_sign` on a
little-endian host holds the order of P-256. -/
theorem EcdsaModel.val_order {L : IppLib} (M : EcdsaModel L) :
    M.val (sign_order L .little) = nistp256_order := by
  have h := M.val_set (bytes_of_words .little sample_nistp256_r) (by decide)
  have h2 : nat_of_bytes (bytes_of_words .little sample_nistp256_r) = nistp256_order := by
    decide
  rw [h2] at h
  exact h

/-- A successful `sample_ecdsa_sign` on 32-byte fields writes the zero-padded
bytes of the two big numbers `ippsGFpECSignDSA` computed, which fit the
fields. -/
theorem sign_written (L : IppLib) (host : ByteOrder) (env : Env) (fuel : Nat)
    (data : List Nat) (data_size : Nat) (d : List Nat) (sig0 : sample_ec256_signature_t)
    (ecc_handle : ipp_ec_state_handles_t) (R : Ret (Option sample_ec256_signature_t))
    (hx : sig0.x.length = 32) (hy : sig0.y.length = 32)
    (hR : sample_ecdsa_sign L host env fuel (some data) data_size (some d) (some sig0)
      (some ecc_handle) = some R)
    (hst : R.status = SAMPLE_SUCCESS) :
    copy_len (sign_sig L host (data.take data_size) d).1.length ≤ 32 ∧
    copy_len (sign_sig L host (data.take data_size) d).2.length ≤ 32 ∧
    R.out = some ⟨padded (sign_sig L host (data.take data_size) d).1,
      padded (sign_sig L host (data.take data_size) d).2⟩ := by
  have hnn : ¬ ((some ecc_handle = none) ∨ (some d = none) ∨ (some sig0 = none) ∨
      (some data = none) ∨ data_size < 1) := by
    intro hc
    unfold sample_ecdsa_sign at hR
    rw [if_pos hc, Option.some.injEq] at hR
    rw [← hR] at hst
    exact absurd hst (by simp)
  obtain ⟨s, evs, hpost, _, hRe⟩ := sign_returned L host env fuel (some data) data_size
    (some d) (some sig0) (some ecc_handle) R hnn hR
  subst hRe
  have hret : s.ipp_ret = ippStsNoErr := (switch_ecc_success _).mp hst
  obtain ⟨f1, f2, _, hsig⟩ := hpost.2.2.2.2.2.2 hret
  simp only [Option.getD_some, Option.map_some'] at f1 f2 hsig
  rw [padded_field sig0.x _ hx f1, padded_field sig0.y _ hy f2] at hsig
  exact ⟨f1, f2, hsig⟩

/-- The number the `k` bytes of `x`, least significant first, hold. -/
theorem nat_of_le_bytes (k : Nat) : ∀ x, nat_of_bytes (le_bytes k x) = x % 256 ^ k := by
  induction k with
  | zero => intro x; simp [le_bytes, nat_of_bytes, Nat.mod_one]
  | succ k ih =>
    intro x
    rw [le_bytes, nat_of_bytes, ih, pow_succ', Nat.mod_mul]

theorem le_bytes_length (k : Nat) : ∀ x, (le_bytes k x).length = k := by
  induction k with
  | zero => intro x; rfl
  | succ k ih => intro x; rw [le_bytes, List.length_cons, ih]

/-- A 256-bit big number whose data are 32 bytes is handed out as these
bytes. -/
theorem padded_le_bytes (x : Nat) : padded ⟨256, le_bytes 32 x⟩ = le_bytes 32 x := by
  have hc : copy_len 256 = 32 := by decide
  unfold padded
  simp only [hc, Nat.sub_self, List.replicate_zero, List.append_nil]
  apply List.ext_getElem?
  intro i
  by_cases hi : i < 32
  · rw [List.getElem?_map, List.getElem?_range hi, Option.map_some',
      List.getD_eq_getElem?_getD,
      List.getElem?_eq_getElem (by rw [le_bytes_length]; exact hi)]
    rfl
  · rw [List.getElem?_eq_none (by simp only [List.length_map, List.length_range]; omega),
      List.getElem?_eq_none (by rw [le_bytes_length]; omega)]

theorem ecdsaLib_sign (m d k : BigNum) :
    ecdsaLib.ippsGFpECSignDSA m d k
      = (⟨256, le_bytes 32 (nat_of_bytes k.data % nistp256_order)⟩,
        ⟨256, le_bytes 32 (((nat_of_bytes k.data : ZMod nistp256_order)⁻¹ *
          ((nat_of_bytes m.data + nat_of_bytes k.data % nistp256_order * nat_of_bytes d.data
            : Nat) : ZMod nistp256_order)).val)⟩) := rfl

theorem ecdsaLib_mod (a b : BigNum) :
    (ecdsaLib.ippsMod_BN a b).data
      = le_bytes 32 (nat_of_bytes a.data % nat_of_bytes b.data) := rfl

/-- The two fields `ecdsaLib` signs the message `[1, 2, 3]` into with the
private key `d`: the bytes of 1, and the bytes of the digest plus `d`, modulo
the order. -/
theorem ecdsa_sample_sig (d : List Nat) :
    padded (sign_sig ecdsaLib .little (List.take 3 [1, 2, 3]) d).1 = 1 :: List.replicate 31 0 ∧
    padded (sign_sig ecdsaLib .little (List.take 3 [1, 2, 3]) d).2
      = le_bytes 32
        ((0x0606060606060606060606060606060606060606060606060606060606060606
          + nat_of_bytes d) % nistp256_order) := by
  have h1 : ((nat_of_bytes (sign_eph ecdsaLib .little).data : Nat) : ZMod nistp256_order)
      = 1 := by
    have : nat_of_bytes (sign_eph ecdsaLib .little).data = 1 := by decide
    rw [this, Nat.cast_one]
  have h2 : nat_of_bytes (sign_eph ecdsaLib .little).data % nistp256_order = 1 := by decide
  have h3 : nat_of_bytes (sign_hash ecdsaLib (List.take 3 [1, 2, 3])).data
      % nat_of_bytes (sign_order ecdsaLib .little).data % 256 ^ 32
      = 0x0606060606060606060606060606060606060606060606060606060606060606 := by decide
  have h4 : (sign_reg ecdsaLib d).data = d := rfl
  rw [sign_sig, ecdsaLib_sign, padded_le_bytes, padded_le_bytes, h1, ZMod.inv_one, one_mul,
    ZMod.val_natCast, h2, one_mul, sign_msg, ecdsaLib_mod, nat_of_le_bytes, h3, h4]
  exact ⟨by decide, rfl⟩

theorem flatLib_sign (m d k : BigNum) :
    flatLib.ippsGFpECSignDSA m d k
      = (⟨256, le_bytes 32 0⟩,
        ⟨256, le_bytes 32 (((nat_of_bytes k.data : ZMod nistp256_order)⁻¹ *
          ((nat_of_bytes m.data : Nat) : ZMod nistp256_order)).val)⟩) := rfl

theorem flatLib_mod (a b : BigNum) :
    (flatLib.ippsMod_BN a b).data
      = le_bytes 32 (nat_of_bytes a.data % nat_of_bytes b.data) := rfl

/-- The two fields `flatLib` signs the message `[1, 2, 3]` into, whatever the
private key: the bytes of 0, and the bytes of the digest. -/
theorem flat_sample_sig (d : List Nat) :
    padded (sign_sig flatLib .little (List.take 3 [1, 2, 3]) d).1 = List.replicate 32 0 ∧
    padded (sign_sig flatLib .little (List.take 3 [1, 2, 3]) d).2 = List.replicate 32 6 := by
  have h1 : ((nat_of_bytes (sign_eph flatLib .little).data : Nat) : ZMod nistp256_order)
      = 1 := by
    have : nat_of_bytes (sign_eph flatLib .little).data = 1 := by decide
    rw [this, Nat.cast_one]
  have h3 : nat_of_bytes (sign_hash flatLib (List.take 3 [1, 2, 3])).data
      % nat_of_bytes (sign_order flatLib .little).data % 256 ^ 32
      = 0x0606060606060606060606060606060606060606060606060606060606060606 := by decide
  rw [sign_sig, flatLib_sign, padded_le_bytes, padded_le_bytes, h1, ZMod.inv_one, one_mul,
    ZMod.val_natCast, sign_msg, flatLib_mod, nat_of_le_bytes, h3]
  exact ⟨by decide, by decide⟩

end SampleLibcrypto
